import Mathlib

/-!
# Monkey HTTP server, FastCGI plugin (`src/plugins/fastcgi/fastcgi.c`)

A shallow embedding of the connection / protocol engine of the plugin and
theorems about it.  Machine integers are natural numbers with explicit
reductions modulo `2 ^ w`; byte buffers are lists of natural numbers; the
header buffer of `fcgi_prepare_request` is a memory map from offsets to bytes.

Only `fastcgi.c` is part of the sources.  The helpers it calls from
`protocol.c`, `chunk.c`, `request.c`, `fcgi_fd.c` and `fcgi_env.c` are modelled
from the specification; each such definition says so in its doc comment.
-/

namespace Monkey

/-! ## Machine arithmetic -/

/-- Modulus of `size_t` / `ssize_t` arithmetic (64-bit). -/
def WORD : Nat := 2 ^ 64

/-- Unsigned subtraction of two `size_t` values, as in `len - pos`. -/
def usub (a b : Nat) : Nat := (a % WORD + (WORD - b % WORD)) % WORD

/-- Bitwise complement `~x` of a 64-bit value. -/
def bnot64 (x : Nat) : Nat := WORD - 1 - x % WORD

/-- The padding expression `~(L - 1) & 7` of `fcgi_prepare_request`
(lines 277 and 293), on the 64-bit length `L`. -/
def fcgi_body_pad (L : Nat) : Nat := bnot64 (usub L 1) &&& 7

/-! ## Wire codec (`protocol.h`) -/

def FCGI_VERSION_1 : Nat := 1
def FCGI_BEGIN_REQUEST : Nat := 1
def FCGI_ABORT_REQUEST : Nat := 2
def FCGI_END_REQUEST : Nat := 3
def FCGI_PARAMS : Nat := 4
def FCGI_STDIN : Nat := 5
def FCGI_STDOUT : Nat := 6
def FCGI_STDERR : Nat := 7
def FCGI_RESPONDER : Nat := 1
def FCGI_KEEP_CONN : Nat := 1
def FCGI_REQUEST_COMPLETE : Nat := 0

/-- The record header `struct fcgi_header`: `version` and `type` and
`body_pad` are 8-bit, `req_id` and `body_len` are 16-bit. -/
structure fcgi_header where
  version : Nat
  type : Nat
  req_id : Nat
  body_len : Nat
  body_pad : Nat
deriving DecidableEq, Repr

/-- The body of a begin-request record, `struct fcgi_begin_req_body`. -/
structure fcgi_begin_req_body where
  role : Nat
  flags : Nat
deriving DecidableEq, Repr

/-- The body of an end-request record, `struct fcgi_end_req_body`. -/
structure fcgi_end_req_body where
  app_status : Nat
  protocol_status : Nat
deriving DecidableEq, Repr

/-- Size of `struct fcgi_header`, `sizeof(h)`. -/
def SIZEOF_HEADER : Nat := 8

/-- Size of `struct fcgi_begin_req_body`, `sizeof(b)`. -/
def SIZEOF_BEGIN_REQ_BODY : Nat := 8

/-- Modelled from the spec: fcgi_write_header of protocol.c, which is not part
of the sources.  The eight bytes are "version(1B) + type(1B) +
request-id(2B big-endian) + body-length(2B big-endian) +
body-padding-length(1B) + reserved(1B)"; the function returns their number. -/
def fcgi_write_header (h : fcgi_header) : List Nat :=
  [h.version % 256, h.type % 256, h.req_id / 256 % 256, h.req_id % 256,
   h.body_len / 256 % 256, h.body_len % 256, h.body_pad % 256, 0]

/-- Modelled from the spec: fcgi_read_header of protocol.c, the inverse of the
header layout; bytes that are not there read as zero. -/
def fcgi_read_header (p : List Nat) : fcgi_header :=
  { version := p.getD 0 0
    type := p.getD 1 0
    req_id := p.getD 2 0 * 256 + p.getD 3 0
    body_len := p.getD 4 0 * 256 + p.getD 5 0
    body_pad := p.getD 6 0 }

/-- Modelled from the spec: fcgi_write_begin_req_body of protocol.c:
"role(2B big-endian) + flags(1B) + 5 reserved bytes". -/
def fcgi_write_begin_req_body (b : fcgi_begin_req_body) : List Nat :=
  [b.role / 256 % 256, b.role % 256, b.flags % 256, 0, 0, 0, 0, 0]

/-- Modelled from the spec: the inverse of the begin-request body layout. -/
def fcgi_read_begin_req_body (p : List Nat) : fcgi_begin_req_body :=
  { role := p.getD 0 0 * 256 + p.getD 1 0
    flags := p.getD 2 0 }

/-- Modelled from the spec: fcgi_read_end_req_body of protocol.c:
"app-status(4B big-endian) + protocol-status(1B) + 3 reserved bytes". -/
def fcgi_read_end_req_body (p : List Nat) : fcgi_end_req_body :=
  { app_status := ((p.getD 0 0 * 256 + p.getD 1 0) * 256 + p.getD 2 0) * 256 + p.getD 3 0
    protocol_status := p.getD 4 0 }

/-! ## Header buffer of `fcgi_prepare_request` -/

/-- Contents of a memory area, by offset. -/
abbrev Mem := Nat → Nat

/-- Store the bytes `bs` at offset `off`. -/
def mem_write (m : Mem) (off : Nat) (bs : List Nat) : Mem :=
  fun a => if off ≤ a ∧ a < off + bs.length then bs.getD (a - off) 0 else m a

/-- Load `n` bytes from offset `off`. -/
def mem_read (m : Mem) (off n : Nat) : List Nat :=
  (List.range n).map (fun i => m (off + i))

/-- What an entry of the outbound vector points at. -/
inductive iov_ptr where
  | buffer (off : Nat)
  | data
deriving DecidableEq, Repr

/-- One entry of the outbound vector: pointer, length and the free flag given
to `chunk_iov_add_ptr`. -/
structure iov_entry where
  ptr : iov_ptr
  len : Nat
  free : Bool
deriving DecidableEq, Repr

/-- The `struct chunk_iov` of a request while the outbound message is built:
`size` entries can be held, `io` are the entries in use. -/
structure begin_iov where
  size : Nat
  io : List iov_entry
deriving DecidableEq, Repr

/-- Modelled from the spec: chunk_iov_add_ptr of chunk.c, which is not part of
the sources: appends one segment to the scatter/gather vector; it fails when
the vector has no free entry. -/
def chunk_iov_add_ptr (iov : begin_iov) (p : iov_ptr) (len : Nat) (free : Bool) :
    Option begin_iov :=
  if iov.io.length < iov.size then some { iov with io := iov.io ++ [⟨p, len, free⟩] } else none

/-- Modelled from the spec: fcgi_env_write of fcgi_env.c, the "excluded
environment-serialization collaborator": it is offered `avail` bytes, stores
the serialized environment `env` there and returns its length, or returns -1
(`none`) when the environment does not fit. -/
def fcgi_env_write (avail : Nat) (env : List Nat) : Option (List Nat) :=
  if env.length ≤ avail then some env else none

/-- The part of `struct fcgi_location` read here. -/
structure fcgi_location where
  keep_alive : Bool
deriving DecidableEq, Repr

/-- Body of `fcgi_prepare_request` (lines 222-327) up to `return 0`; `none` is
the jump to the `error` label.  `garbage` is the content of the freshly
allocated 4096-byte buffer, `idx` the value of `request_list_index_of`,
`location` the result of `fcgi_config_get_location`, `env` the serialized
environment and `data` the request body `req->sr->data`. -/
def fcgi_prepare_request_body (garbage : Mem) (idx : Nat) (location : Option fcgi_location)
    (env data : List Nat) (iov : begin_iov) : Option (Mem × begin_iov) :=
  let len := 4096
  let pos := 0
  let req_id := idx % 65536
  if ¬ (req_id > 0) then none else
  match location with
  | none => none
  | some location =>
  -- Write begin request.
  let h : fcgi_header :=
    { version := FCGI_VERSION_1, type := FCGI_BEGIN_REQUEST, req_id := req_id,
      body_len := SIZEOF_BEGIN_REQ_BODY, body_pad := 0 }
  if ¬ (usub len pos > SIZEOF_HEADER) then none else
  let buffer := mem_write garbage pos (fcgi_write_header h)
  let ret := SIZEOF_HEADER
  let pos := pos + ret
  let b : fcgi_begin_req_body :=
    { role := FCGI_RESPONDER, flags := if location.keep_alive then FCGI_KEEP_CONN else 0 }
  if ¬ (usub len pos > SIZEOF_HEADER) then none else
  let buffer := mem_write buffer pos (fcgi_write_begin_req_body b)
  let ret := SIZEOF_BEGIN_REQ_BODY
  let pos := pos + ret
  let tmp := pos
  let pos := pos + SIZEOF_HEADER
  match fcgi_env_write (usub len pos) env with
  | none => none
  | some written =>
  let buffer := mem_write buffer pos written
  let ret := written.length
  let h := { h with type := FCGI_PARAMS, body_len := ret % 65536,
                    body_pad := fcgi_body_pad ret % 256 }
  let buffer := mem_write buffer tmp (fcgi_write_header h)
  let pos := pos + (h.body_len + h.body_pad)
  let h := { h with type := FCGI_PARAMS, body_len := 0, body_pad := 0 }
  if ¬ (usub len pos > SIZEOF_HEADER) then none else
  let buffer := mem_write buffer pos (fcgi_write_header h)
  let ret := SIZEOF_HEADER
  let pos := pos + ret
  let h := { h with type := FCGI_STDIN }
  if data.length > 0 then
    let h := { h with type := FCGI_STDIN, body_len := data.length % 65536,
                      body_pad := fcgi_body_pad data.length % 256 }
    if ¬ (usub len pos > SIZEOF_HEADER) then none else
    let buffer := mem_write buffer pos (fcgi_write_header h)
    let pos := pos + ret
    match chunk_iov_add_ptr iov (iov_ptr.buffer 0) pos true with
    | none => none
    | some iov =>
    match chunk_iov_add_ptr iov iov_ptr.data data.length false with
    | none => none
    | some iov =>
    let tmp := pos
    let pos := pos + (h.body_len + h.body_pad)
    let h := { h with body_len := 0, body_pad := 0 }
    if ¬ (usub len pos > SIZEOF_HEADER) then none else
    let buffer := mem_write buffer pos (fcgi_write_header h)
    let ret := SIZEOF_HEADER
    let pos := pos + ret
    match chunk_iov_add_ptr iov (iov_ptr.buffer tmp) pos false with
    | none => none
    | some iov => some (buffer, iov)
  else
    let h := { h with body_len := 0 }
    if ¬ (usub len pos > SIZEOF_HEADER) then none else
    let buffer := mem_write buffer pos (fcgi_write_header h)
    let ret := SIZEOF_HEADER
    let pos := pos + ret
    match chunk_iov_add_ptr iov (iov_ptr.buffer 0) pos true with
    | none => none
    | some iov => some (buffer, iov)

/-- Result of `fcgi_prepare_request`: the return value, the header buffer and
the request's output vector. -/
structure prepare_result where
  ret : Int
  buffer : Mem
  iov : begin_iov

/-- The function `fcgi_prepare_request` (lines 222-332): on the `error` label
the vector is reset and -1 is returned. -/
def fcgi_prepare_request (garbage : Mem) (idx : Nat) (location : Option fcgi_location)
    (env data : List Nat) (iov : begin_iov) : prepare_result :=
  match fcgi_prepare_request_body garbage idx location env data iov with
  | some (buffer, iov) => { ret := 0, buffer := buffer, iov := iov }
  | none => { ret := -1, buffer := garbage, iov := { iov with io := [] } }

/-- The bytes one entry of the outbound vector contributes when the vector is
written to the backend socket. -/
def iov_entry_bytes (buffer : Mem) (data : List Nat) (e : iov_entry) : List Nat :=
  match e.ptr with
  | iov_ptr.buffer off => mem_read buffer off e.len
  | iov_ptr.data => data.take e.len

/-- The byte stream the backend receives: the segments of the vector, in
order. -/
def iov_stream (buffer : Mem) (data : List Nat) (iov : begin_iov) : List Nat :=
  (iov.io.map (iov_entry_bytes buffer data)).flatten

/-- Record-by-record decoding of a byte stream, as the claim on the round trip
words it: an 8-byte header, then `body_len + body_pad` bytes.  The result is
the list of (header, body) and the bytes left over that do not form a whole
record. -/
def decode_records : Nat → List Nat → List (fcgi_header × List Nat) × List Nat
  | 0, s => ([], s)
  | fuel + 1, s =>
    if s.length < SIZEOF_HEADER then ([], s) else
    let h := fcgi_read_header s
    let rest := s.drop SIZEOF_HEADER
    if rest.length < h.body_len + h.body_pad then ([], s) else
    let r := decode_records fuel (rest.drop (h.body_len + h.body_pad))
    ((h, rest.take h.body_len) :: r.1, r.2)

/-- Bodies of the records of type `t`, concatenated. -/
def bodies_of (t : Nat) (recs : List (fcgi_header × List Nat)) : List Nat :=
  ((recs.filter (fun r => r.1.type = t)).map (fun r => r.2)).flatten

/-- The round-trip property of a byte stream, as the specification words it:
the stream is a sequence of whole records, the first a BEGIN_REQUEST carrying
`role` and `flags`, the others PARAMS records whose bodies concatenate to
`env` and STDIN records whose bodies concatenate to `data`. -/
def roundtrip_check (s : List Nat) (role flags : Nat) (env data : List Nat) : Bool :=
  match decode_records (s.length + 1) s with
  | (r0 :: recs, []) =>
    decide (r0.1.type = FCGI_BEGIN_REQUEST)
      && decide (fcgi_read_begin_req_body r0.2 = { role := role, flags := flags })
      && recs.all (fun r => decide (r.1.type = FCGI_PARAMS) || decide (r.1.type = FCGI_STDIN))
      && decide (bodies_of FCGI_PARAMS recs = env)
      && decide (bodies_of FCGI_STDIN recs = data)
  | _ => false


/-! ## State machines (`fcgi_fd.h`, `request.h`) -/

/-- States of a Connection Slot, `enum fcgi_fd_state`. -/
inductive fcgi_fd_state where
  | FCGI_FD_AVAILABLE
  | FCGI_FD_READY
  | FCGI_FD_SENDING
  | FCGI_FD_RECEIVING
  | FCGI_FD_CLOSING
  | FCGI_FD_SLEEPING
deriving DecidableEq, Repr

/-- States of a Request Record, `enum request_state`. -/
inductive request_state where
  | REQ_AVAILABLE
  | REQ_ASSIGNED
  | REQ_SENT
  | REQ_STREAM_CLOSED
  | REQ_ENDED
  | REQ_FINISHED
  | REQ_FAILED
deriving DecidableEq, Repr

open fcgi_fd_state request_state

/-- Modelled from the spec: the state setters fcgi_fd_set_state (fcgi_fd.c) and
request_set_state (request.c) are not part of the sources.  They are
"transition functions that assert legal-predecessor-state as a precondition";
which predecessor states each of them accepts is this parameter of the model:
`fd_ok s t` says that a slot in state `s` may be moved to `t`, `req_ok s t` the
same for a request. -/
structure transitions where
  fd_ok : fcgi_fd_state → fcgi_fd_state → Bool
  req_ok : request_state → request_state → Bool

/-- Socket event modes of the host's event loop. -/
inductive event_mode where
  | MK_EVENT_READ
  | MK_EVENT_WRITE
  | MK_EVENT_SLEEP
deriving DecidableEq, Repr

/-! ## Stream chunks (`chunk.h`) -/

/-- A Stream Chunk, `struct chunk`: `size` bytes of storage `data`, of which
`mem` holds the bytes stored so far, a `write` cursor and a `read` cursor.
`id` stands for the address of the chunk. -/
structure chunk where
  id : Nat
  size : Nat
  mem : List Nat
  read : Nat
  write : Nat
deriving DecidableEq, Repr

/-- A position in a chunk, `struct chunk_ptr`: the chunk it belongs to, the
offset of `data` in that chunk, `len`, and the bytes that can be loaded from
`data` (none for a write position). -/
structure chunk_ptr where
  parent : Option Nat
  pos : Nat
  len : Nat
  bytes : List Nat
deriving DecidableEq, Repr

/-- The initial value `{ .len = 0, .data = NULL, .parent = NULL }`. -/
def chunk_ptr_null : chunk_ptr := { parent := none, pos := 0, len := 0, bytes := [] }

/-- Modelled from the spec: chunk_read_ptr of chunk.c: the readable region of a
chunk, from the read cursor to the write cursor. -/
def chunk_read_ptr (c : chunk) : chunk_ptr :=
  { parent := some c.id, pos := c.read, len := c.write - c.read,
    bytes := (c.mem.drop c.read).take (c.write - c.read) }

/-- Modelled from the spec: chunk_write_ptr of chunk.c: the writable remainder
of a chunk, from the write cursor to the end of its storage. -/
def chunk_write_ptr (c : chunk) : chunk_ptr :=
  { parent := some c.id, pos := c.write, len := c.size - c.write, bytes := [] }

/-- Modelled from the spec: chunk_set_read_ptr of chunk.c: "the read cursor
position is persisted on the chunk"; a position of another chunk or beyond the
storage is refused. -/
def chunk_set_read_ptr (c : chunk) (p : chunk_ptr) : Option chunk :=
  if p.parent = some c.id ∧ p.pos ≤ c.size then some { c with read := p.pos } else none

/-- Modelled from the spec: chunk_set_write_ptr of chunk.c: moves the write
cursor; a position of another chunk or beyond the storage is refused. -/
def chunk_set_write_ptr (c : chunk) (p : chunk_ptr) : Option chunk :=
  if p.parent = some c.id ∧ p.pos ≤ c.size then some { c with write := p.pos } else none

/-- The chunk allocator of a worker, `struct chunk_list`: `next` is the
address the next chunk gets, `overhead` is `offsetof(struct chunk, data)`, the
part of an allocation that is not storage. -/
structure chunk_list where
  next : Nat
  overhead : Nat
deriving DecidableEq, Repr

/-- The macro `CHUNK_SIZE(SIZE)`: storage of an allocation of `SIZE` bytes. -/
def CHUNK_SIZE (cl : chunk_list) (size : Nat) : Nat := size - cl.overhead

/-- The macro `SIZE_CHUNK(SIZE)`: allocation needed for `SIZE` bytes of storage. -/
def SIZE_CHUNK (cl : chunk_list) (size : Nat) : Nat := size + cl.overhead

/-- Modelled from the spec: chunk_new of chunk.c followed by chunk_list_add: a
fresh, empty chunk whose storage is the allocation less the overhead. -/
def chunk_new (cl : chunk_list) (size : Nat) : chunk × chunk_list :=
  ({ id := cl.next, size := CHUNK_SIZE cl size, mem := [], read := 0, write := 0 },
   { cl with next := cl.next + 1 })

/-! ## Response vectors -/

/-- One entry of a request's response vector, `struct iovec`: `iov_base` are
the `iov_len` bytes of the entry, `after` the bytes that follow them in
memory. -/
structure iovec where
  iov_base : List Nat
  after : List Nat
deriving DecidableEq, Repr

/-- The scatter/gather vector `struct chunk_iov` of a request: `size` entries
can be held, `io` are the entries in use. -/
structure chunk_iov where
  size : Nat
  io : List iovec
deriving DecidableEq, Repr

/-- Modelled from the spec: chunk_iov_length of chunk.c: number of bytes in
the vector. -/
def chunk_iov_length (iov : chunk_iov) : Nat := (iov.io.map (fun e => e.iov_base.length)).sum

/-- All bytes of the vector, in order. -/
def chunk_iov_bytes (iov : chunk_iov) : List Nat := (iov.io.map (fun e => e.iov_base)).flatten

/-- Modelled from the spec: chunk_iov_reset of chunk.c: empties the vector. -/
def chunk_iov_reset (iov : chunk_iov) : chunk_iov := { iov with io := [] }

/-- Dropping `n` bytes from the front of a list of entries: "advancing a
cursor across that sequence and discarding fully-consumed segments". -/
def iovec_drop : Nat → List iovec → List iovec
  | _, [] => []
  | n, e :: es =>
    if n = 0 then e :: es
    else if e.iov_base.length ≤ n then iovec_drop (n - e.iov_base.length) es
    else { e with iov_base := e.iov_base.drop n } :: es

/-- Modelled from the spec: chunk_iov_drop of chunk.c: drops the first `n`
bytes of the vector; dropping more bytes than the vector holds is refused. -/
def chunk_iov_drop (iov : chunk_iov) (n : Nat) : Option chunk_iov :=
  if n ≤ chunk_iov_length iov then some { iov with io := iovec_drop n iov.io } else none

/-! ## Requests and connection slots -/

/-- The response headers of the host's request object that the plugin sets,
`sr->headers`. -/
structure response_headers where
  status : Int
  content_type : Option (List Nat)
  location : Option (List Nat)
  extra_rows : List (List Nat)
  content_length : Nat
  cgi : Bool
deriving DecidableEq, Repr

/-- The part of the host's `struct mk_http_request` used here: the request
body `data` and the response headers. -/
structure mk_http_request where
  data : List Nat
  headers : response_headers
deriving DecidableEq, Repr

/-- A Request Record, `struct request`: lifecycle state, the two flags
`REQ_SLEEPING` and `REQ_HEADERS_SENT`, client socket `fd`, bound backend
socket `fcgi_fd` (-1 for none), location `clock_id`, client session `cs`,
client request `sr` and the output vector. -/
structure request where
  state : request_state
  sleeping : Bool
  headers_sent : Bool
  fd : Int
  fcgi_fd : Int
  clock_id : Nat
  cs : Option Nat
  sr : Option mk_http_request
  iov : chunk_iov
deriving DecidableEq, Repr

/-- Connection type of a slot. -/
inductive fcgi_fd_type where
  | FCGI_FD_UNIX
  | FCGI_FD_INET
deriving DecidableEq, Repr

/-- A Connection Slot, `struct fcgi_fd`: socket descriptor, state, location,
server, type, the pending begin-request vector (`begin_req` points at the
vector of the request with that index), the bytes of it that remain to be
written and the current chunk. -/
structure fcgi_fd where
  fd : Int
  state : fcgi_fd_state
  location_id : Nat
  server_id : Nat
  type : fcgi_fd_type
  begin_req : Option Nat
  begin_req_remain : Nat
  chunk : Option chunk
deriving DecidableEq, Repr

/-- Calls into the host (`mk_api`) and the operating system that the model
records, in the order they are made. -/
inductive api_call where
  | event_socket_change_mode (fd : Int) (mode : event_mode)
  | header_send (fd : Int) (headers : response_headers)
  | socket_sendv (fd : Int) (sent : List Nat)
  | socket_cork_flag (fd : Int) (flag : Bool)
  | http_request_end (fd : Int)
  | http_request_error (fd : Int)
  | close (fd : Int)
deriving DecidableEq, Repr

/-- Modelled from the spec: fcgi_fd_set_state of fcgi_fd.c: moves the slot to
`s` when the transition is accepted, fails without a change otherwise. -/
def fcgi_fd_set_state (T : transitions) (fd : fcgi_fd) (s : fcgi_fd_state) : Option fcgi_fd :=
  if T.fd_ok fd.state s then some { fd with state := s } else none

/-- Modelled from the spec: request_set_state of request.c: moves the request
to `s` when the transition is accepted, fails without a change otherwise. -/
def request_set_state (T : transitions) (req : request) (s : request_state) : Option request :=
  if T.req_ok req.state s then some { req with state := s } else none

/-- A call of a state setter whose result the caller does not look at. -/
def fcgi_fd_set_state_unchecked (T : transitions) (fd : fcgi_fd) (s : fcgi_fd_state) : fcgi_fd :=
  (fcgi_fd_set_state T fd s).getD fd

/-- A call of `request_set_state` whose result the caller does not look at. -/
def request_set_state_unchecked (T : transitions) (req : request) (s : request_state) :
    request :=
  (request_set_state T req s).getD req

/-- Modelled from the spec: request_set_fcgi_fd of request.c: binds the
request to a backend socket, -1 unbinds it. -/
def request_set_fcgi_fd (req : request) (fd : Int) : request := { req with fcgi_fd := fd }

/-- Modelled from the spec: request_recycle of request.c: "state reset, slot
returned to free list": the record is available again, without client,
backend, flags or output. -/
def request_recycle (req : request) : request :=
  { req with state := REQ_AVAILABLE, sleeping := false, headers_sent := false, fd := -1,
             fcgi_fd := -1, cs := none, sr := none, iov := chunk_iov_reset req.iov }

/-- Modelled from the spec: request_add_pkg of request.c: "body bytes appended
to the Request Record's output vector": one entry for the `body_len` bytes
after the header of the record at `read`; the result is the number of bytes
added, or nothing when the vector has no free entry. -/
def request_add_pkg (req : request) (h : fcgi_header) (read : chunk_ptr) :
    Option (Nat × request) :=
  if req.iov.io.length < req.iov.size then
    some (h.body_len,
      { req with iov := { req.iov with io := req.iov.io ++
          [{ iov_base := (read.bytes.drop SIZEOF_HEADER).take h.body_len,
             after := (read.bytes.drop SIZEOF_HEADER).drop h.body_len }] } })
  else none

/-- Modelled from the spec: request_list_get of request.c: "O(1) id→record
lookup" in the slab; id 0 "is reserved as no record". -/
def request_list_get (rl : List request) (req_id : Nat) : Option request :=
  if req_id = 0 then none else rl.get? req_id

/-- First index at which a list has an element satisfying `p`. -/
def find_index {α : Type} (p : α → Bool) : List α → Option Nat
  | [] => none
  | x :: xs => if p x then some 0 else (find_index p xs).map (· + 1)

/-- Modelled from the spec: request_list_get_by_fd of request.c: the index of
the request whose client socket is `fd`. -/
def request_list_get_by_fd (rl : List request) (fd : Int) : Option Nat :=
  find_index (fun r => decide (r.fd = fd)) rl

/-- Modelled from the spec: fcgi_fd_list_get_by_fd of fcgi_fd.c: the index of
the slot whose backend socket is `fd`. -/
def fcgi_fd_list_get_by_fd (fdl : List fcgi_fd) (fd : Int) : Option Nat :=
  find_index (fun s => decide (s.fd = fd)) fdl

/-- Result of `fcgi_handle_pkg`: return value, the slot, the request and the
host calls made. -/
structure handle_result where
  ret : Int
  fd : fcgi_fd
  req : Option request
  api : List api_call
deriving DecidableEq, Repr

/-- The `error` label of `fcgi_handle_pkg` (lines 524-533). -/
def fcgi_handle_pkg_error (T : transitions) (fd : fcgi_fd) (req : Option request)
    (api : List api_call) : handle_result :=
  match req with
  | some req =>
    let req := request_set_state_unchecked T req REQ_FAILED
    if req.sleeping then
      { ret := -1, fd := fd, req := some { req with sleeping := false },
        api := api ++ [api_call.event_socket_change_mode req.fd event_mode.MK_EVENT_WRITE] }
    else { ret := -1, fd := fd, req := some req, api := api }
  | none => { ret := -1, fd := fd, req := none, api := api }

/-- The function `fcgi_handle_pkg` (lines 432-534): `req` is the request found
for `h.req_id`, `read` the position of the record in the chunk. -/
def fcgi_handle_pkg (T : transitions) (fd : fcgi_fd) (req : Option request) (h : fcgi_header)
    (read : chunk_ptr) : handle_result :=
  match req with
  | none => fcgi_handle_pkg_error T fd none []
  | some req =>
    if h.type = FCGI_STDERR then
      { ret := 0, fd := fd, req := some req, api := [] }
    else if h.type = FCGI_STDOUT then
      if req.state = REQ_FAILED then
        { ret := 0, fd := fd, req := some req, api := [] }
      else if h.body_len = 0 then
        match request_set_state T req REQ_STREAM_CLOSED with
        | none => fcgi_handle_pkg_error T fd (some req) []
        | some req => { ret := 0, fd := fd, req := some req, api := [] }
      else
        match request_add_pkg req h read with
        | some (n, req') =>
          if n > 0 then { ret := 0, fd := fd, req := some req', api := [] }
          else fcgi_handle_pkg_error T fd (some req') []
        | none => fcgi_handle_pkg_error T fd (some req) []
    else if h.type = FCGI_END_REQUEST then
      let _b := fcgi_read_end_req_body (read.bytes.drop SIZEOF_HEADER)
      let req := request_set_fcgi_fd req (-1)
      match fcgi_fd_set_state T fd FCGI_FD_READY with
      | none => fcgi_handle_pkg_error T fd (some req) []
      | some fd =>
        if req.fd = -1 then
          { ret := 0, fd := fd, req := some (request_recycle req), api := [] }
        else if req.state ≠ REQ_FAILED then
          match request_set_state T req REQ_ENDED with
          | none => fcgi_handle_pkg_error T fd (some req) []
          | some req =>
            if req.sleeping then
              { ret := 0, fd := fd, req := some { req with sleeping := false },
                api := [api_call.event_socket_change_mode req.fd event_mode.MK_EVENT_WRITE] }
            else { ret := 0, fd := fd, req := some req, api := [] }
        else { ret := 0, fd := fd, req := some req, api := [] }
    else if h.type = 0 then
      fcgi_handle_pkg_error T fd (some req) []
    else
      { ret := 0, fd := fd, req := some req, api := [] }


/-! ## Receiving and framing (`fcgi_recv_response`) -/

/-- What one `read(2)` on the backend socket finds: bytes that have arrived,
end of stream, nothing yet (`EAGAIN`), or another error. -/
inductive read_event where
  | data (bs : List Nat)
  | eof
  | eagain
  | error
deriving DecidableEq, Repr

/-- Outcome of one `read(fd, buf, len)`. -/
inductive read_ret where
  | bytes (bs : List Nat)
  | zero
  | eagain
  | error
deriving DecidableEq, Repr

/-- The call `read(fd, buf, len)` against what the socket will deliver: at most
`len` of the bytes that have arrived are taken, the others stay for the next
call; a read of length zero and a read at end of stream return 0; when
nothing is left to deliver the call would block. -/
def sock_read (sock : List read_event) (len : Nat) : read_ret × List read_event :=
  match sock with
  | [] => (read_ret.eagain, [])
  | read_event.data bs :: rest =>
    if len = 0 then (read_ret.zero, sock)
    else if bs.length = 0 then (read_ret.zero, rest)
    else if bs.length ≤ len then (read_ret.bytes bs, rest)
    else (read_ret.bytes (bs.take len), read_event.data (bs.drop len) :: rest)
  | read_event.eof :: rest => (read_ret.zero, rest)
  | read_event.eagain :: rest => (read_ret.eagain, rest)
  | read_event.error :: rest => (read_ret.error, rest)

/-- Modelled from the spec: fcgi_fd_set_chunk of fcgi_fd.c: makes `a` the
chunk of the slot; "a previous partial record must carry over": the last
`inherit` bytes before the write cursor of the old chunk are copied to the new
chunk and its write cursor is moved behind them.  It fails when there is no
old chunk to inherit from, when the old chunk holds fewer bytes, or when the
new chunk cannot hold them. -/
def fcgi_fd_set_chunk (fd : fcgi_fd) (a : chunk) (inherit : Nat) : Option fcgi_fd :=
  match fd.chunk with
  | some b =>
    if inherit > 0 then
      if b.write < inherit ∨ ¬ (a.size - a.write > inherit) then none
      else
        let a : chunk :=
          { a with mem := a.mem.take a.write ++ (b.mem.drop (b.write - inherit)).take inherit,
                   write := a.write + inherit }
        some { fd with chunk := some a }
    else some { fd with chunk := some a }
  | none => if inherit = 0 then some { fd with chunk := some a } else none

/-- The handler given to `fcgi_recv_response`. -/
abbrev pkg_handler := fcgi_fd → Option request → fcgi_header → chunk_ptr → handle_result

/-- The state `fcgi_recv_response` works on: the slot (with its chunk), the
chunk allocator, the request table, what the socket will deliver, the host
calls made so far, and `handed`, the records handed to the handler so far,
each with its header and its bytes. -/
structure recv_state where
  fd : fcgi_fd
  cl : chunk_list
  rl : List request
  sock : List read_event
  api : List api_call
  handed : List (fcgi_header × List Nat)
deriving DecidableEq, Repr

/-- The local variables of `fcgi_recv_response` that live across iterations. -/
structure recv_locals where
  pkg_size : Nat
  inherit : Nat
  wcp : chunk_ptr
  rcp : chunk_ptr
  done : Bool
deriving DecidableEq, Repr

/-- Outcome of a loop of `fcgi_recv_response`: it ran to its end, it jumped to
the `error` label, or the iteration bound of the model was used up. -/
inductive loop_result (α : Type) where
  | ok (a : α)
  | error (st : recv_state)
  | out_of_fuel

/-- The inner loop `while (rcp.len > 0)` (lines 601-622).  Every iteration
moves `rcp` forward by at least one byte, so `rcp.len + 1` iterations are
enough; `fuel` bounds their number. -/
def framing_loop (handle_pkg : pkg_handler) :
    Nat → recv_state → recv_locals → loop_result (recv_state × recv_locals)
  | 0, _, _ => loop_result.out_of_fuel
  | fuel + 1, st, l =>
    if l.rcp.len > 0 then
      let h := fcgi_read_header l.rcp.bytes
      let pkg_size := if l.rcp.len < SIZEOF_HEADER then SIZEOF_HEADER
                      else SIZEOF_HEADER + h.body_len + h.body_pad
      if l.rcp.len < pkg_size then
        let inherit := l.rcp.len
        let ret := inherit
        framing_loop handle_pkg fuel st
          { l with pkg_size := pkg_size, inherit := inherit,
                   rcp := { l.rcp with pos := l.rcp.pos + ret, len := l.rcp.len - ret,
                                       bytes := l.rcp.bytes.drop ret } }
      else
        let req := request_list_get st.rl h.req_id
        let r := handle_pkg st.fd req h l.rcp
        let st := { st with
          fd := r.fd
          rl := match r.req with
                | some req' => st.rl.set h.req_id req'
                | none => st.rl
          api := st.api ++ r.api
          handed := st.handed ++ [(h, l.rcp.bytes.take pkg_size)] }
        if r.ret ≠ 0 then loop_result.error st
        else
          let ret := pkg_size
          framing_loop handle_pkg fuel st
            { l with pkg_size := pkg_size,
                     rcp := { l.rcp with pos := l.rcp.pos + ret, len := l.rcp.len - ret,
                                         bytes := l.rcp.bytes.drop ret } }
    else loop_result.ok (st, l)

/-- One iteration of the outer loop `do ... while (!done)` (lines 562-628). -/
def recv_iteration (T : transitions) (handle_pkg : pkg_handler) (st : recv_state)
    (l : recv_locals) : loop_result (recv_state × recv_locals) :=
  -- a new chunk, when bytes are inherited or the chunk is full
  let alloc : Option (recv_state × recv_locals) :=
    if l.inherit > 0 ∨ l.wcp.len < SIZEOF_HEADER then
      let (c, cl) :=
        if l.pkg_size > CHUNK_SIZE st.cl 8192 then chunk_new st.cl (SIZE_CHUNK st.cl l.pkg_size)
        else chunk_new st.cl 8192
      match fcgi_fd_set_chunk st.fd c l.inherit with
      | none => none
      | some fd =>
        match fd.chunk with
        | none => none
        | some c => some ({ st with fd := fd, cl := cl },
                          { l with wcp := chunk_write_ptr c, inherit := 0 })
    else some (st, l)
  match alloc with
  | none => loop_result.error st
  | some (st, l) =>
  let (ret, sock) := sock_read st.sock l.wcp.len
  let st := { st with sock := sock }
  let after_read : Option (recv_state × recv_locals) :=
    match ret with
    | read_ret.zero =>
      match fcgi_fd_set_state T st.fd FCGI_FD_CLOSING with
      | none => none
      | some fd => some ({ st with fd := fd }, { l with done := true })
    | read_ret.eagain => some (st, { l with done := true })
    | read_ret.error => none
    | read_ret.bytes bs =>
      match st.fd.chunk with
      | none => none
      | some c =>
        let wcp := { l.wcp with pos := l.wcp.pos + bs.length, len := l.wcp.len - bs.length }
        let c := { c with mem := c.mem.take c.write ++ bs }
        match chunk_set_write_ptr c wcp with
        | none => none
        | some c => some ({ st with fd := { st.fd with chunk := some c } },
                          { l with wcp := wcp, rcp := chunk_read_ptr c })
  match after_read with
  | none => loop_result.error st
  | some (st, l) =>
  match framing_loop handle_pkg (l.rcp.len + 1) st l with
  | loop_result.out_of_fuel => loop_result.out_of_fuel
  | loop_result.error st => loop_result.error st
  | loop_result.ok (st, l) =>
    match st.fd.chunk with
    | none => loop_result.ok (st, l)
    | some c =>
      if l.rcp.parent = some c.id then
        match chunk_set_read_ptr c l.rcp with
        | none => loop_result.error st
        | some c => loop_result.ok ({ st with fd := { st.fd with chunk := some c } }, l)
      else loop_result.ok (st, l)

/-- The outer loop `do ... while (!done)`, at most `fuel` iterations. -/
def recv_loop (T : transitions) (handle_pkg : pkg_handler) :
    Nat → recv_state → recv_locals → loop_result recv_state
  | 0, _, _ => loop_result.out_of_fuel
  | fuel + 1, st, l =>
    match recv_iteration T handle_pkg st l with
    | loop_result.out_of_fuel => loop_result.out_of_fuel
    | loop_result.error st => loop_result.error st
    | loop_result.ok (st, l) =>
      if l.done then loop_result.ok st else recv_loop T handle_pkg fuel st l

/-- Number of bytes the socket will still deliver. -/
def sock_bytes : List read_event → Nat
  | [] => 0
  | read_event.data bs :: rest => bs.length + sock_bytes rest
  | _ :: rest => sock_bytes rest

/-- The function `fcgi_recv_response` (lines 536-637).  The result is the
return value and the state; `none` stands for the iteration bound of the model
being used up.  Every iteration of the outer loop but the last takes at least
one byte from the socket, so `sock_bytes + 1` iterations are enough. -/
def fcgi_recv_response (T : transitions) (handle_pkg : pkg_handler) (st : recv_state) :
    Option (Int × recv_state) :=
  let l : recv_locals :=
    match st.fd.chunk with
    | some c => { pkg_size := 0, inherit := 0, wcp := chunk_write_ptr c,
                  rcp := chunk_read_ptr c, done := false }
    | none => { pkg_size := 0, inherit := 0, wcp := chunk_ptr_null, rcp := chunk_ptr_null,
                done := false }
  match recv_loop T handle_pkg (sock_bytes st.sock + 1) st l with
  | loop_result.out_of_fuel => none
  | loop_result.ok st => some (0, st)
  | loop_result.error st =>
    some (-1, { st with fd := fcgi_fd_set_state_unchecked T st.fd FCGI_FD_CLOSING })

/-- A handler that accepts every record and changes nothing. -/
def accept_pkg : pkg_handler := fun fd req _ _ => { ret := 0, fd := fd, req := req, api := [] }

/-- Successive calls of `fcgi_recv_response`, one for each read-ready
notification; `notifications` lists, for each of them, what the socket
delivers to the reads of that call.  The result is the state after the last
call, or nothing when a call fails or the model's iteration bound is used
up. -/
def recv_notifications (T : transitions) (handle_pkg : pkg_handler) :
    recv_state → List (List read_event) → Option recv_state
  | st, [] => some st
  | st, n :: ns =>
    match fcgi_recv_response T handle_pkg { st with sock := n } with
    | some (0, st) => recv_notifications T handle_pkg st ns
    | _ => none


/-! ## Response headers (`fcgi_parse_cgi_headers`) -/

/-- Lower-case form of an ASCII byte, as `strncasecmp` compares. -/
def ascii_lower (c : Nat) : Nat := if 65 ≤ c ∧ c ≤ 90 then c + 32 else c

/-- The bytes of a string literal. -/
def str_bytes (s : String) : List Nat := s.toList.map (fun c => c.toNat)

/-- The test `!strncasecmp(entry, lit, n)` for a literal `lit` of `n`
characters: the first `n` bytes at `entry` equal the literal, letter case
apart. -/
def strncasecmp_eq (entry : List Nat) (lit : String) : Bool :=
  decide ((entry.take lit.length).map ascii_lower = (str_bytes lit).map ascii_lower)

/-- The decimal digits at the front of a byte string, as a number, and their
count. -/
def scan_digits : List Nat → Nat → Nat → Nat × Nat
  | [], acc, n => (acc, n)
  | c :: cs, acc, n =>
    if 48 ≤ c ∧ c ≤ 57 then scan_digits cs (acc * 10 + (c - 48)) (n + 1) else (acc, n)

/-- White space as `sscanf` skips it. -/
def is_space (c : Nat) : Bool := decide (c = 32 ∨ (9 ≤ c ∧ c ≤ 13))

/-- The call `sscanf(value, "%d", &status)`: leading white space, an optional
sign, then at least one digit; `none` when nothing was scanned. -/
def sscanf_d (value : List Nat) : Option Int :=
  let v := value.dropWhile is_space
  match v with
  | 45 :: rest =>
    let (x, n) := scan_digits rest 0 0
    if n = 0 then none else some (- (x : Int))
  | 43 :: rest =>
    let (x, n) := scan_digits rest 0 0
    if n = 0 then none else some (x : Int)
  | _ =>
    let (x, n) := scan_digits v 0 0
    if n = 0 then none else some (x : Int)

/-- The function `fcgi_handle_cgi_header` (lines 51-95): `entry` are the bytes
in memory from the start of the header line on, `len` the length of the line
with its line feed.  The result is the return value and the headers. -/
def fcgi_handle_cgi_header (hd : response_headers) (entry : List Nat) (len : Nat) :
    Int × response_headers :=
  if strncasecmp_eq entry "Content-type: " then
    (0, { hd with content_type := some ((entry.drop 14).take (len - 14)) })
  else if strncasecmp_eq entry "Location: " then
    let value_len := len - 10 - (if entry.getD (len - 2) 0 = 13 then 2 else 1)
    (0, { hd with location := some ((entry.drop 10).take value_len) })
  else if strncasecmp_eq entry "Status: " then
    match sscanf_d (entry.drop 8) with
    | some status => (0, { hd with status := status })
    | none => (-1, hd)
  else
    (0, { hd with extra_rows := hd.extra_rows ++ [entry.take len] })

/-- Offset of the first line feed among the first `len` bytes at `p`, the call
`memchr(p, '\n', len)`. -/
def memchr_lf (p : List Nat) (len : Nat) : Option Nat :=
  find_index (fun c => decide (c = 10)) (p.take len)

/-- The loop of `fcgi_parse_cgi_headers` (lines 103-116): `p` are the bytes in
memory from the position `p` on, `len` the length of the first entry of the
vector, `cnt` the bytes counted so far.  Each iteration adds at least one to
`cnt`, so `len` iterations are enough. -/
def parse_cgi_loop : Nat → response_headers → List Nat → Nat → Nat → Nat × response_headers
  | 0, hd, _, _, cnt => (cnt, hd)
  | fuel + 1, hd, p, len, cnt =>
    if cnt < len then
      match memchr_lf p len with
      | none => (cnt, hd)
      | some k =>
        let cnt := cnt + (k + 1)
        if 2 ≥ k then (cnt, hd)
        else
          let entry_len := k + 1
          let hd := (fcgi_handle_cgi_header hd p entry_len).2
          parse_cgi_loop fuel hd (p.drop (k + 1)) len cnt
    else (cnt, hd)

/-- The function `fcgi_parse_cgi_headers` (lines 97-118) on the first entry of
the vector; the first entry of an empty vector is taken to be empty. -/
def fcgi_parse_cgi_headers (hd : response_headers) (iov : chunk_iov) : Nat × response_headers :=
  match iov.io with
  | [] => (0, hd)
  | e :: _ => parse_cgi_loop e.iov_base.length hd (e.iov_base ++ e.after) e.iov_base.length 0

/-! ## Sending the response to the client -/

/-- The status code `MK_HTTP_OK`. -/
def MK_HTTP_OK : Int := 200

/-- The function `fcgi_send_response_headers` (lines 365-393): the return
value, the request and the host calls made. -/
def fcgi_send_response_headers (req : request) : Int × request × List api_call :=
  if req.headers_sent then (0, req, [])
  else
    match req.sr with
    | none => (-1, req, [])
    | some sr =>
      let hd := { sr.headers with status := MK_HTTP_OK, cgi := false }
      let (headers_offset, hd) := fcgi_parse_cgi_headers hd req.iov
      match chunk_iov_drop req.iov headers_offset with
      | none => (-1, { req with sr := some { sr with headers := hd } }, [])
      | some iov =>
        let hd := { hd with content_length := chunk_iov_length iov }
        let sent := api_call.header_send req.fd hd
        let hd := { hd with location := none }
        (0, { req with sr := some { sr with headers := hd }, iov := iov, headers_sent := true },
         [sent])

/-- What a write to a socket meets: the socket accepts `n` bytes, it would
block (`EAGAIN`), or another error. -/
inductive write_event where
  | accepted (n : Nat)
  | eagain
  | error
deriving DecidableEq, Repr

/-- The function `fcgi_send_response` (lines 395-430): `w` is what the write
to the client socket meets. -/
def fcgi_send_response (T : transitions) (req : request) (w : write_event) :
    Int × request × List api_call :=
  let fd := req.fd
  if ¬ req.headers_sent then (-1, req, [])
  else
    match w with
    | write_event.accepted n =>
      let ret := min n (chunk_iov_length req.iov)
      let sent := api_call.socket_sendv fd ((chunk_iov_bytes req.iov).take ret)
      if ret = chunk_iov_length req.iov then
        match request_set_state T req REQ_FINISHED with
        | none => (-1, req, [sent])
        | some req =>
          (0, request_recycle req,
           [sent, api_call.socket_cork_flag fd false, api_call.http_request_end fd])
      else
        match chunk_iov_drop req.iov ret with
        | none => (-1, req, [sent])
        | some iov => (0, { req with iov := iov }, [sent])
    | _ => (-1, req, [])

/-! ## The event callbacks -/

/-- Return values of the event callbacks. -/
inductive plugin_ret where
  | MK_PLUGIN_RET_EVENT_NEXT
  | MK_PLUGIN_RET_EVENT_OWNED
  | MK_PLUGIN_RET_EVENT_CLOSE
  | MK_PLUGIN_RET_EVENT_CONTINUE
deriving DecidableEq, Repr

open plugin_ret

/-- The configuration `fcgi_global_config`: the locations and the number of
servers. -/
structure fcgi_config where
  locations : List fcgi_location
  server_count : Nat
deriving DecidableEq, Repr

/-- Modelled from the spec: fcgi_config_get_location of fcgi_config.c: the
location with the given id. -/
def fcgi_config_get_location (config : fcgi_config) (id : Nat) : Option fcgi_location :=
  config.locations.get? id

/-- The Worker Context `struct fcgi_context` with the host calls made so far:
the slot table, the request table and the chunk allocator. -/
structure fcgi_context where
  fdl : List fcgi_fd
  rl : List request
  cl : chunk_list
  api : List api_call
deriving DecidableEq, Repr

/-- Modelled from the spec: fcgi_fd_list_get of fcgi_fd.c: "scan the
location's slots" for the first one in one of the wanted states. -/
def fcgi_fd_list_get (fdl : List fcgi_fd) (wanted : fcgi_fd_state → Bool) (location_id : Nat) :
    Option Nat :=
  find_index (fun s => wanted s.state && decide (s.location_id = location_id)) fdl

/-- The function `fcgi_new_connection` (lines 185-220): `conn` is the result
of `fcgi_server_connect` (nothing for -1), `event_add_ok` whether
`mk_api->event_add` succeeds. -/
def fcgi_new_connection (T : transitions) (config : fcgi_config) (fdl : List fcgi_fd)
    (location_id : Nat) (conn : Option Int) (event_add_ok : Bool) : Int × List fcgi_fd :=
  match fcgi_fd_list_get fdl (fun s => decide (s = FCGI_FD_AVAILABLE)) location_id with
  | none => (0, fdl)
  | some i =>
    match fdl.get? i with
    | none => (0, fdl)
    | some fd =>
      if ¬ (fd.server_id < config.server_count) then (-1, fdl)
      else
        match conn with
        | none => (-1, fdl.set i { fd with fd := -1 })
        | some s =>
          let fd := { fd with fd := s }
          if ¬ event_add_ok then (-1, fdl.set i fd)
          else (0, fdl.set i (fcgi_fd_set_state_unchecked T fd FCGI_FD_READY))

/-- The function `hangup` (lines 794-859), which `_mkp_event_close` and
`_mkp_event_error` call. -/
def hangup (T : transitions) (config : fcgi_config) (cntx : fcgi_context) (socket : Int)
    (conn : Option Int) (event_add_ok : Bool) : plugin_ret × fcgi_context :=
  match fcgi_fd_list_get_by_fd cntx.fdl socket with
  | some i =>
    match cntx.fdl.get? i with
    | none => (MK_PLUGIN_RET_EVENT_NEXT, cntx)
    | some fd =>
      let state := fd.state
      let fd' := { fd with fd := -1, state := FCGI_FD_AVAILABLE }
      let fdl := cntx.fdl.set i fd'
      let fdl :=
        if state = FCGI_FD_CLOSING then
          (fcgi_new_connection T config fdl fd'.location_id conn event_add_ok).2
        else fdl
      (MK_PLUGIN_RET_EVENT_OWNED,
       { cntx with fdl := fdl, api := cntx.api ++ [api_call.close fd.fd] })
  | none =>
    match request_list_get_by_fd cntx.rl socket with
    | none => (MK_PLUGIN_RET_EVENT_NEXT, cntx)
    | some j =>
      match cntx.rl.get? j with
      | none => (MK_PLUGIN_RET_EVENT_NEXT, cntx)
      | some req =>
        let req := if req.state ≠ REQ_FAILED then request_set_state_unchecked T req REQ_FAILED
                   else req
        let req := if req.fcgi_fd = -1 then request_recycle req
                   else { req with fd := -1, cs := none, sr := none }
        (MK_PLUGIN_RET_EVENT_CONTINUE, { cntx with rl := cntx.rl.set j req })

/-- The function `_mkp_event_close`. -/
def _mkp_event_close (T : transitions) (config : fcgi_config) (cntx : fcgi_context)
    (socket : Int) (conn : Option Int) (event_add_ok : Bool) : plugin_ret × fcgi_context :=
  hangup T config cntx socket conn event_add_ok

/-- The function `_mkp_event_error`. -/
def _mkp_event_error (T : transitions) (config : fcgi_config) (cntx : fcgi_context)
    (socket : Int) (conn : Option Int) (event_add_ok : Bool) : plugin_ret × fcgi_context :=
  hangup T config cntx socket conn event_add_ok

/-- The function `_mkp_event_read` (lines 994-1043): `sock` is what the reads
on the socket meet during this notification.  `none` stands for the iteration
bound of the model being used up. -/
def _mkp_event_read (T : transitions) (config : fcgi_config) (cntx : fcgi_context)
    (socket : Int) (sock : List read_event) : Option (plugin_ret × fcgi_context) :=
  match fcgi_fd_list_get_by_fd cntx.fdl socket with
  | none => some (MK_PLUGIN_RET_EVENT_NEXT, cntx)
  | some i =>
    match cntx.fdl.get? i with
    | none => some (MK_PLUGIN_RET_EVENT_NEXT, cntx)
    | some fd =>
      match fcgi_config_get_location config fd.location_id with
      | none => some (MK_PLUGIN_RET_EVENT_CLOSE, cntx)
      | some loc =>
        match fcgi_recv_response T (fcgi_handle_pkg T)
            { fd := fd, cl := cntx.cl, rl := cntx.rl, sock := sock, api := cntx.api,
              handed := [] } with
        | none => none
        | some (ret, st) =>
          let cntx : fcgi_context :=
            { fdl := cntx.fdl.set i st.fd, rl := st.rl, cl := st.cl, api := st.api }
          let fd := st.fd
          if ret ≠ 0 then some (MK_PLUGIN_RET_EVENT_CLOSE, cntx)
          else if fd.state = FCGI_FD_READY then
            if loc.keep_alive then
              some (MK_PLUGIN_RET_EVENT_OWNED,
                { cntx with api := cntx.api ++
                    [api_call.event_socket_change_mode fd.fd event_mode.MK_EVENT_WRITE] })
            else
              match fcgi_fd_set_state T fd FCGI_FD_CLOSING with
              | none => some (MK_PLUGIN_RET_EVENT_CLOSE, cntx)
              | some fd =>
                some (MK_PLUGIN_RET_EVENT_CLOSE, { cntx with fdl := cntx.fdl.set i fd })
          else if fd.state = FCGI_FD_CLOSING then some (MK_PLUGIN_RET_EVENT_CLOSE, cntx)
          else some (MK_PLUGIN_RET_EVENT_OWNED, cntx)

/-- Modelled from the spec: request_list_next_assigned of request.c: "scans the
location's waiting Request Records for the next ASSIGNED/sleeping one in slab
order". -/
def request_list_next_assigned (rl : List request) (location_id : Nat) : Option Nat :=
  find_index (fun r => decide (r.state = REQ_ASSIGNED) && decide (r.clock_id = location_id)) rl

/-- The `error` label of `_mkp_event_write` (lines 981-991); `j` is the index
of `req` when it is set. -/
def event_write_error (T : transitions) (cntx : fcgi_context) (j : Option Nat) :
    plugin_ret × fcgi_context :=
  match j with
  | none => (MK_PLUGIN_RET_EVENT_CLOSE, cntx)
  | some j =>
    match cntx.rl.get? j with
    | none => (MK_PLUGIN_RET_EVENT_CLOSE, cntx)
    | some req =>
      let req := request_set_state_unchecked T req REQ_FAILED
      if req.sleeping then
        (MK_PLUGIN_RET_EVENT_CLOSE,
         { cntx with rl := cntx.rl.set j { req with sleeping := false },
                     api := cntx.api ++
                       [api_call.event_socket_change_mode req.fd event_mode.MK_EVENT_WRITE] })
      else (MK_PLUGIN_RET_EVENT_CLOSE, { cntx with rl := cntx.rl.set j req })

/-- The branch `fd && fd->state == FCGI_FD_SENDING` of `_mkp_event_write`
(lines 944-977) for the slot with index `i`; `w` is what the write to the
backend socket meets.  `fd->begin_req` points at the vector of a request, so
what is done to it is done to that request's vector. -/
def event_write_sending (T : transitions) (cntx : fcgi_context) (i : Nat) (fd : fcgi_fd)
    (w : write_event) : plugin_ret × fcgi_context :=
  match fd.begin_req with
  | none => event_write_error T cntx none
  | some j =>
    match cntx.rl.get? j with
    | none => event_write_error T cntx none
    | some req =>
      match w with
      | write_event.error => event_write_error T cntx none
      | write_event.eagain => (MK_PLUGIN_RET_EVENT_OWNED, cntx)
      | write_event.accepted n =>
        let ret := min n (chunk_iov_length req.iov)
        let sent := api_call.socket_sendv fd.fd ((chunk_iov_bytes req.iov).take ret)
        let fd := { fd with begin_req_remain := usub fd.begin_req_remain ret }
        if fd.begin_req_remain = 0 then
          let cork := if fd.type = fcgi_fd_type.FCGI_FD_INET
                      then [api_call.socket_cork_flag fd.fd false] else []
          let fd := fcgi_fd_set_state_unchecked T fd FCGI_FD_RECEIVING
          let req := { req with iov := chunk_iov_reset req.iov }
          let fd := { fd with begin_req := none }
          (MK_PLUGIN_RET_EVENT_OWNED,
           { cntx with fdl := cntx.fdl.set i fd, rl := cntx.rl.set j req,
                       api := cntx.api ++ [sent] ++ cork ++
                         [api_call.event_socket_change_mode fd.fd event_mode.MK_EVENT_READ] })
        else
          let req := { req with iov := (chunk_iov_drop req.iov ret).getD req.iov }
          (MK_PLUGIN_RET_EVENT_OWNED,
           { cntx with fdl := cntx.fdl.set i fd, rl := cntx.rl.set j req,
                       api := cntx.api ++ [sent] })

/-- Modelled from the spec: fcgi_fd_set_begin_req_iov of fcgi_fd.c: the slot
gets "a pending-output vector for the not-yet-fully-written begin-request
message": it points at the vector of request `j` and counts its bytes. -/
def fcgi_fd_set_begin_req_iov (fd : fcgi_fd) (j : Nat) (iov : chunk_iov) : Option fcgi_fd :=
  some { fd with begin_req := some j, begin_req_remain := chunk_iov_length iov }

/-- The function `_mkp_event_write` (lines 861-992): `w` is what the write to
the socket meets.  In the branch of a `READY` slot the function ends with a
call of itself on the same socket, whose slot it has just moved to `SENDING`;
that call is the `SENDING` branch. -/
def _mkp_event_write (T : transitions) (cntx : fcgi_context) (socket : Int) (w : write_event) :
    plugin_ret × fcgi_context :=
  match fcgi_fd_list_get_by_fd cntx.fdl socket with
  | none =>
    match request_list_get_by_fd cntx.rl socket with
    | none => (MK_PLUGIN_RET_EVENT_NEXT, cntx)
    | some j =>
      match cntx.rl.get? j with
      | none => (MK_PLUGIN_RET_EVENT_NEXT, cntx)
      | some req =>
        if req.state = REQ_ENDED then
          match fcgi_send_response_headers req with
          | (r1, req1, api1) =>
            let cntx1 := { cntx with rl := cntx.rl.set j req1, api := cntx.api ++ api1 }
            if r1 ≠ 0 then event_write_error T cntx1 (some j)
            else
              match fcgi_send_response T req1 w with
              | (r2, req2, api2) =>
                let cntx2 := { cntx1 with rl := cntx1.rl.set j req2, api := cntx1.api ++ api2 }
                if r2 ≠ 0 then event_write_error T cntx2 (some j)
                else (MK_PLUGIN_RET_EVENT_OWNED, cntx2)
        else if req.state = REQ_FAILED then
          let req' := if req.fcgi_fd = -1 then request_recycle req else req
          (MK_PLUGIN_RET_EVENT_OWNED,
           { cntx with rl := cntx.rl.set j req',
                       api := cntx.api ++
                         [api_call.http_request_error socket, api_call.http_request_end socket] })
        else (MK_PLUGIN_RET_EVENT_CONTINUE, cntx)
  | some i =>
    match cntx.fdl.get? i with
    | none => (MK_PLUGIN_RET_EVENT_NEXT, cntx)
    | some fd =>
      if fd.state = FCGI_FD_READY then
        match request_list_next_assigned cntx.rl fd.location_id with
        | some j =>
          match cntx.rl.get? j with
          | none => (MK_PLUGIN_RET_EVENT_CONTINUE, cntx)
          | some req =>
            let req := request_set_fcgi_fd req fd.fd
            match request_set_state T req REQ_SENT with
            | none => event_write_error T { cntx with rl := cntx.rl.set j req } (some j)
            | some req =>
              let cntx := { cntx with rl := cntx.rl.set j req }
              match fcgi_fd_set_begin_req_iov fd j req.iov with
              | none => event_write_error T cntx (some j)
              | some fd =>
                match fcgi_fd_set_state T fd FCGI_FD_SENDING with
                | none => event_write_error T { cntx with fdl := cntx.fdl.set i fd } (some j)
                | some fd =>
                  let cork := if fd.type = fcgi_fd_type.FCGI_FD_INET
                              then [api_call.socket_cork_flag fd.fd true] else []
                  let cntx := { cntx with fdl := cntx.fdl.set i fd, api := cntx.api ++ cork }
                  event_write_sending T cntx i fd w
        | none =>
          let cntx := { cntx with api := cntx.api ++
            [api_call.event_socket_change_mode fd.fd event_mode.MK_EVENT_SLEEP] }
          match fcgi_fd_set_state T fd FCGI_FD_SLEEPING with
          | none => event_write_error T cntx none
          | some fd => (MK_PLUGIN_RET_EVENT_OWNED, { cntx with fdl := cntx.fdl.set i fd })
      else if fd.state = FCGI_FD_SENDING then event_write_sending T cntx i fd w
      else (MK_PLUGIN_RET_EVENT_CONTINUE, cntx)

/-- Successive writable notifications on one socket; `ws` lists what the
write of each of them meets.  The result is the context after the last. -/
def event_writes (T : transitions) (cntx : fcgi_context) (socket : Int) :
    List write_event → fcgi_context
  | [] => cntx
  | w :: ws => event_writes T (_mkp_event_write T cntx socket w).2 socket ws


/-! ## Quantities of the framing loop -/

/-- The number of bytes by which one iteration of the inner loop of
`fcgi_recv_response` moves the read position, the value of `ret` at lines
620-621: the whole remaining region when it holds no complete record, the
length of the record otherwise. -/
def framing_advance (l : recv_locals) : Nat :=
  let h := fcgi_read_header l.rcp.bytes
  let pkg_size := if l.rcp.len < SIZEOF_HEADER then SIZEOF_HEADER
                  else SIZEOF_HEADER + h.body_len + h.body_pad
  if l.rcp.len < pkg_size then l.rcp.len else pkg_size

/-- The read position after an iteration that moved it by `n` bytes. -/
def rcp_advance (p : chunk_ptr) (n : Nat) : chunk_ptr :=
  { p with pos := p.pos + n, len := p.len - n, bytes := p.bytes.drop n }

/-- The first part of an iteration of the outer loop (lines 563-578): a new
chunk when bytes are inherited or the chunk has less than a header of room;
`none` is the jump to the `error` label. -/
def recv_alloc (st : recv_state) (l : recv_locals) : Option (recv_state × recv_locals) :=
  if l.inherit > 0 ∨ l.wcp.len < SIZEOF_HEADER then
    let (c, cl) :=
      if l.pkg_size > CHUNK_SIZE st.cl 8192 then chunk_new st.cl (SIZE_CHUNK st.cl l.pkg_size)
      else chunk_new st.cl 8192
    match fcgi_fd_set_chunk st.fd c l.inherit with
    | none => none
    | some fd =>
      match fd.chunk with
      | none => none
      | some c => some ({ st with fd := fd, cl := cl },
                        { l with wcp := chunk_write_ptr c, inherit := 0 })
  else some (st, l)

/-- The second part of an iteration of the outer loop (lines 580-599): what
follows the read, on the state in which the read has been taken from the
socket; `none` is the jump to the `error` label. -/
def recv_read (T : transitions) (ret : read_ret) (st : recv_state) (l : recv_locals) :
    Option (recv_state × recv_locals) :=
  match ret with
  | read_ret.zero =>
    match fcgi_fd_set_state T st.fd FCGI_FD_CLOSING with
    | none => none
    | some fd => some ({ st with fd := fd }, { l with done := true })
  | read_ret.eagain => some (st, { l with done := true })
  | read_ret.error => none
  | read_ret.bytes bs =>
    match st.fd.chunk with
    | none => none
    | some c =>
      let wcp := { l.wcp with pos := l.wcp.pos + bs.length, len := l.wcp.len - bs.length }
      let c := { c with mem := c.mem.take c.write ++ bs }
      match chunk_set_write_ptr c wcp with
      | none => none
      | some c => some ({ st with fd := { st.fd with chunk := some c } },
                        { l with wcp := wcp, rcp := chunk_read_ptr c })

/-- The last part of an iteration of the outer loop (lines 624-627): the read
cursor of the chunk is set when `rcp` belongs to it. -/
def recv_finish (st : recv_state) (l : recv_locals) : loop_result (recv_state × recv_locals) :=
  match st.fd.chunk with
  | none => loop_result.ok (st, l)
  | some c =>
    if l.rcp.parent = some c.id then
      match chunk_set_read_ptr c l.rcp with
      | none => loop_result.error st
      | some c => loop_result.ok ({ st with fd := { st.fd with chunk := some c } }, l)
    else loop_result.ok (st, l)

/-- What the parts of `fcgi_recv_response` other than the handler leave as it
is: the request table, the records handed over, the host calls and the
identity of the slot. -/
def recv_kept (a b : recv_state) : Prop :=
  b.rl = a.rl ∧ b.handed = a.handed ∧ b.api = a.api ∧
    b.fd.location_id = a.fd.location_id ∧ b.fd.fd = a.fd.fd

/-- A framing error, for a request table of `n` records: the record's request
id has no Request Record, or its type is zero. -/
def framing_error (n : Nat) (h : fcgi_header) : Prop :=
  h.req_id = 0 ∨ n ≤ h.req_id ∨ h.type = 0

/-- What every result of `fcgi_handle_pkg` for an existing request satisfies:
the return value is 0 or -1, the slot keeps its location and descriptor, a
record of type zero fails, and a failure leaves the request `FAILED`. -/
def handled_well (fd : fcgi_fd) (h : fcgi_header) (r : handle_result) : Prop :=
  (r.ret = 0 ∨ r.ret = -1) ∧ r.fd.location_id = fd.location_id ∧ r.fd.fd = fd.fd ∧
    (h.type = 0 → r.ret = -1) ∧
    (r.ret ≠ 0 → ∃ q', r.req = some q' ∧ q'.state = REQ_FAILED)

/-- How the state after a part of `fcgi_recv_response` that went well relates
to the state before: the request table has the same length, the slot is the
same one, and the records handed over meanwhile are free of framing errors. -/
def trace_ok (st st' : recv_state) : Prop :=
  st'.rl.length = st.rl.length ∧ st'.fd.location_id = st.fd.location_id ∧
    st'.fd.fd = st.fd.fd ∧
    ∃ new, st'.handed = st.handed ++ new ∧ ∀ x ∈ new, ¬ framing_error st.rl.length x.1

/-- How the state at the `error` label relates to the state before: as
`trace_ok`, but for at most one last record, on which the handler failed; the
request addressed by that record, when there is one, is `FAILED`. -/
def trace_error (st st' : recv_state) : Prop :=
  st'.rl.length = st.rl.length ∧ st'.fd.location_id = st.fd.location_id ∧
    st'.fd.fd = st.fd.fd ∧
    ∃ goods last, st'.handed = st.handed ++ goods ++ last ∧
      (∀ x ∈ goods, ¬ framing_error st.rl.length x.1) ∧
      (last = [] ∨ ∃ h bs, last = [(h, bs)] ∧
        (¬ (h.req_id = 0 ∨ st.rl.length ≤ h.req_id) →
          ∃ q', st'.rl.get? h.req_id = some q' ∧ q'.state = REQ_FAILED))

/-! ## Admission of a client request (`mk_fastcgi_stage30`) -/

/-- The function `fcgi_wake_connection` (lines 123-150): the result, the slot
table and the host calls made. -/
def fcgi_wake_connection (T : transitions) (fdl : List fcgi_fd) (location_id : Nat) :
    Int × List fcgi_fd × List api_call :=
  match fcgi_fd_list_get fdl
      (fun s => decide (s = FCGI_FD_SLEEPING) || decide (s = FCGI_FD_READY)) location_id with
  | none => (-1, fdl, [])
  | some i =>
    match fdl.get? i with
    | none => (-1, fdl, [])
    | some fd =>
      if fd.state = FCGI_FD_SLEEPING then
        let api := [api_call.event_socket_change_mode fd.fd event_mode.MK_EVENT_WRITE]
        match fcgi_fd_set_state T fd FCGI_FD_READY with
        | none => (-1, fdl, api)
        | some fd => (0, fdl.set i fd, api)
      else (0, fdl, [])

/-- Modelled from the spec: request_list_next_available of request.c: a free
Request Record of the slab; index 0 is never handed out, since "0 is reserved
as no record". -/
def request_list_next_available (rl : List request) (_location_id : Nat) : Option Nat :=
  (find_index (fun r => decide (r.state = REQ_AVAILABLE)) rl.tail).map (· + 1)

/-- Modelled from the spec: request_assign of request.c: the record moves to
`ASSIGNED` ("matched to a location, slot not yet chosen") and takes the client
socket, the location, the client session and the client request; it fails
when the state setter refuses the move. -/
def request_assign (T : transitions) (req : request) (fd : Int) (clock_id : Nat) (cs : Nat)
    (sr : mk_http_request) : Option request :=
  match request_set_state T req REQ_ASSIGNED with
  | none => none
  | some req => some { req with fd := fd, clock_id := clock_id, cs := some cs, sr := some sr }

/-- The call `fcgi_prepare_request(req)` seen from the vector of the request:
the segments the function adds are appended with the bytes they point at; on
failure the vector is reset. -/
def prepare_request_iov (garbage : Mem) (idx : Nat) (location : Option fcgi_location)
    (env data : List Nat) (iov : chunk_iov) : Int × chunk_iov :=
  let r := fcgi_prepare_request garbage idx location env data ⟨iov.size - iov.io.length, []⟩
  if r.ret = 0 then
    (0, { iov with io := iov.io ++
            r.iov.io.map (fun e => { iov_base := iov_entry_bytes r.buffer data e, after := [] }) })
  else (r.ret, chunk_iov_reset iov)

/-- Return values of a stage-30 callback. -/
inductive stage_ret where
  | MK_PLUGIN_RET_NOT_ME
  | MK_PLUGIN_RET_CONTINUE
deriving DecidableEq, Repr

open stage_ret

/-- The `error` label of `mk_fastcgi_stage30` (lines 714-724) for the request
with index `j`. -/
def stage30_error (T : transitions) (cntx : fcgi_context) (j : Nat) : stage_ret × fcgi_context :=
  match cntx.rl.get? j with
  | none => (MK_PLUGIN_RET_CONTINUE, cntx)
  | some req =>
    let req := request_set_state_unchecked T req REQ_FAILED
    if req.sleeping then
      (MK_PLUGIN_RET_CONTINUE,
       { cntx with rl := cntx.rl.set j { req with sleeping := false },
                   api := cntx.api ++
                     [api_call.event_socket_change_mode req.fd event_mode.MK_EVENT_WRITE] })
    else (MK_PLUGIN_RET_CONTINUE, { cntx with rl := cntx.rl.set j req })

/-- Lines 708-712 of `mk_fastcgi_stage30`: the request with index `j` gets the
flag `REQ_SLEEPING` and its client socket the event mode `MK_EVENT_SLEEP`. -/
def stage30_sleep (cntx : fcgi_context) (j : Nat) : stage_ret × fcgi_context :=
  match cntx.rl.get? j with
  | none => (MK_PLUGIN_RET_CONTINUE, cntx)
  | some req =>
    (MK_PLUGIN_RET_CONTINUE,
     { cntx with rl := cntx.rl.set j { req with sleeping := true },
                 api := cntx.api ++
                   [api_call.event_socket_change_mode req.fd event_mode.MK_EVENT_SLEEP] })

/-- The function `mk_fastcgi_stage30` (lines 654-725) for the client session
`cs` on `socket` with request `sr`: `location_id` is the result of
`regex_match_location` (nothing for -1), `garbage` the content of the buffer
`fcgi_prepare_request` allocates, `env` the serialized environment, `conn` and
`event_add_ok` what a call of `fcgi_new_connection` meets. -/
def mk_fastcgi_stage30 (T : transitions) (config : fcgi_config) (cntx : fcgi_context)
    (socket : Int) (cs : Nat) (sr : mk_http_request) (location_id : Option Nat) (garbage : Mem)
    (env : List Nat) (conn : Option Int) (event_add_ok : Bool) : stage_ret × fcgi_context :=
  match request_list_get_by_fd cntx.rl socket with
  | some _ => (MK_PLUGIN_RET_CONTINUE, cntx)
  | none =>
    match location_id with
    | none => (MK_PLUGIN_RET_NOT_ME, cntx)
    | some loc =>
      match request_list_next_available cntx.rl loc with
      | none => (MK_PLUGIN_RET_CONTINUE, cntx)
      | some j =>
        match cntx.rl.get? j with
        | none => (MK_PLUGIN_RET_CONTINUE, cntx)
        | some req =>
          match request_assign T req socket loc cs sr with
          | none => stage30_error T cntx j
          | some req =>
            match prepare_request_iov garbage j (fcgi_config_get_location config req.clock_id)
                env sr.data req.iov with
            | (ret, iov) =>
              let cntx := { cntx with rl := cntx.rl.set j { req with iov := iov } }
              if ret ≠ 0 then stage30_error T cntx j
              else
                match fcgi_wake_connection T cntx.fdl loc with
                | (w, fdl, api) =>
                  let cntx := { cntx with fdl := fdl, api := cntx.api ++ api }
                  if w ≠ 0 then
                    match fcgi_new_connection T config cntx.fdl loc conn event_add_ok with
                    | (n, fdl) =>
                      let cntx := { cntx with fdl := fdl }
                      if n ≠ 0 then stage30_error T cntx j else stage30_sleep cntx j
                  else stage30_sleep cntx j

/-- Modelled from the spec: the cap of a location, "Connection Slots per
location" as a bounded resource: the slot table of a worker is built once and
holds this many slots for the location. -/
def slot_cap (fdl : List fcgi_fd) (location_id : Nat) : Nat :=
  (fdl.filter (fun s => decide (s.location_id = location_id))).length

/-- Number of slots of a location that are in a state other than `AVAILABLE`. -/
def busy_slots (fdl : List fcgi_fd) (location_id : Nat) : Nat :=
  (fdl.filter (fun s => decide (s.location_id = location_id) &&
                        decide (s.state ≠ FCGI_FD_AVAILABLE))).length

/-! ## CGI header lines, as the specification words them -/

/-- A header block: every line followed by CR LF. -/
def cgi_block (lines : List (List Nat)) : List Nat :=
  (lines.map (fun line => line ++ [13, 10])).flatten

/-- The header lines the translation is stated for: no line feed inside the
line, at least two bytes before the CR LF, and a `Status` line has a byte
other than white space after `Status: `. -/
def cgi_line_ok (line : List Nat) : Bool :=
  decide (10 ∉ line) && decide (2 ≤ line.length) &&
    (!strncasecmp_eq line "Status: " || (line.drop 8).any (fun c => !is_space c))

/-- The effect of one header line (without its CR LF) on the response
headers, in the words of the specification: "`Content-type`, `Location`, and
`Status` are special-cased into the response status/headers API, all other
lines pass through as extra header rows".  The content type is kept with the
CR LF of its line, an extra row is the whole line with its CR LF, and a
`Status` value that is no integer changes nothing. -/
def cgi_line_effect (hd : response_headers) (line : List Nat) : response_headers :=
  if strncasecmp_eq line "Content-type: " then
    { hd with content_type := some (line.drop 14 ++ [13, 10]) }
  else if strncasecmp_eq line "Location: " then
    { hd with location := some (line.drop 10) }
  else if strncasecmp_eq line "Status: " then
    match sscanf_d (line.drop 8) with
    | some status => { hd with status := status }
    | none => hd
  else
    { hd with extra_rows := hd.extra_rows ++ [line ++ [13, 10]] }


/-! ## Sample inputs -/

/-- A STDOUT record for request 1 with three body bytes and five padding
bytes. -/
def sample_stdout : List Nat := [1, 6, 0, 1, 0, 3, 5, 0, 65, 66, 67, 0, 0, 0, 0, 0]

/-- An END_REQUEST record for request 1. -/
def sample_end : List Nat := [1, 3, 0, 1, 0, 8, 0, 0, 0, 0, 0, 0, 0, 0, 0, 0]

/-- A slot in `RECEIVING` on socket 7, without a chunk. -/
def sample_fd : fcgi_fd :=
  { fd := 7, state := FCGI_FD_RECEIVING, location_id := 0, server_id := 0,
    type := fcgi_fd_type.FCGI_FD_UNIX, begin_req := none, begin_req_remain := 0, chunk := none }

/-- The state of `fcgi_recv_response` before the first read-ready
notification, for a chunk overhead. -/
def sample_recv_state (overhead : Nat) : recv_state :=
  { fd := sample_fd, cl := { next := 0, overhead := overhead }, rl := [], sock := [], api := [],
    handed := [] }

/-- Response headers before anything is set. -/
def sample_headers : response_headers :=
  { status := 0, content_type := none, location := none, extra_rows := [], content_length := 0,
    cgi := true }

/-- A request in `SENT`, bound to the backend socket 7, with client socket 9. -/
def sample_sent : request :=
  { state := REQ_SENT, sleeping := false, headers_sent := false, fd := 9, fcgi_fd := 7,
    clock_id := 0, cs := some 0, sr := some { data := [], headers := sample_headers },
    iov := { size := 8, io := [] } }

/-- An unused request record. -/
def sample_unused : request :=
  { state := REQ_AVAILABLE, sleeping := false, headers_sent := false, fd := -1, fcgi_fd := -1,
    clock_id := 0, cs := none, sr := none, iov := { size := 8, io := [] } }

/-- A worker context with one slot and the request with id 1 bound to it. -/
def sample_context : fcgi_context :=
  { fdl := [sample_fd], rl := [sample_unused, sample_sent], cl := { next := 0, overhead := 48 },
    api := [] }

/-- A configuration with one keep-alive location and one server. -/
def sample_config : fcgi_config := { locations := [{ keep_alive := true }], server_count := 1 }

/-- The transitions in which every move is accepted. -/
def any_transition : transitions := { fd_ok := fun _ _ => true, req_ok := fun _ _ => true }

/-- A client request in `STREAM_CLOSED`, sleeping, bound to backend socket 7. -/
def sample_stream_closed : request :=
  { sample_sent with state := REQ_STREAM_CLOSED, sleeping := true }

/-- A request in `FAILED`, still bound to backend socket 7. -/
def sample_failed : request := { sample_sent with state := REQ_FAILED }

/-- A chunk that holds the STDOUT record, unread. -/
def sample_chunk : chunk :=
  { id := 0, size := 8144, mem := sample_stdout, read := 0, write := 16 }

/-- A slot in `SENDING` on socket 7 whose pending vector is that of request 1,
with three bytes to write. -/
def sample_sending_fd : fcgi_fd :=
  { sample_fd with state := FCGI_FD_SENDING, begin_req := some 1, begin_req_remain := 3 }

/-- A request in `SENT` whose vector holds three bytes of the begin-request
message. -/
def sample_pending : request :=
  { sample_sent with iov := { size := 8, io := [{ iov_base := [1, 2, 3], after := [] }] } }

/-- A worker context with the sending slot and the request it sends for. -/
def sample_sending_context : fcgi_context :=
  { fdl := [sample_sending_fd], rl := [sample_unused, sample_pending],
    cl := { next := 0, overhead := 48 }, api := [] }

/-- The bytes handed to the client socket by the recorded `socket_sendv`
calls, in order. -/
def sent_bytes : List api_call → List Nat
  | [] => []
  | api_call.socket_sendv _ bs :: rest => bs ++ sent_bytes rest
  | _ :: rest => sent_bytes rest

/-- Number of recorded `header_send` calls. -/
def header_sends : List api_call → Nat
  | [] => 0
  | api_call.header_send _ _ :: rest => header_sends rest + 1
  | _ :: rest => header_sends rest

/-- A request in `ENDED` with client socket 9 whose vector holds the STDOUT
payload `X: y`, a blank line and the body `hello`. -/
def sample_ended : request :=
  { sample_sent with
    state := REQ_ENDED, fcgi_fd := -1,
    iov := { size := 8,
             io := [{ iov_base := str_bytes "X: y\r\n\r\nhello", after := [] }] } }

/-- A worker context whose request 1 is `ENDED`. -/
def sample_ended_context : fcgi_context :=
  { fdl := [{ sample_fd with state := FCGI_FD_READY }], rl := [sample_unused, sample_ended],
    cl := { next := 0, overhead := 48 }, api := [] }

/-- The state of `fcgi_recv_response` for the slot on socket 7 and the request
table of `sample_context` when the socket delivers a record of type zero for
request 1 followed by the STDOUT record. -/
def sample_null_record_state : recv_state :=
  { fd := sample_fd, cl := { next := 0, overhead := 48 }, rl := [sample_unused, sample_sent],
    sock := [read_event.data ([1, 0, 0, 1, 0, 0, 0, 0] ++ sample_stdout), read_event.eagain],
    api := [], handed := [] }

/-- A worker context whose only slot of location 0 is busy receiving and whose
request record 1 is free. -/
def sample_full_context : fcgi_context :=
  { fdl := [sample_fd], rl := [sample_unused, sample_unused], cl := { next := 0, overhead := 48 },
    api := [] }

/-- A client request without a body. -/
def sample_client_request : mk_http_request := { data := [], headers := sample_headers }

/-- The STDOUT payload of the scenario: a `Status` line, a `Content-type`
line, the blank line and the body. -/
def sample_cgi_payload : List Nat :=
  str_bytes "Status: 404\r\nContent-type: text/plain\r\n\r\nNot found"

/-- A request in `ENDED` whose output vector holds that payload in one
entry. -/
def sample_cgi_request : request :=
  { sample_sent with state := REQ_ENDED,
                     iov := { size := 8, io := [{ iov_base := sample_cgi_payload, after := [] }] } }

/-- A request in `ENDED` whose output vector holds the header block in a first
entry and the blank line with the body in a second one, as two STDOUT records
deliver them. -/
def sample_cgi_split : request :=
  { sample_sent with state := REQ_ENDED,
                     iov := { size := 8,
                              io := [{ iov_base := str_bytes "Status: 404\r\n", after := [] },
                                     { iov_base := str_bytes "\r\nNot found", after := [] }] } }

/-! ## Theorems -/

theorem and_seven (x : Nat) : x &&& 7 = x % 8 := Nat.and_pow_two_sub_one_eq_mod x 3

theorem fcgi_body_pad_eq (L : Nat) : fcgi_body_pad L = (8 - L % 8) % 8 := by
  unfold fcgi_body_pad bnot64 usub WORD
  rw [and_seven]
  omega

theorem usub_of_le (a b : Nat) (hb : b ≤ a) (ha : a < 2 ^ 64) : usub a b = a - b := by
  unfold usub WORD
  omega

theorem mem_read_length (m : Mem) (off n : Nat) : (mem_read m off n).length = n := by
  simp [mem_read]

theorem mem_read_add (m : Mem) (off a b : Nat) :
    mem_read m off (a + b) = mem_read m off a ++ mem_read m (off + a) b := by
  unfold mem_read
  rw [List.range_add, List.map_append, List.map_map]
  congr 1
  apply List.map_congr_left
  intro i _
  simp [Nat.add_assoc]

theorem mem_read_write_same (m : Mem) (off : Nat) (bs : List Nat) :
    mem_read (mem_write m off bs) off bs.length = bs := by
  apply List.ext_getElem
  · simp [mem_read]
  · intro i h1 h2
    simp only [mem_read, List.length_map, List.length_range] at h1
    simp [mem_read, mem_write, h1, List.getD_eq_getElem?_getD, List.getElem?_eq_getElem h1]

theorem mem_read_write_other (m : Mem) (off : Nat) (bs : List Nat) (o n : Nat)
    (h : o + n ≤ off ∨ off + bs.length ≤ o) :
    mem_read (mem_write m off bs) o n = mem_read m o n := by
  unfold mem_read
  apply List.map_congr_left
  intro i hi
  have hi2 : i < n := List.mem_range.mp hi
  unfold mem_write
  rw [if_neg]
  omega

/-- C1: for every body length `L` the padding `~(L - 1) & 7` lies in `0 .. 7`
and rounds `L` up to a multiple of eight, `L = 0` included. -/
theorem C1_padding (L : Nat) :
    0 ≤ fcgi_body_pad L ∧ fcgi_body_pad L < 8 ∧ (L + fcgi_body_pad L) % 8 = 0 := by
  rw [fcgi_body_pad_eq]
  omega


theorem prepare_empty_body_unfold (garbage : Mem) (idx : Nat) (location : Option fcgi_location)
    (env : List Nat) (iov : begin_iov)
    (h : (fcgi_prepare_request garbage idx location env [] iov).ret = 0) :
    ∃ loc, location = some loc ∧ 0 < idx % 65536 ∧ env.length ≤ 4072 ∧
      24 + env.length + fcgi_body_pad env.length + 8 + 8 < 4096 ∧
      iov.io.length < iov.size ∧
      fcgi_prepare_request garbage idx location env [] iov =
        { ret := 0
          buffer :=
            mem_write (mem_write (mem_write (mem_write (mem_write (mem_write garbage 0
              (fcgi_write_header ⟨1, 1, idx % 65536, 8, 0⟩)) 8
              (fcgi_write_begin_req_body ⟨1, if loc.keep_alive then 1 else 0⟩)) 24 env) 16
              (fcgi_write_header ⟨1, 4, idx % 65536, env.length, fcgi_body_pad env.length⟩))
              (24 + env.length + fcgi_body_pad env.length)
              (fcgi_write_header ⟨1, 4, idx % 65536, 0, 0⟩))
              (24 + env.length + fcgi_body_pad env.length + 8)
              (fcgi_write_header ⟨1, 5, idx % 65536, 0, 0⟩)
          iov := { iov with io := iov.io ++
            [⟨iov_ptr.buffer 0, 24 + env.length + fcgi_body_pad env.length + 8 + 8, true⟩] } } := by
  have hp := C1_padding env.length
  cases location with
  | none => simp [fcgi_prepare_request, fcgi_prepare_request_body] at h
  | some loc =>
    refine ⟨loc, rfl, ?_⟩
    have u0 : usub 4096 0 = 4096 := by decide
    have u8 : usub 4096 8 = 4088 := by decide
    have u24 : usub 4096 24 = 4072 := by decide
    have key : ∀ P : Prop, (0 < idx % 65536 → env.length ≤ 4072 →
        24 + env.length + fcgi_body_pad env.length + 8 + 8 < 4096 →
        iov.io.length < iov.size → P) → P := by
      intro P hP
      simp only [fcgi_prepare_request, fcgi_prepare_request_body, SIZEOF_HEADER,
        SIZEOF_BEGIN_REQ_BODY, FCGI_VERSION_1, FCGI_BEGIN_REQUEST, FCGI_PARAMS, FCGI_STDIN,
        FCGI_RESPONDER, FCGI_KEEP_CONN, fcgi_env_write, chunk_iov_add_ptr, Nat.zero_add, u0, u8,
        u24, List.length_nil, gt_iff_lt, Nat.lt_irrefl, if_false] at h
      by_cases h0 : 0 < idx % 65536
      swap
      · simp [h0] at h
      by_cases h1 : env.length ≤ 4072
      swap
      · simp [h0, h1] at h
      have e1 : env.length % 65536 = env.length := Nat.mod_eq_of_lt (by omega)
      have e2 : fcgi_body_pad env.length % 256 = fcgi_body_pad env.length :=
        Nat.mod_eq_of_lt (by omega)
      have u1 : usub 4096 (8 + 8 + 8 + (env.length + fcgi_body_pad env.length)) =
          4096 - (24 + env.length + fcgi_body_pad env.length) := by
        rw [usub_of_le _ _ (by omega) (by decide)]; omega
      simp only [h0, h1, e1, e2, u1, not_true_eq_false, not_false_eq_true, if_true, if_false]
        at h
      by_cases h3 : 8 < 4096 - (24 + env.length + fcgi_body_pad env.length)
      swap
      · simp [h3] at h
      have u2 : usub 4096 (8 + 8 + 8 + (env.length + fcgi_body_pad env.length) + 8) =
          4096 - (24 + env.length + fcgi_body_pad env.length + 8) := by
        rw [usub_of_le _ _ (by omega) (by decide)]; omega
      simp only [h3, u2, not_true_eq_false, not_false_eq_true, if_true, if_false] at h
      have c1 : (8 : Nat) < 4096 := by decide
      have c2 : (8 : Nat) < 4088 := by decide
      by_cases h4 : 8 < 4096 - (24 + env.length + fcgi_body_pad env.length + 8)
      swap
      · simp only [h4, c1, c2, not_false_eq_true, not_true_eq_false, if_true, if_false] at h
        simp at h
      by_cases h5 : iov.io.length < iov.size
      swap
      · simp only [h4, h5, c1, c2, not_false_eq_true, not_true_eq_false, if_true, if_false]
          at h
        simp at h
      exact hP h0 h1 (by omega) h5
    apply key
    intro h0 h1 h2 h5
    refine ⟨h0, h1, h2, h5, ?_⟩
    have e1 : env.length % 65536 = env.length := Nat.mod_eq_of_lt (by omega)
    have e2 : fcgi_body_pad env.length % 256 = fcgi_body_pad env.length :=
      Nat.mod_eq_of_lt (by omega)
    have u1 : usub 4096 (8 + 8 + 8 + (env.length + fcgi_body_pad env.length)) =
        4096 - (24 + env.length + fcgi_body_pad env.length) := by
      rw [usub_of_le _ _ (by omega) (by decide)]; omega
    have u2 : usub 4096 (8 + 8 + 8 + (env.length + fcgi_body_pad env.length) + 8) =
        4096 - (24 + env.length + fcgi_body_pad env.length + 8) := by
      rw [usub_of_le _ _ (by omega) (by decide)]; omega
    have h3 : 8 < 4096 - (24 + env.length + fcgi_body_pad env.length) := by omega
    have h4 : 8 < 4096 - (24 + env.length + fcgi_body_pad env.length + 8) := by omega
    have h0' : ¬ idx % 65536 = 0 := by omega
    simp only [fcgi_prepare_request, fcgi_prepare_request_body, SIZEOF_HEADER,
      SIZEOF_BEGIN_REQ_BODY, FCGI_VERSION_1, FCGI_BEGIN_REQUEST, FCGI_PARAMS, FCGI_STDIN,
      FCGI_RESPONDER, FCGI_KEEP_CONN, fcgi_env_write, chunk_iov_add_ptr, Nat.zero_add, u0, u8,
      u24, List.length_nil, gt_iff_lt, Nat.lt_irrefl, if_false, h0, h1, e1, e2, u1, u2, h3, h4,
      h5, not_true_eq_false, not_false_eq_true, if_true]
    simp [Nat.add_assoc]


theorem fcgi_write_header_length (h : fcgi_header) : (fcgi_write_header h).length = 8 := rfl

theorem fcgi_write_begin_req_body_length (b : fcgi_begin_req_body) :
    (fcgi_write_begin_req_body b).length = 8 := rfl

theorem mem_read_write_eq (m : Mem) (off : Nat) (bs : List Nat) (n : Nat) (h : n = bs.length) :
    mem_read (mem_write m off bs) off n = bs := by
  subst h
  exact mem_read_write_same m off bs

/-- C4: with an empty request body a successful `fcgi_prepare_request` leaves
one segment of `16 + (8 + E + pad E) + 8 + 8` bytes: the BEGIN_REQUEST record
with the non-zero slab index as request id, role responder and the keep-alive
bit of the location, one PARAMS record with the `E` environment bytes and
`pad E` padding bytes, an empty PARAMS record and an empty STDIN record. -/
theorem C4_empty_body_layout (garbage : Mem) (idx : Nat) (location : Option fcgi_location)
    (env : List Nat) (iov : begin_iov)
    (hidx : idx < 65536) (hio : iov.io = [])
    (h : (fcgi_prepare_request garbage idx location env [] iov).ret = 0) :
    idx ≠ 0 ∧ ∃ loc, location = some loc ∧
      (fcgi_prepare_request garbage idx location env [] iov).iov.io =
        [⟨iov_ptr.buffer 0, 16 + (8 + env.length + fcgi_body_pad env.length) + 8 + 8, true⟩] ∧
      ∃ padding : List Nat, padding.length = fcgi_body_pad env.length ∧
        iov_stream (fcgi_prepare_request garbage idx location env [] iov).buffer []
            (fcgi_prepare_request garbage idx location env [] iov).iov =
          fcgi_write_header ⟨FCGI_VERSION_1, FCGI_BEGIN_REQUEST, idx, 8, 0⟩
            ++ fcgi_write_begin_req_body
                ⟨FCGI_RESPONDER, if loc.keep_alive then FCGI_KEEP_CONN else 0⟩
            ++ fcgi_write_header
                ⟨FCGI_VERSION_1, FCGI_PARAMS, idx, env.length, fcgi_body_pad env.length⟩
            ++ env ++ padding
            ++ fcgi_write_header ⟨FCGI_VERSION_1, FCGI_PARAMS, idx, 0, 0⟩
            ++ fcgi_write_header ⟨FCGI_VERSION_1, FCGI_STDIN, idx, 0, 0⟩ := by
  obtain ⟨loc, hloc, h0, h1, h2, _, heq⟩ := prepare_empty_body_unfold garbage idx location env iov h
  have hid : idx % 65536 = idx := Nat.mod_eq_of_lt hidx
  rw [hid] at h0 heq
  refine ⟨by omega, loc, hloc, ?_, mem_read garbage (24 + env.length) (fcgi_body_pad env.length),
    mem_read_length _ _ _, ?_⟩
  · rw [heq, hio]
    simp
    omega
  · rw [heq, hio]
    simp only [iov_stream, List.nil_append, List.map_cons, List.map_nil, List.flatten_cons,
      List.flatten_nil, List.append_nil, iov_entry_bytes, FCGI_VERSION_1, FCGI_BEGIN_REQUEST,
      FCGI_PARAMS, FCGI_STDIN, FCGI_RESPONDER, FCGI_KEEP_CONN]
    have hsplit : 24 + env.length + fcgi_body_pad env.length + 8 + 8 =
        8 + 8 + 8 + env.length + fcgi_body_pad env.length + 8 + 8 := by omega
    rw [hsplit]
    simp only [mem_read_add, Nat.zero_add]
    have hl := fcgi_write_header_length
    have hb := fcgi_write_begin_req_body_length
    congr 1
    congr 1
    congr 1
    congr 1
    congr 1
    congr 1
    · rw [mem_read_write_other _ _ _ _ _ (by rw [hl]; omega),
        mem_read_write_other _ _ _ _ _ (by rw [hl]; omega),
        mem_read_write_other _ _ _ _ _ (by rw [hl]; omega),
        mem_read_write_other _ _ _ _ _ (by omega),
        mem_read_write_other _ _ _ _ _ (by rw [hb]; omega),
        mem_read_write_eq _ _ _ _ (hl _).symm]
    · rw [mem_read_write_other _ _ _ _ _ (by rw [hl]; omega),
        mem_read_write_other _ _ _ _ _ (by rw [hl]; omega),
        mem_read_write_other _ _ _ _ _ (by rw [hl]; omega),
        mem_read_write_other _ _ _ _ _ (by omega),
        mem_read_write_eq _ _ _ _ (hb _).symm]
    · rw [mem_read_write_other _ _ _ _ _ (by rw [hl]; omega),
        mem_read_write_other _ _ _ _ _ (by rw [hl]; omega),
        mem_read_write_eq _ _ _ _ (hl _).symm]
    · rw [mem_read_write_other _ _ _ _ _ (by rw [hl]; omega),
        mem_read_write_other _ _ _ _ _ (by rw [hl]; omega),
        mem_read_write_other _ _ _ _ _ (by rw [hl]; omega),
        mem_read_write_eq _ _ _ _ rfl]
    · rw [mem_read_write_other _ _ _ _ _ (by rw [hl]; omega),
        mem_read_write_other _ _ _ _ _ (by rw [hl]; omega),
        mem_read_write_other _ _ _ _ _ (by rw [hl]; omega),
        mem_read_write_other _ _ _ _ _ (by omega),
        mem_read_write_other _ _ _ _ _ (by rw [hb]; omega),
        mem_read_write_other _ _ _ _ _ (by rw [hl]; omega)]
    · rw [mem_read_write_other _ _ _ _ _ (by rw [hl]; omega)]
      have : 8 + 8 + 8 + env.length + fcgi_body_pad env.length =
        24 + env.length + fcgi_body_pad env.length := by omega
      rw [this, mem_read_write_eq _ _ _ _ (hl _).symm]
    · have : 8 + 8 + 8 + env.length + fcgi_body_pad env.length + 8 =
        24 + env.length + fcgi_body_pad env.length + 8 := by omega
      rw [this, mem_read_write_eq _ _ _ _ (hl _).symm]

theorem C4_empty_body_layout_witness :
    (1 : Nat) ≠ 0 ∧ ∃ loc, some (fcgi_location.mk true) = some loc ∧
      (fcgi_prepare_request (fun _ => 0) 1 (some ⟨true⟩) [65, 66, 67] [] ⟨8, []⟩).iov.io =
        [⟨iov_ptr.buffer 0, 16 + (8 + [65, 66, 67].length + fcgi_body_pad [65, 66, 67].length)
          + 8 + 8, true⟩] ∧
      ∃ padding : List Nat, padding.length = fcgi_body_pad [65, 66, 67].length ∧
        iov_stream (fcgi_prepare_request (fun _ => 0) 1 (some ⟨true⟩) [65, 66, 67] [] ⟨8, []⟩).buffer
            [] (fcgi_prepare_request (fun _ => 0) 1 (some ⟨true⟩) [65, 66, 67] [] ⟨8, []⟩).iov =
          fcgi_write_header ⟨FCGI_VERSION_1, FCGI_BEGIN_REQUEST, 1, 8, 0⟩
            ++ fcgi_write_begin_req_body
                ⟨FCGI_RESPONDER, if loc.keep_alive then FCGI_KEEP_CONN else 0⟩
            ++ fcgi_write_header
                ⟨FCGI_VERSION_1, FCGI_PARAMS, 1, [65, 66, 67].length,
                  fcgi_body_pad [65, 66, 67].length⟩
            ++ [65, 66, 67] ++ padding
            ++ fcgi_write_header ⟨FCGI_VERSION_1, FCGI_PARAMS, 1, 0, 0⟩
            ++ fcgi_write_header ⟨FCGI_VERSION_1, FCGI_STDIN, 1, 0, 0⟩ :=
  C4_empty_body_layout (fun _ => 0) 1 (some ⟨true⟩) [65, 66, 67] ⟨8, []⟩ (by decide) rfl
    (by decide)


theorem decode_records_succ (fuel : Nat) (s : List Nat) :
    decode_records (fuel + 1) s =
      if s.length < SIZEOF_HEADER then ([], s) else
      if (s.drop SIZEOF_HEADER).length <
          (fcgi_read_header s).body_len + (fcgi_read_header s).body_pad
      then ([], s) else
      (((fcgi_read_header s), (s.drop SIZEOF_HEADER).take (fcgi_read_header s).body_len) ::
        (decode_records fuel ((s.drop SIZEOF_HEADER).drop
          ((fcgi_read_header s).body_len + (fcgi_read_header s).body_pad))).1,
        (decode_records fuel ((s.drop SIZEOF_HEADER).drop
          ((fcgi_read_header s).body_len + (fcgi_read_header s).body_pad))).2) := rfl

theorem nonempty_body_stream (g : Mem) :
    iov_stream (fcgi_prepare_request g 1 (some ⟨true⟩) [65, 66, 67] [90] ⟨8, []⟩).buffer [90]
      (fcgi_prepare_request g 1 (some ⟨true⟩) [65, 66, 67] [90] ⟨8, []⟩).iov =
    [1, 1, 0, 1, 0, 8, 0, 0, 0, 1, 1, 0, 0, 0, 0, 0,
     1, 4, 0, 1, 0, 3, 5, 0, 65, 66, 67, g 27, g 28, g 29, g 30, g 31,
     1, 4, 0, 1, 0, 0, 0, 0,
     1, 5, 0, 1, 0, 1, 7, 0, 90] ++
     (mem_read g 48 8 ++ [1, 5, 0, 1, 0, 0, 0, 0] ++ mem_read g 64 48) := by
  rfl

/-- C3 (the code at a failing input): for a request with id 1, a keep-alive
location, the environment bytes `ABC` and the one-byte body `Z`, whatever the
fresh header buffer holds, `fcgi_prepare_request` succeeds with three
segments, the third being 64 bytes of the header buffer from offset 48 (the 7
padding bytes and the 8-byte empty STDIN header are 15 bytes, at offsets
48..55 and 56..63), and the byte stream of the vector does not decode into a
BEGIN_REQUEST followed by PARAMS and STDIN records. -/
theorem C3_nonempty_body_not_roundtrip (g : Mem) :
    (fcgi_prepare_request g 1 (some ⟨true⟩) [65, 66, 67] [90] ⟨8, []⟩).ret = 0 ∧
    (fcgi_prepare_request g 1 (some ⟨true⟩) [65, 66, 67] [90] ⟨8, []⟩).iov.io =
      [⟨iov_ptr.buffer 0, 48, true⟩, ⟨iov_ptr.data, 1, false⟩,
       ⟨iov_ptr.buffer 48, 64, false⟩] ∧
    roundtrip_check
      (iov_stream (fcgi_prepare_request g 1 (some ⟨true⟩) [65, 66, 67] [90] ⟨8, []⟩).buffer [90]
        (fcgi_prepare_request g 1 (some ⟨true⟩) [65, 66, 67] [90] ⟨8, []⟩).iov)
      FCGI_RESPONDER FCGI_KEEP_CONN [65, 66, 67] [90] = false := by
  refine ⟨rfl, rfl, ?_⟩
  rw [nonempty_body_stream]
  simp [roundtrip_check, mem_read, List.range, List.range.loop, decode_records_succ,
    fcgi_read_header, SIZEOF_HEADER]

/-- C2 (the code at a failing input): a STDOUT record and an END_REQUEST
record that arrive in one read are both handed to the handler; when the first
four bytes arrive in one notification, the next notification meets a
would-block result at once, and the other bytes arrive in a third
notification, the handler is handed no record at all.  This holds for every
chunk overhead up to 64 bytes. -/
theorem C2_split_read_loses_records (T : transitions) (overhead : Fin 65) :
    (recv_notifications T accept_pkg (sample_recv_state overhead.val)
        [[read_event.data (sample_stdout ++ sample_end), read_event.eagain]]).map (·.handed)
      = some [(fcgi_read_header sample_stdout, sample_stdout),
              (fcgi_read_header sample_end, sample_end)] ∧
    (recv_notifications T accept_pkg (sample_recv_state overhead.val)
        [[read_event.data (sample_stdout.take 4), read_event.eagain],
         [read_event.eagain],
         [read_event.data (sample_stdout.drop 4 ++ sample_end), read_event.eagain]]).map
        (·.handed)
      = some [] := by
  fin_cases overhead <;> exact ⟨rfl, rfl⟩

/-- C5 (the code at a failing input): the slot on socket 7 is `RECEIVING` and
request 1, in `SENT`, is bound to it.  When the read returns zero bytes,
`_mkp_event_read` asks for the socket to be closed and the slot is `CLOSING`
(if the state setter accepts the move), but the request table is unchanged:
request 1 is still `SENT`; it is still `SENT` after the close callback that
follows. -/
theorem C5_zero_read_keeps_request_sent (T : transitions) (conn : Option Int)
    (event_add_ok : Bool) :
    ∃ c, _mkp_event_read T sample_config sample_context 7 [read_event.eof]
        = some (MK_PLUGIN_RET_EVENT_CLOSE, c) ∧
      c.fdl.map (·.state) =
        [if T.fd_ok FCGI_FD_RECEIVING FCGI_FD_CLOSING then FCGI_FD_CLOSING
         else FCGI_FD_RECEIVING] ∧
      c.rl = [sample_unused, sample_sent] ∧
      (_mkp_event_close T sample_config c 7 conn event_add_ok).2.rl
        = [sample_unused, sample_sent] := by
  cases hT : T.fd_ok FCGI_FD_RECEIVING FCGI_FD_CLOSING
  · refine ⟨{ fdl := [{ sample_fd with
                chunk := some { id := 0, size := 8144, mem := [], read := 0, write := 0 } }],
              rl := [sample_unused, sample_sent], cl := { next := 1, overhead := 48 },
              api := [] }, ?_, ?_, ?_, ?_⟩
    · simp [_mkp_event_read, sample_context, sample_config, sample_fd, fcgi_fd_list_get_by_fd,
        find_index, fcgi_config_get_location, fcgi_recv_response, recv_loop, recv_iteration,
        sock_bytes, chunk_ptr_null, SIZEOF_HEADER, chunk_new, fcgi_fd_set_chunk, sock_read,
        chunk_write_ptr, CHUNK_SIZE, fcgi_fd_set_state, hT, fcgi_fd_set_state_unchecked]
    · simp [sample_fd]
    · simp
    · simp [_mkp_event_close, hangup, fcgi_fd_list_get_by_fd, find_index, sample_fd]
  · refine ⟨{ fdl := [{ sample_fd with
                state := FCGI_FD_CLOSING
                chunk := some { id := 0, size := 8144, mem := [], read := 0, write := 0 } }],
              rl := [sample_unused, sample_sent], cl := { next := 1, overhead := 48 },
              api := [] }, ?_, ?_, ?_, ?_⟩
    · simp [_mkp_event_read, sample_context, sample_config, sample_fd, fcgi_fd_list_get_by_fd,
        find_index, fcgi_config_get_location, fcgi_recv_response, recv_loop, recv_iteration,
        sock_bytes, chunk_ptr_null, SIZEOF_HEADER, chunk_new, fcgi_fd_set_chunk, sock_read,
        chunk_write_ptr, CHUNK_SIZE, fcgi_fd_set_state, hT, fcgi_fd_set_state_unchecked,
        framing_loop]
    · simp
    · simp
    · simp [_mkp_event_close, hangup, fcgi_fd_list_get_by_fd, find_index, sample_fd]


/-- C6: an END_REQUEST record for an existing request that is not `FAILED`,
with any application status and protocol status in its body, is handled with
success when the state setters accept the moves: the request is unbound from
its backend, the slot is `READY`, and the request is recycled when its client
descriptor is -1 and is `ENDED` otherwise, a sleeping client socket being put
back into write mode; nothing of this depends on the bytes of the record. -/
theorem C6_end_request (T : transitions) (fd : fcgi_fd) (req : request) (h : fcgi_header)
    (read : chunk_ptr) (ht : h.type = FCGI_END_REQUEST) (hs : req.state ≠ REQ_FAILED)
    (hfd : T.fd_ok fd.state FCGI_FD_READY = true)
    (hreq : req.fd ≠ -1 → T.req_ok req.state REQ_ENDED = true) :
    (fcgi_handle_pkg T fd (some req) h read).ret = 0 ∧
    (fcgi_handle_pkg T fd (some req) h read).fd = { fd with state := FCGI_FD_READY } ∧
    (fcgi_handle_pkg T fd (some req) h read).req =
      some (if req.fd = -1 then request_recycle (request_set_fcgi_fd req (-1))
            else { req with fcgi_fd := -1, state := REQ_ENDED, sleeping := false }) ∧
    (fcgi_handle_pkg T fd (some req) h read).api =
      (if req.fd ≠ -1 ∧ req.sleeping = true
       then [api_call.event_socket_change_mode req.fd event_mode.MK_EVENT_WRITE] else []) ∧
    ∀ read' : chunk_ptr,
      fcgi_handle_pkg T fd (some req) h read' = fcgi_handle_pkg T fd (some req) h read := by
  have e1 : ¬ (FCGI_END_REQUEST = FCGI_STDERR) := by decide
  have e2 : ¬ (FCGI_END_REQUEST = FCGI_STDOUT) := by decide
  have key : ∀ rd : chunk_ptr, fcgi_handle_pkg T fd (some req) h rd =
      { ret := 0, fd := { fd with state := FCGI_FD_READY },
        req := some (if req.fd = -1 then request_recycle (request_set_fcgi_fd req (-1))
            else { req with fcgi_fd := -1, state := REQ_ENDED, sleeping := false }),
        api := (if req.fd ≠ -1 ∧ req.sleeping = true
          then [api_call.event_socket_change_mode req.fd event_mode.MK_EVENT_WRITE] else []) } := by
    intro rd
    simp only [fcgi_handle_pkg, ht, e1, e2, if_false, if_true, fcgi_fd_set_state, hfd,
      request_set_fcgi_fd, request_set_state]
    by_cases hc : req.fd = -1
    · simp [hc]
    · cases hsl : req.sleeping <;> simp [hc, hs, hsl, hreq hc]
  refine ⟨?_, ?_, ?_, ?_, ?_⟩
  · rw [key]
  · rw [key]
  · rw [key]
  · rw [key]
  · intro read'
    rw [key, key]

theorem C6_end_request_witness :
    (fcgi_handle_pkg any_transition sample_fd (some sample_stream_closed)
        (fcgi_read_header sample_end) chunk_ptr_null).ret = 0 ∧
    (fcgi_handle_pkg any_transition sample_fd (some sample_stream_closed)
        (fcgi_read_header sample_end) chunk_ptr_null).fd =
      { sample_fd with state := FCGI_FD_READY } ∧
    (fcgi_handle_pkg any_transition sample_fd (some sample_stream_closed)
        (fcgi_read_header sample_end) chunk_ptr_null).req =
      some (if sample_stream_closed.fd = -1
            then request_recycle (request_set_fcgi_fd sample_stream_closed (-1))
            else { sample_stream_closed with
                     fcgi_fd := -1, state := REQ_ENDED, sleeping := false }) ∧
    (fcgi_handle_pkg any_transition sample_fd (some sample_stream_closed)
        (fcgi_read_header sample_end) chunk_ptr_null).api =
      (if sample_stream_closed.fd ≠ -1 ∧ sample_stream_closed.sleeping = true
       then [api_call.event_socket_change_mode sample_stream_closed.fd
              event_mode.MK_EVENT_WRITE] else []) ∧
    ∀ read' : chunk_ptr,
      fcgi_handle_pkg any_transition sample_fd (some sample_stream_closed)
          (fcgi_read_header sample_end) read' =
        fcgi_handle_pkg any_transition sample_fd (some sample_stream_closed)
          (fcgi_read_header sample_end) chunk_ptr_null :=
  C6_end_request any_transition sample_fd sample_stream_closed (fcgi_read_header sample_end)
    chunk_ptr_null (by decide) (by decide) rfl (fun _ => rfl)


theorem error_label_keeps_failed (T : transitions) (fd : fcgi_fd) (req : request)
    (api : List api_call) (hs : req.state = REQ_FAILED) :
    ∃ req', (fcgi_handle_pkg_error T fd (some req) api).req = some req' ∧
      req'.state = REQ_FAILED ∧ req'.iov = req.iov := by
  unfold fcgi_handle_pkg_error request_set_state_unchecked request_set_state
  cases hT : T.req_ok REQ_FAILED REQ_FAILED <;> cases hsl : req.sleeping <;>
    simp [hs, hsl, hT]

/-- C7: a record of any type handled for a request that is `FAILED` leaves it
`FAILED` with its output vector untouched, or recycles it (an END_REQUEST
record for a request whose client descriptor is -1); the request does not
become `STREAM_CLOSED` or `ENDED` and nothing is appended to its vector. -/
theorem C7_failed_is_terminal (T : transitions) (fd : fcgi_fd) (req : request)
    (h : fcgi_header) (read : chunk_ptr) (hs : req.state = REQ_FAILED) :
    ∃ req', (fcgi_handle_pkg T fd (some req) h read).req = some req' ∧
      ((req'.state = REQ_FAILED ∧ req'.iov = req.iov) ∨
        (req' = request_recycle (request_set_fcgi_fd req (-1)) ∧
          h.type = FCGI_END_REQUEST ∧ req.fd = -1)) ∧
      req'.state ≠ REQ_STREAM_CLOSED ∧ req'.state ≠ REQ_ENDED ∧
      (req'.iov.io = req.iov.io ∨ req'.iov.io = []) := by
  have main : ∃ req', (fcgi_handle_pkg T fd (some req) h read).req = some req' ∧
      ((req'.state = REQ_FAILED ∧ req'.iov = req.iov) ∨
        (req' = request_recycle (request_set_fcgi_fd req (-1)) ∧
          h.type = FCGI_END_REQUEST ∧ req.fd = -1)) := by
    unfold fcgi_handle_pkg
    simp only []
    by_cases h7 : h.type = FCGI_STDERR
    · simp [h7, hs]
    by_cases h6 : h.type = FCGI_STDOUT
    · simp [h7, h6, hs]
    by_cases h3 : h.type = FCGI_END_REQUEST
    · have e1 : ¬ (FCGI_END_REQUEST = FCGI_STDERR) := by decide
      have e2 : ¬ (FCGI_END_REQUEST = FCGI_STDOUT) := by decide
      simp only [h3, e1, e2, if_false, if_true]
      cases hfd : fcgi_fd_set_state T fd FCGI_FD_READY with
      | none =>
        obtain ⟨r, hr, h1, h2⟩ := error_label_keeps_failed T fd (request_set_fcgi_fd req (-1)) []
          (by simpa [request_set_fcgi_fd] using hs)
        exact ⟨r, hr, Or.inl ⟨h1, by simpa [request_set_fcgi_fd] using h2⟩⟩
      | some fd' =>
        by_cases hc : req.fd = -1
        · simp [request_set_fcgi_fd, hc]
        · simp [request_set_fcgi_fd, hc, hs]
    by_cases h0 : h.type = 0
    · have e1 : ¬ (0 = FCGI_STDERR) := by decide
      have e2 : ¬ (0 = FCGI_STDOUT) := by decide
      have e3 : ¬ (0 = FCGI_END_REQUEST) := by decide
      simp only [h0, e1, e2, e3, if_false, if_true]
      obtain ⟨r, hr, h1, h2⟩ := error_label_keeps_failed T fd req [] hs
      exact ⟨r, hr, Or.inl ⟨h1, h2⟩⟩
    · simp [h7, h6, h3, h0, hs]
  obtain ⟨req', hr, hcase⟩ := main
  refine ⟨req', hr, hcase, ?_, ?_, ?_⟩
  · rcases hcase with ⟨h1, _⟩ | ⟨h1, _⟩
    · rw [h1]; decide
    · rw [h1]; simp [request_recycle]
  · rcases hcase with ⟨h1, _⟩ | ⟨h1, _⟩
    · rw [h1]; decide
    · rw [h1]; simp [request_recycle]
  · rcases hcase with ⟨_, h2⟩ | ⟨h1, _⟩
    · left; rw [h2]
    · right; rw [h1]; simp [request_recycle, chunk_iov_reset]

theorem C7_failed_is_terminal_witness :
    ∃ req', (fcgi_handle_pkg any_transition sample_fd (some sample_failed)
        (fcgi_read_header sample_stdout) (chunk_read_ptr sample_chunk)).req = some req' ∧
      ((req'.state = REQ_FAILED ∧ req'.iov = sample_failed.iov) ∨
        (req' = request_recycle (request_set_fcgi_fd sample_failed (-1)) ∧
          (fcgi_read_header sample_stdout).type = FCGI_END_REQUEST ∧ sample_failed.fd = -1)) ∧
      req'.state ≠ REQ_STREAM_CLOSED ∧ req'.state ≠ REQ_ENDED ∧
      (req'.iov.io = sample_failed.iov.io ∨ req'.iov.io = []) :=
  C7_failed_is_terminal any_transition sample_fd sample_failed (fcgi_read_header sample_stdout)
    (chunk_read_ptr sample_chunk) rfl


/-- C8: a hangup or error notification on the client socket of a request
marks the request `FAILED`; a request without a bound backend is recycled at
once; a request with a bound backend loses its client reference (descriptor
-1, no session, no request handle) and keeps its backend binding, and an
END_REQUEST record handled for it afterwards recycles it, without a host call
and without the request becoming `ENDED`. -/
theorem C8_client_hangup (T : transitions) (config : fcgi_config) (cntx : fcgi_context)
    (socket : Int) (j : Nat) (req : request) (conn : Option Int) (event_add_ok : Bool)
    (hfd : fcgi_fd_list_get_by_fd cntx.fdl socket = none)
    (hj : request_list_get_by_fd cntx.rl socket = some j)
    (hreq : cntx.rl.get? j = some req)
    (hfail : req.state ≠ REQ_FAILED → T.req_ok req.state REQ_FAILED = true) :
    hangup T config cntx socket conn event_add_ok =
      (MK_PLUGIN_RET_EVENT_CONTINUE,
       { cntx with
          rl := cntx.rl.set j
            (if req.fcgi_fd = -1 then request_recycle { req with state := REQ_FAILED }
             else { req with state := REQ_FAILED, fd := -1, cs := none, sr := none }) }) ∧
    (request_recycle { req with state := REQ_FAILED }).state = REQ_AVAILABLE ∧
    ∀ (fd : fcgi_fd) (h : fcgi_header) (read : chunk_ptr),
      h.type = FCGI_END_REQUEST → T.fd_ok fd.state FCGI_FD_READY = true →
      fcgi_handle_pkg T fd
          (some { req with state := REQ_FAILED, fd := -1, cs := none, sr := none }) h read =
        { ret := 0, fd := { fd with state := FCGI_FD_READY },
          req := some (request_recycle { req with state := REQ_FAILED }), api := [] } := by
  refine ⟨?_, rfl, ?_⟩
  · unfold hangup
    rw [hfd]
    simp only [hj, hreq]
    by_cases hs : req.state = REQ_FAILED
    · have : ({ req with state := REQ_FAILED } : request) = req := by
        cases req; simp_all
      by_cases hb : req.fcgi_fd = -1
      · simp [hs, hb, request_recycle]
      · simp [hs, hb]
    · have hT := hfail hs
      by_cases hb : req.fcgi_fd = -1
      · simp [hs, hb, request_set_state_unchecked, request_set_state, hT]
      · simp [hs, hb, request_set_state_unchecked, request_set_state, hT]
  · intro fd h read ht hok
    have e1 : ¬ (FCGI_END_REQUEST = FCGI_STDERR) := by decide
    have e2 : ¬ (FCGI_END_REQUEST = FCGI_STDOUT) := by decide
    simp [fcgi_handle_pkg, ht, e1, e2, fcgi_fd_set_state, hok, request_set_fcgi_fd,
      request_recycle]

theorem C8_client_hangup_witness :
    hangup any_transition sample_config sample_context 9 none false =
      (MK_PLUGIN_RET_EVENT_CONTINUE,
       { sample_context with
          rl := sample_context.rl.set 1
            (if sample_sent.fcgi_fd = -1
             then request_recycle { sample_sent with state := REQ_FAILED }
             else { sample_sent with state := REQ_FAILED, fd := -1, cs := none, sr := none }) }) ∧
    (request_recycle { sample_sent with state := REQ_FAILED }).state = REQ_AVAILABLE ∧
    ∀ (fd : fcgi_fd) (h : fcgi_header) (read : chunk_ptr),
      h.type = FCGI_END_REQUEST → any_transition.fd_ok fd.state FCGI_FD_READY = true →
      fcgi_handle_pkg any_transition fd
          (some { sample_sent with state := REQ_FAILED, fd := -1, cs := none, sr := none })
          h read =
        { ret := 0, fd := { fd with state := FCGI_FD_READY },
          req := some (request_recycle { sample_sent with state := REQ_FAILED }), api := [] } :=
  C8_client_hangup any_transition sample_config sample_context 9 1 sample_sent none false
    (by decide) (by decide) (by decide) (fun _ => rfl)


theorem chunk_iov_length_eq (iov : chunk_iov) :
    chunk_iov_length iov = (chunk_iov_bytes iov).length := by
  unfold chunk_iov_length chunk_iov_bytes
  induction iov.io with
  | nil => rfl
  | cons e es ih => simp [ih]

theorem iovec_drop_bytes (n : Nat) (io : List iovec) :
    ((iovec_drop n io).map (fun e => e.iov_base)).flatten =
      ((io.map (fun e => e.iov_base)).flatten).drop n := by
  induction io generalizing n with
  | nil => simp [iovec_drop]
  | cons e es ih =>
    unfold iovec_drop
    by_cases h0 : n = 0
    · simp [h0]
    · by_cases h1 : e.iov_base.length ≤ n
      · simp only [h0, h1, if_false, if_true, ih, List.map_cons, List.flatten_cons]
        rw [List.drop_append_eq_append_drop, List.drop_of_length_le h1, List.nil_append]
      · simp only [h0, h1, if_false, List.map_cons, List.flatten_cons]
        rw [List.drop_append_eq_append_drop]
        have : n - e.iov_base.length = 0 := by omega
        rw [this, List.drop_zero]

theorem chunk_iov_drop_bytes (iov iov' : chunk_iov) (n : Nat)
    (h : chunk_iov_drop iov n = some iov') :
    chunk_iov_bytes iov' = (chunk_iov_bytes iov).drop n ∧
      chunk_iov_length iov' = chunk_iov_length iov - n := by
  unfold chunk_iov_drop at h
  by_cases hn : n ≤ chunk_iov_length iov
  · rw [if_pos hn] at h
    have h' := Option.some.inj h
    subst h'
    have hb : chunk_iov_bytes { iov with io := iovec_drop n iov.io } =
        (chunk_iov_bytes iov).drop n := iovec_drop_bytes n iov.io
    refine ⟨hb, ?_⟩
    rw [chunk_iov_length_eq, chunk_iov_length_eq, hb, List.length_drop]
  · rw [if_neg hn] at h
    exact absurd h (by simp)

/-- C9: a writable notification on a slot in `SENDING` whose pending
begin-request vector holds `r` bytes.  A would-block result changes nothing.
When the socket accepts `n < r` bytes the slot stays `SENDING` and the vector
holds the unsent `r - n` bytes, the written prefix dropped.  When it accepts
all `r` bytes the slot is `RECEIVING`, the vector is empty, the slot has no
pending vector and the socket is put into read mode. -/
theorem C9_sending_write (T : transitions) (cntx : fcgi_context) (socket : Int) (i j : Nat)
    (fd : fcgi_fd) (req : request) (n : Nat)
    (hi : fcgi_fd_list_get_by_fd cntx.fdl socket = some i)
    (hfd : cntx.fdl.get? i = some fd)
    (hst : fd.state = FCGI_FD_SENDING)
    (hb : fd.begin_req = some j)
    (hreq : cntx.rl.get? j = some req)
    (hrem : fd.begin_req_remain = chunk_iov_length req.iov)
    (hword : chunk_iov_length req.iov < 2 ^ 64)
    (hn : n ≤ chunk_iov_length req.iov)
    (hT : T.fd_ok FCGI_FD_SENDING FCGI_FD_RECEIVING = true) :
    _mkp_event_write T cntx socket write_event.eagain = (MK_PLUGIN_RET_EVENT_OWNED, cntx) ∧
    (n < chunk_iov_length req.iov →
      ∃ iov', chunk_iov_bytes iov' = (chunk_iov_bytes req.iov).drop n ∧
        chunk_iov_length iov' = chunk_iov_length req.iov - n ∧
        _mkp_event_write T cntx socket (write_event.accepted n) =
          (MK_PLUGIN_RET_EVENT_OWNED,
           { cntx with
              fdl := cntx.fdl.set i
                { fd with begin_req_remain := chunk_iov_length req.iov - n }
              rl := cntx.rl.set j { req with iov := iov' }
              api := cntx.api ++
                [api_call.socket_sendv fd.fd ((chunk_iov_bytes req.iov).take n)] })) ∧
    (n = chunk_iov_length req.iov →
      _mkp_event_write T cntx socket (write_event.accepted n) =
        (MK_PLUGIN_RET_EVENT_OWNED,
         { cntx with
            fdl := cntx.fdl.set i
              { fd with state := FCGI_FD_RECEIVING, begin_req := none, begin_req_remain := 0 }
            rl := cntx.rl.set j { req with iov := { req.iov with io := [] } }
            api := cntx.api ++
              [api_call.socket_sendv fd.fd (chunk_iov_bytes req.iov)] ++
              (if fd.type = fcgi_fd_type.FCGI_FD_INET
               then [api_call.socket_cork_flag fd.fd false] else []) ++
              [api_call.event_socket_change_mode fd.fd event_mode.MK_EVENT_READ] })) := by
  have hne : ¬ (FCGI_FD_SENDING = FCGI_FD_READY) := by decide
  have hdisp : ∀ w, _mkp_event_write T cntx socket w = event_write_sending T cntx i fd w := by
    intro w
    simp only [_mkp_event_write, hi, hfd, hst, hne, if_false, if_true]
  have hreq' : cntx.rl[j]? = some req := by simpa using hreq
  refine ⟨?_, ?_, ?_⟩
  · rw [hdisp]
    simp only [event_write_sending, hb, hreq]
  · intro hlt
    have hd : chunk_iov_drop req.iov n = some { req.iov with io := iovec_drop n req.iov.io } := by
      simp [chunk_iov_drop, hn]
    obtain ⟨hbytes, hlen⟩ := chunk_iov_drop_bytes _ _ _ hd
    refine ⟨_, hbytes, hlen, ?_⟩
    rw [hdisp]
    have hu : usub (chunk_iov_length req.iov) n = chunk_iov_length req.iov - n :=
      usub_of_le _ _ hn hword
    have hmin : min n (chunk_iov_length req.iov) = n := Nat.min_eq_left hn
    have hnz : ¬ (chunk_iov_length req.iov - n = 0) := by omega
    simp [event_write_sending, hb, hreq', hrem, hmin, hu, hnz, hd]
  · intro heq
    rw [hdisp]
    have hu : usub (chunk_iov_length req.iov) n = 0 := by
      rw [usub_of_le _ _ hn hword]; omega
    have hmin : min n (chunk_iov_length req.iov) = n := Nat.min_eq_left hn
    have htake : (chunk_iov_bytes req.iov).take n = chunk_iov_bytes req.iov := by
      apply List.take_of_length_le
      rw [← chunk_iov_length_eq]; omega
    simp [event_write_sending, hb, hreq', hrem, hmin, hu, htake, fcgi_fd_set_state_unchecked,
      fcgi_fd_set_state, hst, hT, chunk_iov_reset]


theorem C9_sending_write_witness :
    _mkp_event_write any_transition sample_sending_context 7 write_event.eagain =
      (MK_PLUGIN_RET_EVENT_OWNED, sample_sending_context) ∧
    (2 < chunk_iov_length sample_pending.iov →
      ∃ iov', chunk_iov_bytes iov' = (chunk_iov_bytes sample_pending.iov).drop 2 ∧
        chunk_iov_length iov' = chunk_iov_length sample_pending.iov - 2 ∧
        _mkp_event_write any_transition sample_sending_context 7 (write_event.accepted 2) =
          (MK_PLUGIN_RET_EVENT_OWNED,
           { sample_sending_context with
              fdl := sample_sending_context.fdl.set 0
                { sample_sending_fd with
                    begin_req_remain := chunk_iov_length sample_pending.iov - 2 }
              rl := sample_sending_context.rl.set 1 { sample_pending with iov := iov' }
              api := sample_sending_context.api ++
                [api_call.socket_sendv sample_sending_fd.fd
                  ((chunk_iov_bytes sample_pending.iov).take 2)] })) ∧
    (2 = chunk_iov_length sample_pending.iov →
      _mkp_event_write any_transition sample_sending_context 7 (write_event.accepted 2) =
        (MK_PLUGIN_RET_EVENT_OWNED,
         { sample_sending_context with
            fdl := sample_sending_context.fdl.set 0
              { sample_sending_fd with
                  state := FCGI_FD_RECEIVING, begin_req := none, begin_req_remain := 0 }
            rl := sample_sending_context.rl.set 1
              { sample_pending with iov := { sample_pending.iov with io := [] } }
            api := sample_sending_context.api ++
              [api_call.socket_sendv sample_sending_fd.fd (chunk_iov_bytes sample_pending.iov)] ++
              (if sample_sending_fd.type = fcgi_fd_type.FCGI_FD_INET
               then [api_call.socket_cork_flag sample_sending_fd.fd false] else []) ++
              [api_call.event_socket_change_mode sample_sending_fd.fd
                event_mode.MK_EVENT_READ] })) :=
  C9_sending_write any_transition sample_sending_context 7 0 1 sample_sending_fd sample_pending 2
    (by decide) (by decide) (by decide) (by decide) (by decide) (by decide) (by decide)
    (by decide) rfl


theorem find_index_get {α : Type} (p : α → Bool) (l : List α) (j : Nat)
    (h : find_index p l = some j) : ∃ x, l.get? j = some x ∧ p x = true := by
  induction l generalizing j with
  | nil => simp [find_index] at h
  | cons a as ih =>
    unfold find_index at h
    by_cases hp : p a = true
    · rw [if_pos hp] at h
      have : j = 0 := (Option.some.inj h).symm
      subst this
      exact ⟨a, rfl, hp⟩
    · rw [if_neg hp] at h
      cases hk : find_index p as with
      | none => rw [hk] at h; simp at h
      | some k =>
        rw [hk] at h
        have : j = k + 1 := (Option.some.inj h).symm
        subst this
        obtain ⟨x, hx, hpx⟩ := ih k hk
        exact ⟨x, by simpa using hx, hpx⟩

theorem find_index_set {α : Type} (p : α → Bool) (l : List α) (j : Nat) (x : α)
    (h : find_index p l = some j) (hx : p x = true) : find_index p (l.set j x) = some j := by
  induction l generalizing j with
  | nil => simp [find_index] at h
  | cons a as ih =>
    unfold find_index at h
    by_cases hp : p a = true
    · rw [if_pos hp] at h
      have : j = 0 := (Option.some.inj h).symm
      subst this
      simp [find_index, hx]
    · rw [if_neg hp] at h
      cases hk : find_index p as with
      | none => rw [hk] at h; simp at h
      | some k =>
        rw [hk] at h
        have : j = k + 1 := (Option.some.inj h).symm
        subst this
        simp [find_index, hp, ih k hk]

theorem get_set_same {α : Type} (l : List α) (j : Nat) (x y : α) (h : l.get? j = some x) :
    (l.set j y).get? j = some y := by
  have hlt : j < l.length := by
    rcases Nat.lt_or_ge j l.length with hl | hl
    · exact hl
    · rw [List.get?_eq_none.mpr hl] at h; simp at h
  simp [List.getElem?_set, hlt]

theorem sent_bytes_append (a b : List api_call) :
    sent_bytes (a ++ b) = sent_bytes a ++ sent_bytes b := by
  induction a with
  | nil => rfl
  | cons x xs ih => cases x <;> simp [sent_bytes, ih]

theorem header_sends_append (a b : List api_call) :
    header_sends (a ++ b) = header_sends a + header_sends b := by
  induction a with
  | nil => simp [header_sends]
  | cons x xs ih => cases x <;> simp [header_sends, ih]; omega

theorem event_writes_append (T : transitions) (cntx : fcgi_context) (socket : Int)
    (ws1 ws2 : List write_event) :
    event_writes T cntx socket (ws1 ++ ws2) =
      event_writes T (event_writes T cntx socket ws1) socket ws2 := by
  induction ws1 generalizing cntx with
  | nil => rfl
  | cons w ws ih => simp [event_writes, ih]

/-- One writable notification for a request in `ENDED` whose headers have been
sent: the socket accepts `n` bytes of the `len` pending ones. -/
theorem write_step (T : transitions) (cntx : fcgi_context) (socket : Int) (j : Nat)
    (r : request) (n : Nat)
    (hfd : fcgi_fd_list_get_by_fd cntx.fdl socket = none)
    (hj : request_list_get_by_fd cntx.rl socket = some j)
    (hr : cntx.rl.get? j = some r)
    (hst : r.state = REQ_ENDED) (hhs : r.headers_sent = true)
    (hT : T.req_ok REQ_ENDED REQ_FINISHED = true)
    (hn : n ≤ (chunk_iov_bytes r.iov).length) :
    r.fd = socket ∧
    (n < (chunk_iov_bytes r.iov).length →
      ∃ iov', chunk_iov_bytes iov' = (chunk_iov_bytes r.iov).drop n ∧
        (_mkp_event_write T cntx socket (write_event.accepted n)).2 =
          { cntx with rl := cntx.rl.set j { r with iov := iov' }
                      api := cntx.api ++
                        [api_call.socket_sendv socket ((chunk_iov_bytes r.iov).take n)] }) ∧
    (n = (chunk_iov_bytes r.iov).length →
      (_mkp_event_write T cntx socket (write_event.accepted n)).2 =
        { cntx with rl := cntx.rl.set j (request_recycle { r with state := REQ_FINISHED })
                    api := cntx.api ++
                      [api_call.socket_sendv socket (chunk_iov_bytes r.iov),
                       api_call.socket_cork_flag socket false,
                       api_call.http_request_end socket] }) := by
  obtain ⟨x, hx, hpx⟩ := find_index_get _ _ _ hj
  have hxr : x = r := by rw [hr] at hx; exact (Option.some.inj hx).symm
  subst hxr
  have hsock : x.fd = socket := by simpa using hpx
  have hlen := chunk_iov_length_eq x.iov
  have hn' : n ≤ chunk_iov_length x.iov := by omega
  have hmin : min n (chunk_iov_length x.iov) = n := Nat.min_eq_left hn'
  have hset : cntx.rl.set j x = cntx.rl := by
    apply List.ext_getElem?
    intro k
    by_cases hk : k = j
    · subst hk
      rw [← List.get?_eq_getElem?, get_set_same _ _ _ _ hr, ← List.get?_eq_getElem?, hr]
    · rw [List.getElem?_set_ne (Ne.symm hk)]
  refine ⟨hsock, ?_, ?_⟩
  · intro hlt
    have hd : chunk_iov_drop x.iov n = some { x.iov with io := iovec_drop n x.iov.io } := by
      simp [chunk_iov_drop, hn']
    obtain ⟨hbytes, _⟩ := chunk_iov_drop_bytes _ _ _ hd
    refine ⟨_, hbytes, ?_⟩
    have hne : ¬ (n = chunk_iov_length x.iov) := by omega
    simp only [_mkp_event_write, hfd, hj, hr, hst, if_true, fcgi_send_response_headers, hhs,
      fcgi_send_response, hmin, hne, hd, hset, List.append_nil, ne_eq, not_true_eq_false,
      if_false, not_false_eq_true, hsock, Bool.true_eq_false]
  · intro heq
    have he : n = chunk_iov_length x.iov := by omega
    have htake : (chunk_iov_bytes x.iov).take n = chunk_iov_bytes x.iov :=
      List.take_of_length_le (by omega)
    simp only [_mkp_event_write, hfd, hj, hr, hst, if_true, fcgi_send_response_headers, hhs,
      fcgi_send_response, hmin, hset, List.append_nil, ne_eq, not_true_eq_false,
      if_false, not_false_eq_true, hsock, request_set_state, hT, Bool.true_eq_false, htake]
    simp [← he, List.set_set]


/-- Writable notifications for a request in `ENDED` whose headers have been
sent, none of which empties the vector: the request stays `ENDED`, no header is
sent again, and the bytes sent are the next bytes of the vector. -/
theorem flush_partial (T : transitions) (socket : Int) (j : Nat)
    (hT : T.req_ok REQ_ENDED REQ_FINISHED = true) :
    ∀ (ns : List Nat) (cntx : fcgi_context) (r : request),
      fcgi_fd_list_get_by_fd cntx.fdl socket = none →
      request_list_get_by_fd cntx.rl socket = some j →
      cntx.rl.get? j = some r →
      r.state = REQ_ENDED → r.headers_sent = true →
      ns.sum < (chunk_iov_bytes r.iov).length →
      fcgi_fd_list_get_by_fd
          (event_writes T cntx socket (ns.map write_event.accepted)).fdl socket = none ∧
      request_list_get_by_fd
          (event_writes T cntx socket (ns.map write_event.accepted)).rl socket = some j ∧
      header_sends (event_writes T cntx socket (ns.map write_event.accepted)).api =
        header_sends cntx.api ∧
      sent_bytes (event_writes T cntx socket (ns.map write_event.accepted)).api =
        sent_bytes cntx.api ++ (chunk_iov_bytes r.iov).take ns.sum ∧
      ∃ r', (event_writes T cntx socket (ns.map write_event.accepted)).rl.get? j = some r' ∧
        r'.state = REQ_ENDED ∧ r'.headers_sent = true ∧
        chunk_iov_bytes r'.iov = (chunk_iov_bytes r.iov).drop ns.sum := by
  intro ns
  induction ns with
  | nil =>
    intro cntx r hfd hj hr hst hhs _
    exact ⟨hfd, hj, rfl, by simp [event_writes], r, hr, hst, hhs, by simp⟩
  | cons n ns ih =>
    intro cntx r hfd hj hr hst hhs hsum
    rw [List.sum_cons] at hsum
    obtain ⟨hsock, hpart, _⟩ := write_step T cntx socket j r n hfd hj hr hst hhs hT (by omega)
    obtain ⟨iov', hb, hstep⟩ := hpart (by omega)
    simp only [List.map_cons, event_writes, hstep]
    have hj' : request_list_get_by_fd (cntx.rl.set j { r with iov := iov' }) socket = some j :=
      find_index_set _ _ _ _ hj (by simpa using hsock)
    have hr' : (cntx.rl.set j { r with iov := iov' }).get? j = some { r with iov := iov' } :=
      get_set_same _ _ _ _ hr
    have hlen' : ns.sum < (chunk_iov_bytes ({ r with iov := iov' } : request).iov).length := by
      simp only [hb, List.length_drop]; omega
    obtain ⟨h1, h2, h3, h4, r', h5, h6, h7, h8⟩ :=
      ih { cntx with rl := cntx.rl.set j { r with iov := iov' }
                     api := cntx.api ++
                       [api_call.socket_sendv socket ((chunk_iov_bytes r.iov).take n)] }
        { r with iov := iov' } hfd hj' hr' hst hhs hlen'
    refine ⟨h1, h2, ?_, ?_, r', h5, h6, h7, ?_⟩
    · rw [h3, header_sends_append]; simp [header_sends]
    · rw [h4, sent_bytes_append]
      simp only [sent_bytes, List.append_nil, hb, List.append_assoc, List.sum_cons]
      congr 1
      rw [List.take_add]
    · rw [h8]
      simp only [hb, List.drop_drop, List.sum_cons]

theorem send_response_headers_first (req req1 : request) (api1 : List api_call)
    (hhs : req.headers_sent = false)
    (h : fcgi_send_response_headers req = (0, req1, api1)) :
    req1.headers_sent = true ∧ req1.state = req.state ∧ req1.fd = req.fd ∧
      header_sends api1 = 1 ∧ sent_bytes api1 = [] := by
  unfold fcgi_send_response_headers at h
  rw [hhs] at h
  simp only [Bool.false_eq_true, if_false] at h
  cases hsr : req.sr with
  | none => rw [hsr] at h; simp at h
  | some sr =>
    rw [hsr] at h
    simp only [] at h
    cases hd : chunk_iov_drop req.iov
        (fcgi_parse_cgi_headers { sr.headers with status := MK_HTTP_OK, cgi := false } req.iov).1 with
    | none => rw [hd] at h; simp at h
    | some iov =>
      rw [hd] at h
      simp only [Prod.mk.injEq, true_and] at h
      obtain ⟨h1, h2⟩ := h
      subst h1 h2
      simp [header_sends, sent_bytes]


/-- The first writable notification for a request in `ENDED` does what a
notification does on the context in which the headers have just been sent. -/
theorem first_write_eq (T : transitions) (cntx : fcgi_context) (socket : Int) (j : Nat)
    (req req1 : request) (api1 : List api_call)
    (hfd : fcgi_fd_list_get_by_fd cntx.fdl socket = none)
    (hj : request_list_get_by_fd cntx.rl socket = some j)
    (hreq : cntx.rl.get? j = some req)
    (hst : req.state = REQ_ENDED) (hhs : req.headers_sent = false)
    (hsr : fcgi_send_response_headers req = (0, req1, api1)) (w : write_event) :
    _mkp_event_write T cntx socket w =
      _mkp_event_write T
        { cntx with rl := cntx.rl.set j req1, api := cntx.api ++ api1 } socket w := by
  obtain ⟨h1, h2, h3, _, _⟩ := send_response_headers_first req req1 api1 hhs hsr
  obtain ⟨x, hx, hpx⟩ := find_index_get _ _ _ hj
  have hxr : x = req := by rw [hreq] at hx; exact (Option.some.inj hx).symm
  subst hxr
  have hsock : x.fd = socket := by simpa using hpx
  have hj1 : request_list_get_by_fd (cntx.rl.set j req1) socket = some j :=
    find_index_set _ _ _ _ hj (by simpa [h3] using hsock)
  have hr1 : (cntx.rl.set j req1).get? j = some req1 := get_set_same _ _ _ _ hreq
  have hsr1 : fcgi_send_response_headers req1 = (0, req1, []) := by
    simp [fcgi_send_response_headers, h1]
  have hst1 : req1.state = REQ_ENDED := by rw [h2, hst]
  conv_lhs => simp only [_mkp_event_write, hfd, hj, hreq, hst, if_true, hsr, List.set_set]
  conv_rhs => simp only [_mkp_event_write, hfd, hj1, hr1, hst1, if_true, hsr1, List.set_set,
    List.append_nil]

/-- C10: for a request in `ENDED` whose headers are not yet sent and whose
header translation succeeds, and writable notifications on its client socket
in which the socket accepts the amounts `ns` and then `last`, the last byte
of the body being accepted in the last of them: the headers are sent once, in
the first notification; the bytes sent over all notifications are the
response body (the vector after the header block is dropped); the request is
still `ENDED` before the last notification, and in the last one it becomes
`FINISHED` and is recycled. -/
theorem C10_flush_response (T : transitions) (cntx : fcgi_context) (socket : Int) (j : Nat)
    (req req1 : request) (api1 : List api_call) (ns : List Nat) (last : Nat)
    (hfd : fcgi_fd_list_get_by_fd cntx.fdl socket = none)
    (hj : request_list_get_by_fd cntx.rl socket = some j)
    (hreq : cntx.rl.get? j = some req)
    (hst : req.state = REQ_ENDED) (hhs : req.headers_sent = false)
    (hsr : fcgi_send_response_headers req = (0, req1, api1))
    (hT : T.req_ok REQ_ENDED REQ_FINISHED = true)
    (hpart : ns ≠ [] → ns.sum < (chunk_iov_bytes req1.iov).length)
    (hlast : ns.sum + last = (chunk_iov_bytes req1.iov).length) :
    header_sends (_mkp_event_write T cntx socket
        (write_event.accepted ((ns ++ [last]).headD 0))).2.api = header_sends cntx.api + 1 ∧
    header_sends (event_writes T cntx socket ((ns ++ [last]).map write_event.accepted)).api =
      header_sends cntx.api + 1 ∧
    sent_bytes (event_writes T cntx socket ((ns ++ [last]).map write_event.accepted)).api =
      sent_bytes cntx.api ++ chunk_iov_bytes req1.iov ∧
    (∃ r', (event_writes T cntx socket (ns.map write_event.accepted)).rl.get? j = some r' ∧
      r'.state = REQ_ENDED) ∧
    (∃ r' : request,
      (event_writes T cntx socket ((ns ++ [last]).map write_event.accepted)).rl.get? j =
        some (request_recycle { r' with state := REQ_FINISHED })) := by
  obtain ⟨h1, h2, h3, h4, h5⟩ := send_response_headers_first req req1 api1 hhs hsr
  obtain ⟨x, hx, hpx⟩ := find_index_get _ _ _ hj
  have hxr : x = req := by rw [hreq] at hx; exact (Option.some.inj hx).symm
  subst hxr
  have hsock : x.fd = socket := by simpa using hpx
  have hj1 : request_list_get_by_fd (cntx.rl.set j req1) socket = some j :=
    find_index_set _ _ _ _ hj (by simpa [h3] using hsock)
  have hr1 : (cntx.rl.set j req1).get? j = some req1 := get_set_same _ _ _ _ hreq
  have hst1 : req1.state = REQ_ENDED := by rw [h2, hst]
  have hfirst := first_write_eq T cntx socket j x req1 api1 hfd hj hreq hst hhs hsr
  have hws : ∀ (w : write_event) (ws : List write_event),
      event_writes T cntx socket (w :: ws) =
        event_writes T { cntx with rl := cntx.rl.set j req1, api := cntx.api ++ api1 }
          socket (w :: ws) := by
    intro w ws
    simp only [event_writes, hfirst]
  have hc1 : header_sends (cntx.api ++ api1) = header_sends cntx.api + 1 := by
    rw [header_sends_append, h4]
  have hs1 : sent_bytes (cntx.api ++ api1) = sent_bytes cntx.api := by
    rw [sent_bytes_append, h5, List.append_nil]
  cases ns with
  | nil =>
    simp only [List.sum_nil, Nat.zero_add] at hlast
    obtain ⟨_, _, hfull⟩ := write_step T
      { cntx with rl := cntx.rl.set j req1, api := cntx.api ++ api1 } socket j req1 last hfd hj1
      hr1 hst1 h1 hT (by omega)
    have hfin := hfull hlast
    simp only [List.nil_append, List.map_cons, List.map_nil, List.headD_cons, hws,
      event_writes, hfirst, hfin]
    refine ⟨?_, ?_, ?_, ⟨x, hreq, hst⟩, ⟨req1, ?_⟩⟩
    · rw [header_sends_append, hc1]; simp [header_sends]
    · rw [header_sends_append, hc1]; simp [header_sends]
    · rw [sent_bytes_append, hs1]; simp [sent_bytes]
    · exact get_set_same _ _ _ _ hr1
  | cons n ns' =>
    have hlt := hpart (by simp)
    obtain ⟨g1, g2, g3, g4, r', g5, g6, g7, g8⟩ := flush_partial T socket j hT (n :: ns')
      { cntx with rl := cntx.rl.set j req1, api := cntx.api ++ api1 } req1 hfd hj1 hr1 hst1 h1 hlt
    have hn : [n].sum < (chunk_iov_bytes req1.iov).length := by
      simp only [List.sum_cons, List.sum_nil] at hlt ⊢; omega
    obtain ⟨_, _, f3, _, _⟩ := flush_partial T socket j hT [n]
      { cntx with rl := cntx.rl.set j req1, api := cntx.api ++ api1 } req1 hfd hj1 hr1 hst1 h1 hn
    have hlen' : last = (chunk_iov_bytes r'.iov).length := by
      rw [g8, List.length_drop]; omega
    obtain ⟨_, _, hfull⟩ := write_step T _ socket j r' last g1 g2 g5 g6 g7 hT (by omega)
    have hfin := hfull hlen'
    have hmid : event_writes T cntx socket ((n :: ns').map write_event.accepted) =
        event_writes T { cntx with rl := cntx.rl.set j req1, api := cntx.api ++ api1 } socket
          ((n :: ns').map write_event.accepted) := by
      rw [List.map_cons, hws]
    have hall : event_writes T cntx socket ((n :: ns' ++ [last]).map write_event.accepted) =
        (_mkp_event_write T
          (event_writes T { cntx with rl := cntx.rl.set j req1, api := cntx.api ++ api1 } socket
            ((n :: ns').map write_event.accepted)) socket (write_event.accepted last)).2 := by
      rw [List.map_append, event_writes_append, hmid]
      rfl
    refine ⟨?_, ?_, ?_, ⟨r', by rw [hmid]; exact g5, g6⟩, ⟨r', ?_⟩⟩
    · have : (_mkp_event_write T cntx socket (write_event.accepted n)).2 =
          event_writes T { cntx with rl := cntx.rl.set j req1, api := cntx.api ++ api1 } socket
            ([n].map write_event.accepted) := by
        simp only [List.map_cons, List.map_nil, event_writes, hfirst]
      simp only [List.cons_append, List.headD_cons]
      rw [this, f3, hc1]
    · rw [hall, hfin]
      simp only [header_sends_append, g3, hc1]
      simp [header_sends]
    · rw [hall, hfin]
      simp only [sent_bytes_append, g4, hs1, sent_bytes, List.append_nil, g8, List.append_assoc,
        List.take_append_drop]
    · rw [hall, hfin]
      exact get_set_same _ _ _ _ g5


theorem C10_flush_response_witness :
    header_sends (_mkp_event_write any_transition sample_ended_context 9
        (write_event.accepted (([2, 1] ++ [2]).headD 0))).2.api =
      header_sends sample_ended_context.api + 1 ∧
    header_sends (event_writes any_transition sample_ended_context 9
        (([2, 1] ++ [2]).map write_event.accepted)).api =
      header_sends sample_ended_context.api + 1 ∧
    sent_bytes (event_writes any_transition sample_ended_context 9
        (([2, 1] ++ [2]).map write_event.accepted)).api =
      sent_bytes sample_ended_context.api ++
        chunk_iov_bytes (fcgi_send_response_headers sample_ended).2.1.iov ∧
    (∃ r', (event_writes any_transition sample_ended_context 9
        ([2, 1].map write_event.accepted)).rl.get? 1 = some r' ∧ r'.state = REQ_ENDED) ∧
    (∃ r' : request,
      (event_writes any_transition sample_ended_context 9
        (([2, 1] ++ [2]).map write_event.accepted)).rl.get? 1 =
        some (request_recycle { r' with state := REQ_FINISHED })) :=
  C10_flush_response any_transition sample_ended_context 9 1 sample_ended
    (fcgi_send_response_headers sample_ended).2.1 (fcgi_send_response_headers sample_ended).2.2
    [2, 1] 2 (by decide) (by decide) (by decide) (by decide) (by decide) (by decide) rfl
    (fun _ => by decide) (by decide)


theorem prepare_past_buffer (g : Mem) (env data : List Nat) (hE : env.length = 4000)
    (hL : data.length = 64) :
    fcgi_prepare_request_body g 1 (some ⟨true⟩) env data ⟨8, []⟩ =
      some (mem_write (mem_write (mem_write (mem_write (mem_write (mem_write (mem_write g 0
              (fcgi_write_header ⟨1, 1, 1, 8, 0⟩)) 8
              (fcgi_write_begin_req_body ⟨1, 1⟩)) 24 env) 16
              (fcgi_write_header ⟨1, 4, 1, 4000, 0⟩)) 4024
              (fcgi_write_header ⟨1, 4, 1, 0, 0⟩)) 4032
              (fcgi_write_header ⟨1, 5, 1, 64, 0⟩)) 4104
              (fcgi_write_header ⟨1, 5, 1, 0, 0⟩),
            ⟨8, [⟨iov_ptr.buffer 0, 4040, true⟩, ⟨iov_ptr.data, 64, false⟩,
                 ⟨iov_ptr.buffer 4040, 4112, false⟩]⟩) := by
  have p1 : fcgi_body_pad 4000 = 0 := by rw [fcgi_body_pad_eq]
  have p2 : fcgi_body_pad 64 = 0 := by rw [fcgi_body_pad_eq]
  have u0 : usub 4096 0 = 4096 := by decide
  have u8 : usub 4096 8 = 4088 := by decide
  have u24 : usub 4096 24 = 4072 := by decide
  have u1 : usub 4096 4024 = 72 := by decide
  have u2 : usub 4096 4032 = 64 := by decide
  have u3 : usub 4096 4104 = 18446744073709551608 := by decide
  simp [fcgi_prepare_request_body, SIZEOF_HEADER, SIZEOF_BEGIN_REQ_BODY, FCGI_VERSION_1,
    FCGI_BEGIN_REQUEST, FCGI_PARAMS, FCGI_STDIN, FCGI_RESPONDER, FCGI_KEEP_CONN, fcgi_env_write,
    chunk_iov_add_ptr, hE, hL, p1, p2, u0, u8, u24, u1, u2, u3]

/-- C15 (the code at a failing input): for the request with id 1, an
environment of 4000 bytes and a body of 64 bytes, whatever the fresh buffer
holds, `fcgi_prepare_request` returns success; the check before the last
header is made at `pos = 4104`, where `len - pos` wraps around, the empty STDIN
header is stored at offsets 4104..4111, past the 4096 bytes of the buffer, and
the third segment of the vector is 4112 bytes from offset 4040 of the
buffer. -/
theorem C15_header_past_buffer (g : Mem) :
    (fcgi_prepare_request g 1 (some ⟨true⟩) (List.replicate 4000 65) (List.replicate 64 66)
        ⟨8, []⟩).ret = 0 ∧
    usub 4096 4104 > SIZEOF_HEADER ∧
    mem_read (fcgi_prepare_request g 1 (some ⟨true⟩) (List.replicate 4000 65)
        (List.replicate 64 66) ⟨8, []⟩).buffer 4104 8 =
      fcgi_write_header ⟨FCGI_VERSION_1, FCGI_STDIN, 1, 0, 0⟩ ∧
    (fcgi_prepare_request g 1 (some ⟨true⟩) (List.replicate 4000 65) (List.replicate 64 66)
        ⟨8, []⟩).iov.io =
      [⟨iov_ptr.buffer 0, 4040, true⟩, ⟨iov_ptr.data, 64, false⟩,
       ⟨iov_ptr.buffer 4040, 4112, false⟩] ∧
    4096 < 4104 + 8 ∧ 4096 < 4040 + 4112 := by
  have h := prepare_past_buffer g (List.replicate 4000 65) (List.replicate 64 66)
    (List.length_replicate _ _) (List.length_replicate _ _)
  refine ⟨?_, by decide, ?_, ?_, by decide, by decide⟩
  · unfold fcgi_prepare_request
    rw [h]
  · unfold fcgi_prepare_request
    rw [h]
    exact mem_read_write_eq _ _ _ _ rfl
  · unfold fcgi_prepare_request
    rw [h]


theorem framing_advance_bounds (l : recv_locals) (h : 0 < l.rcp.len) :
    1 ≤ framing_advance l ∧ framing_advance l ≤ l.rcp.len ∧
      (framing_advance l = l.rcp.len ∨ SIZEOF_HEADER ≤ framing_advance l) := by
  unfold framing_advance SIZEOF_HEADER
  simp only []
  split_ifs <;> omega

theorem framing_loop_succ (handle_pkg : pkg_handler) (fuel : Nat) (st : recv_state)
    (l : recv_locals) :
    framing_loop handle_pkg (fuel + 1) st l =
      if l.rcp.len > 0 then
        if l.rcp.len < (if l.rcp.len < SIZEOF_HEADER then SIZEOF_HEADER
            else SIZEOF_HEADER + (fcgi_read_header l.rcp.bytes).body_len +
              (fcgi_read_header l.rcp.bytes).body_pad) then
          framing_loop handle_pkg fuel st
            { l with pkg_size := (if l.rcp.len < SIZEOF_HEADER then SIZEOF_HEADER
                        else SIZEOF_HEADER + (fcgi_read_header l.rcp.bytes).body_len +
                          (fcgi_read_header l.rcp.bytes).body_pad),
                     inherit := l.rcp.len,
                     rcp := rcp_advance l.rcp l.rcp.len }
        else
          if (handle_pkg st.fd (request_list_get st.rl (fcgi_read_header l.rcp.bytes).req_id)
              (fcgi_read_header l.rcp.bytes) l.rcp).ret ≠ 0 then
            loop_result.error
              { st with
                fd := (handle_pkg st.fd
                  (request_list_get st.rl (fcgi_read_header l.rcp.bytes).req_id)
                  (fcgi_read_header l.rcp.bytes) l.rcp).fd
                rl := match (handle_pkg st.fd
                    (request_list_get st.rl (fcgi_read_header l.rcp.bytes).req_id)
                    (fcgi_read_header l.rcp.bytes) l.rcp).req with
                  | some req' => st.rl.set (fcgi_read_header l.rcp.bytes).req_id req'
                  | none => st.rl
                api := st.api ++ (handle_pkg st.fd
                  (request_list_get st.rl (fcgi_read_header l.rcp.bytes).req_id)
                  (fcgi_read_header l.rcp.bytes) l.rcp).api
                handed := st.handed ++ [(fcgi_read_header l.rcp.bytes,
                  l.rcp.bytes.take (SIZEOF_HEADER + (fcgi_read_header l.rcp.bytes).body_len +
                    (fcgi_read_header l.rcp.bytes).body_pad))] }
          else
            framing_loop handle_pkg fuel
              { st with
                fd := (handle_pkg st.fd
                  (request_list_get st.rl (fcgi_read_header l.rcp.bytes).req_id)
                  (fcgi_read_header l.rcp.bytes) l.rcp).fd
                rl := match (handle_pkg st.fd
                    (request_list_get st.rl (fcgi_read_header l.rcp.bytes).req_id)
                    (fcgi_read_header l.rcp.bytes) l.rcp).req with
                  | some req' => st.rl.set (fcgi_read_header l.rcp.bytes).req_id req'
                  | none => st.rl
                api := st.api ++ (handle_pkg st.fd
                  (request_list_get st.rl (fcgi_read_header l.rcp.bytes).req_id)
                  (fcgi_read_header l.rcp.bytes) l.rcp).api
                handed := st.handed ++ [(fcgi_read_header l.rcp.bytes,
                  l.rcp.bytes.take (SIZEOF_HEADER + (fcgi_read_header l.rcp.bytes).body_len +
                    (fcgi_read_header l.rcp.bytes).body_pad))] }
              { l with pkg_size := SIZEOF_HEADER + (fcgi_read_header l.rcp.bytes).body_len +
                          (fcgi_read_header l.rcp.bytes).body_pad,
                       rcp := rcp_advance l.rcp
                         (SIZEOF_HEADER + (fcgi_read_header l.rcp.bytes).body_len +
                           (fcgi_read_header l.rcp.bytes).body_pad) }
      else loop_result.ok (st, l) := by
  by_cases h0 : l.rcp.len > 0
  · by_cases h8 : l.rcp.len < SIZEOF_HEADER
    · simp [framing_loop, h0, h8, rcp_advance]
    · by_cases hp : l.rcp.len < SIZEOF_HEADER + (fcgi_read_header l.rcp.bytes).body_len +
          (fcgi_read_header l.rcp.bytes).body_pad
      · simp [framing_loop, h0, h8, hp, rcp_advance]
      · simp [framing_loop, h0, h8, hp, rcp_advance]
  · simp [framing_loop, h0]

theorem framing_loop_step (handle_pkg : pkg_handler) (st : recv_state) (l : recv_locals)
    (fuel : Nat) (h : 0 < l.rcp.len) :
    (∃ st', framing_loop handle_pkg (fuel + 1) st l = loop_result.error st') ∨
    ∃ st' ps inh, framing_loop handle_pkg (fuel + 1) st l =
      framing_loop handle_pkg fuel st'
        { pkg_size := ps, inherit := inh, wcp := l.wcp, done := l.done,
          rcp := rcp_advance l.rcp (framing_advance l) } := by
  rw [framing_loop_succ]
  unfold framing_advance
  simp only [h, gt_iff_lt, if_true]
  by_cases h8 : l.rcp.len < SIZEOF_HEADER
  · simp only [h8, if_true]
    exact Or.inr ⟨_, _, _, rfl⟩
  · simp only [h8, if_false]
    by_cases hp : l.rcp.len < SIZEOF_HEADER + (fcgi_read_header l.rcp.bytes).body_len +
        (fcgi_read_header l.rcp.bytes).body_pad
    · simp only [hp, if_true]
      exact Or.inr ⟨_, _, _, rfl⟩
    · simp only [hp, if_false]
      by_cases hr : (handle_pkg st.fd
          (request_list_get st.rl (fcgi_read_header l.rcp.bytes).req_id)
          (fcgi_read_header l.rcp.bytes) l.rcp).ret ≠ 0
      · rw [if_pos hr]
        exact Or.inl ⟨_, rfl⟩
      · rw [if_neg hr]
        exact Or.inr ⟨_, _, _, rfl⟩

theorem framing_loop_ends (handle_pkg : pkg_handler) :
    ∀ (fuel : Nat) (st : recv_state) (l : recv_locals), l.rcp.len < fuel →
      (∃ st', framing_loop handle_pkg fuel st l = loop_result.error st') ∨
      ∃ st' l', framing_loop handle_pkg fuel st l = loop_result.ok (st', l') ∧
        l'.rcp.len = 0 ∧ l'.rcp.pos = l.rcp.pos + l.rcp.len ∧ l'.wcp = l.wcp ∧
        l'.done = l.done := by
  intro fuel
  induction fuel with
  | zero => intro st l h; omega
  | succ fuel ih =>
    intro st l hlt
    by_cases h0 : 0 < l.rcp.len
    · obtain ⟨h1, h2, _⟩ := framing_advance_bounds l h0
      rcases framing_loop_step handle_pkg st l fuel h0 with ⟨st', he⟩ | ⟨st', ps, inh, he⟩
      · exact Or.inl ⟨st', he⟩
      · rw [he]
        have hlen : (rcp_advance l.rcp (framing_advance l)).len < fuel := by
          simp only [rcp_advance]; omega
        rcases ih st' ⟨ps, inh, l.wcp, rcp_advance l.rcp (framing_advance l), l.done⟩ hlen
          with ⟨st'', he'⟩ | ⟨st'', l', he', g1, g2, g3, g4⟩
        · exact Or.inl ⟨st'', he'⟩
        · refine Or.inr ⟨st'', l', he', g1, ?_, g3, g4⟩
          rw [g2]
          simp only [rcp_advance]
          omega
    · have hz : l.rcp.len = 0 := by omega
      refine Or.inr ⟨st, l, ?_, hz, by omega, rfl, rfl⟩
      unfold framing_loop
      simp [hz]

/-- C14: the inner framing loop of `fcgi_recv_response` ends for every buffered
region, every header content and every handler.  While bytes are left, an
iteration moves the read position by at least one byte and by no more than the
bytes left (by all of them, or by a record of at least 8 bytes), and either
fails or goes on with the region so shortened; with the iteration bound
`rcp.len + 1` of the model the loop either fails or ends with no bytes left
and the read position exactly at the end of the buffered region. -/
theorem C14_framing_loop_terminates (handle_pkg : pkg_handler) (st : recv_state)
    (l : recv_locals) :
    (0 < l.rcp.len →
      1 ≤ framing_advance l ∧ framing_advance l ≤ l.rcp.len ∧
      (framing_advance l = l.rcp.len ∨ SIZEOF_HEADER ≤ framing_advance l) ∧
      (rcp_advance l.rcp (framing_advance l)).len < l.rcp.len ∧
      (rcp_advance l.rcp (framing_advance l)).pos ≤ l.rcp.pos + l.rcp.len ∧
      ∀ fuel, (∃ st', framing_loop handle_pkg (fuel + 1) st l = loop_result.error st') ∨
        ∃ st' ps inh, framing_loop handle_pkg (fuel + 1) st l =
          framing_loop handle_pkg fuel st'
            { pkg_size := ps, inherit := inh, wcp := l.wcp, done := l.done,
              rcp := rcp_advance l.rcp (framing_advance l) }) ∧
    ((∃ st', framing_loop handle_pkg (l.rcp.len + 1) st l = loop_result.error st') ∨
      ∃ st' l', framing_loop handle_pkg (l.rcp.len + 1) st l = loop_result.ok (st', l') ∧
        l'.rcp.len = 0 ∧ l'.rcp.pos = l.rcp.pos + l.rcp.len) := by
  constructor
  · intro h0
    obtain ⟨h1, h2, h3⟩ := framing_advance_bounds l h0
    refine ⟨h1, h2, h3, ?_, ?_, fun fuel => framing_loop_step handle_pkg st l fuel h0⟩
    · simp only [rcp_advance]; omega
    · simp only [rcp_advance]; omega
  · rcases framing_loop_ends handle_pkg (l.rcp.len + 1) st l (by omega) with h | ⟨a, b, h, g1, g2, _⟩
    · exact Or.inl h
    · exact Or.inr ⟨a, b, h, g1, g2⟩


theorem sock_read_bytes (sock : List read_event) (len : Nat) :
    sock_bytes (sock_read sock len).2 ≤ sock_bytes sock ∧
    ∀ bs, (sock_read sock len).1 = read_ret.bytes bs →
      sock_bytes (sock_read sock len).2 < sock_bytes sock := by
  cases sock with
  | nil => simp [sock_read, sock_bytes]
  | cons e rest =>
    cases e with
    | data bs =>
      simp only [sock_read]
      split_ifs with h1 h2 h3
      · simp [sock_bytes]
      · simp [sock_bytes]
      · simp only [sock_bytes]
        refine ⟨by omega, ?_⟩
        intro _ _
        omega
      · simp only [sock_bytes, List.length_drop]
        refine ⟨by omega, ?_⟩
        intro _ _
        omega
    | eof => simp [sock_read, sock_bytes]
    | eagain => simp [sock_read, sock_bytes]
    | error => simp [sock_read, sock_bytes]

theorem recv_iteration_eq (T : transitions) (hp : pkg_handler) (st : recv_state)
    (l : recv_locals) :
    recv_iteration T hp st l =
      match recv_alloc st l with
      | none => loop_result.error st
      | some (st1, l1) =>
        match recv_read T (sock_read st1.sock l1.wcp.len).1
            { st1 with sock := (sock_read st1.sock l1.wcp.len).2 } l1 with
        | none => loop_result.error { st1 with sock := (sock_read st1.sock l1.wcp.len).2 }
        | some (st2, l2) =>
          match framing_loop hp (l2.rcp.len + 1) st2 l2 with
          | loop_result.out_of_fuel => loop_result.out_of_fuel
          | loop_result.error s => loop_result.error s
          | loop_result.ok (s, l3) => recv_finish s l3 := by
  rfl

theorem recv_kept_refl (a : recv_state) : recv_kept a a := ⟨rfl, rfl, rfl, rfl, rfl⟩

theorem recv_kept_trans (a b c : recv_state) (h1 : recv_kept a b) (h2 : recv_kept b c) :
    recv_kept a c := by
  obtain ⟨a1, a2, a3, a4, a5⟩ := h1
  obtain ⟨b1, b2, b3, b4, b5⟩ := h2
  exact ⟨b1.trans a1, b2.trans a2, b3.trans a3, b4.trans a4, b5.trans a5⟩

theorem fcgi_fd_set_chunk_kept (fd fd' : fcgi_fd) (a : chunk) (inherit : Nat)
    (h : fcgi_fd_set_chunk fd a inherit = some fd') :
    fd'.location_id = fd.location_id ∧ fd'.fd = fd.fd ∧ fd'.state = fd.state := by
  unfold fcgi_fd_set_chunk at h
  split at h
  · split_ifs at h <;> simp at h <;> subst h <;> exact ⟨rfl, rfl, rfl⟩
  · split_ifs at h
    simp at h
    subst h
    exact ⟨rfl, rfl, rfl⟩

theorem recv_alloc_kept (st st1 : recv_state) (l l1 : recv_locals)
    (h : recv_alloc st l = some (st1, l1)) :
    recv_kept st st1 ∧ st1.sock = st.sock ∧ l1.done = l.done ∧
      st1.fd.state = st.fd.state := by
  unfold recv_alloc at h
  split_ifs at h with hc hp
  · simp only [] at h
    split at h
    · simp at h
    · rename_i fd hfd
      obtain ⟨k1, k2, k3⟩ := fcgi_fd_set_chunk_kept _ _ _ _ hfd
      split at h
      · simp at h
      · simp only [Option.some.injEq, Prod.mk.injEq] at h
        obtain ⟨h1, h2⟩ := h
        subst h1 h2
        exact ⟨⟨rfl, rfl, rfl, k1, k2⟩, rfl, rfl, k3⟩
  · simp only [] at h
    split at h
    · simp at h
    · rename_i fd hfd
      obtain ⟨k1, k2, k3⟩ := fcgi_fd_set_chunk_kept _ _ _ _ hfd
      split at h
      · simp at h
      · simp only [Option.some.injEq, Prod.mk.injEq] at h
        obtain ⟨h1, h2⟩ := h
        subst h1 h2
        exact ⟨⟨rfl, rfl, rfl, k1, k2⟩, rfl, rfl, k3⟩
  · simp only [Option.some.injEq, Prod.mk.injEq] at h
    obtain ⟨h1, h2⟩ := h
    subst h1 h2
    exact ⟨recv_kept_refl _, rfl, rfl, rfl⟩

theorem recv_read_kept (T : transitions) (ret : read_ret) (st st2 : recv_state)
    (l l2 : recv_locals) (h : recv_read T ret st l = some (st2, l2)) :
    recv_kept st st2 ∧ st2.sock = st.sock ∧ ((∃ bs, ret = read_ret.bytes bs) ∨ l2.done = true) := by
  unfold recv_read at h
  cases ret with
  | zero =>
    simp only [fcgi_fd_set_state] at h
    split_ifs at h
    simp only [Option.some.injEq, Prod.mk.injEq] at h
    obtain ⟨h1, h2⟩ := h
    subst h1 h2
    exact ⟨⟨rfl, rfl, rfl, rfl, rfl⟩, rfl, Or.inr rfl⟩
  | eagain =>
    simp only [Option.some.injEq, Prod.mk.injEq] at h
    obtain ⟨h1, h2⟩ := h
    subst h1 h2
    exact ⟨recv_kept_refl _, rfl, Or.inr rfl⟩
  | error => simp at h
  | bytes bs =>
    simp only [] at h
    split at h
    · simp at h
    · split at h
      · simp at h
      · simp only [Option.some.injEq, Prod.mk.injEq] at h
        obtain ⟨h1, h2⟩ := h
        subst h1 h2
        exact ⟨⟨rfl, rfl, rfl, rfl, rfl⟩, rfl, Or.inl ⟨bs, rfl⟩⟩

theorem recv_finish_cases (s : recv_state) (l : recv_locals) :
    recv_finish s l = loop_result.error s ∨
    ∃ s', recv_finish s l = loop_result.ok (s', l) ∧ recv_kept s s' ∧ s'.sock = s.sock ∧
      s'.fd.state = s.fd.state := by
  unfold recv_finish
  split
  · exact Or.inr ⟨s, rfl, recv_kept_refl _, rfl, rfl⟩
  · split_ifs
    · split
      · exact Or.inl rfl
      · exact Or.inr ⟨_, rfl, ⟨rfl, rfl, rfl, rfl, rfl⟩, rfl, rfl⟩
    · exact Or.inr ⟨s, rfl, recv_kept_refl _, rfl, rfl⟩


theorem request_list_get_none (rl : List request) (id : Nat) :
    request_list_get rl id = none ↔ id = 0 ∨ rl.length ≤ id := by
  unfold request_list_get
  by_cases h : id = 0
  · simp [h]
  · simp [h, List.getElem?_eq_none_iff]

theorem request_list_get_some (rl : List request) (id : Nat) (q : request)
    (h : request_list_get rl id = some q) : rl.get? id = some q ∧ id < rl.length := by
  unfold request_list_get at h
  split_ifs at h
  refine ⟨h, ?_⟩
  rcases Nat.lt_or_ge id rl.length with hl | hl
  · exact hl
  · rw [List.get?_eq_none.mpr hl] at h; simp at h

theorem handle_pkg_error_label (T : transitions) (fd : fcgi_fd) (req : Option request)
    (api : List api_call) (hreq : ∀ s, T.req_ok s REQ_FAILED = true) :
    (fcgi_handle_pkg_error T fd req api).ret = -1 ∧
    (fcgi_handle_pkg_error T fd req api).fd = fd ∧
    ∀ q, req = some q →
      ∃ q', (fcgi_handle_pkg_error T fd req api).req = some q' ∧ q'.state = REQ_FAILED := by
  unfold fcgi_handle_pkg_error
  cases req with
  | none => simp
  | some q =>
    simp only [request_set_state_unchecked, request_set_state, hreq, if_true, Option.getD_some]
    cases hs : q.sleeping <;> simp [hs]

theorem handled_well_ok (fd fd' : fcgi_fd) (h : fcgi_header) (q0 : Option request)
    (a : List api_call) (hl : fd'.location_id = fd.location_id) (hf : fd'.fd = fd.fd)
    (ht : h.type ≠ 0) : handled_well fd h { ret := 0, fd := fd', req := q0, api := a } :=
  ⟨Or.inl rfl, hl, hf, fun h0 => absurd h0 ht, fun hne => absurd rfl hne⟩

theorem handled_well_error (T : transitions) (fd fd' : fcgi_fd) (h : fcgi_header)
    (q0 : request) (hreq : ∀ s, T.req_ok s REQ_FAILED = true)
    (hl : fd'.location_id = fd.location_id) (hf : fd'.fd = fd.fd) :
    handled_well fd h (fcgi_handle_pkg_error T fd' (some q0) []) := by
  obtain ⟨e1, e2, e3⟩ := handle_pkg_error_label T fd' (some q0) [] hreq
  exact ⟨Or.inr e1, by rw [e2, hl], by rw [e2, hf], fun _ => e1, fun _ => e3 q0 rfl⟩

/-- What `fcgi_handle_pkg` does for an existing request. -/
theorem handle_pkg_some (T : transitions) (fd : fcgi_fd) (q : request)
    (h : fcgi_header) (read : chunk_ptr) (hreq : ∀ s, T.req_ok s REQ_FAILED = true) :
    handled_well fd h (fcgi_handle_pkg T fd (some q) h read) := by
  unfold fcgi_handle_pkg
  simp only []
  by_cases h7 : h.type = FCGI_STDERR
  · rw [if_pos h7]
    exact handled_well_ok fd _ h _ _ rfl rfl (by rw [h7]; decide)
  rw [if_neg h7]
  by_cases h6 : h.type = FCGI_STDOUT
  · rw [if_pos h6]
    have ht : h.type ≠ 0 := by rw [h6]; decide
    split_ifs
    · exact handled_well_ok fd _ h _ _ rfl rfl ht
    · split
      · exact handled_well_error T fd fd h q hreq rfl rfl
      · exact handled_well_ok fd _ h _ _ rfl rfl ht
    · split
      · split_ifs
        · exact handled_well_ok fd _ h _ _ rfl rfl ht
        · exact handled_well_error T fd fd h _ hreq rfl rfl
      · exact handled_well_error T fd fd h q hreq rfl rfl
  rw [if_neg h6]
  by_cases h3 : h.type = FCGI_END_REQUEST
  · rw [if_pos h3]
    have ht : h.type ≠ 0 := by rw [h3]; decide
    cases hT : T.fd_ok fd.state FCGI_FD_READY
    · simp only [fcgi_fd_set_state, hT, Bool.false_eq_true, if_false]
      exact handled_well_error T fd fd h _ hreq rfl rfl
    · simp only [fcgi_fd_set_state, hT, if_true]
      repeat' (first
        | exact handled_well_ok fd _ h _ _ rfl rfl ht
        | exact handled_well_error T fd _ h _ hreq rfl rfl
        | split)
  rw [if_neg h3]
  by_cases h0 : h.type = 0
  · rw [if_pos h0]
    exact handled_well_error T fd fd h q hreq rfl rfl
  · rw [if_neg h0]
    exact handled_well_ok fd _ h _ _ rfl rfl h0

/-- What `fcgi_handle_pkg` does when there is no request for the record. -/
theorem handle_pkg_none (T : transitions) (fd : fcgi_fd) (h : fcgi_header) (read : chunk_ptr) :
    fcgi_handle_pkg T fd none h read = { ret := -1, fd := fd, req := none, api := [] } := rfl

/-- One complete record handed to `fcgi_handle_pkg`: the state after the call. -/
theorem handled_state (T : transitions) (hreq : ∀ s, T.req_ok s REQ_FAILED = true)
    (st : recv_state) (h : fcgi_header) (read : chunk_ptr) (bs : List Nat)
    (r : handle_result) (hr : r = fcgi_handle_pkg T st.fd (request_list_get st.rl h.req_id) h read)
    (st1 : recv_state)
    (hst1 : st1 = { st with
        fd := r.fd
        rl := match r.req with
              | some req' => st.rl.set h.req_id req'
              | none => st.rl
        api := st.api ++ r.api
        handed := st.handed ++ [(h, bs)] }) :
    st1.sock = st.sock ∧ st1.rl.length = st.rl.length ∧
    st1.fd.location_id = st.fd.location_id ∧ st1.fd.fd = st.fd.fd ∧
    st1.handed = st.handed ++ [(h, bs)] ∧
    (r.ret = 0 → ¬ framing_error st.rl.length h) ∧
    (r.ret ≠ 0 → ¬ (h.req_id = 0 ∨ st.rl.length ≤ h.req_id) →
      ∃ q', st1.rl.get? h.req_id = some q' ∧ q'.state = REQ_FAILED) := by
  cases hq : request_list_get st.rl h.req_id with
  | none =>
    rw [hq, handle_pkg_none] at hr
    subst hr
    subst hst1
    refine ⟨rfl, rfl, rfl, rfl, rfl, ?_, ?_⟩
    · intro h0
      simp at h0
    · intro _ hn
      exact absurd ((request_list_get_none _ _).mp hq) hn
  | some q =>
    rw [hq] at hr
    have hw := handle_pkg_some T st.fd q h read hreq
    rw [← hr] at hw
    obtain ⟨w1, w2, w3, w4, w5⟩ := hw
    obtain ⟨g1, g2⟩ := request_list_get_some _ _ _ hq
    have hlen : st1.rl.length = st.rl.length := by
      subst hst1
      cases r.req <;> simp
    subst hst1
    refine ⟨rfl, hlen, w2, w3, rfl, ?_, ?_⟩
    · intro h0 hfe
      rcases hfe with hf | hf | hf
      · have := (request_list_get_none st.rl h.req_id).mpr (Or.inl hf)
        rw [hq] at this; cases this
      · omega
      · have := w4 hf
        rw [h0] at this; cases this
    · intro hne _
      obtain ⟨q', hq', hs'⟩ := w5 hne
      refine ⟨q', ?_, hs'⟩
      simp only [hq']
      exact get_set_same _ _ _ _ g1

theorem framing_loop_zero (hp : pkg_handler) (st : recv_state) (l : recv_locals) :
    framing_loop hp 0 st l = loop_result.out_of_fuel := rfl

/-- What the inner loop with `fcgi_handle_pkg` leaves behind: the records it
hands over are free of framing errors, but for the last one when it fails. -/
theorem framing_loop_trace (T : transitions) (hreq : ∀ s, T.req_ok s REQ_FAILED = true) :
    ∀ (fuel : Nat) (st : recv_state) (l : recv_locals),
      (∀ st' l', framing_loop (fcgi_handle_pkg T) fuel st l = loop_result.ok (st', l') →
        st'.sock = st.sock ∧ st'.rl.length = st.rl.length ∧
        st'.fd.location_id = st.fd.location_id ∧ st'.fd.fd = st.fd.fd ∧ l'.done = l.done ∧
        ∃ new, st'.handed = st.handed ++ new ∧
          ∀ x ∈ new, ¬ framing_error st.rl.length x.1) ∧
      (∀ st', framing_loop (fcgi_handle_pkg T) fuel st l = loop_result.error st' →
        st'.sock = st.sock ∧ st'.rl.length = st.rl.length ∧
        st'.fd.location_id = st.fd.location_id ∧ st'.fd.fd = st.fd.fd ∧
        ∃ goods h bs, st'.handed = st.handed ++ goods ++ [(h, bs)] ∧
          (∀ x ∈ goods, ¬ framing_error st.rl.length x.1) ∧
          (¬ (h.req_id = 0 ∨ st.rl.length ≤ h.req_id) →
            ∃ q', st'.rl.get? h.req_id = some q' ∧ q'.state = REQ_FAILED)) := by
  intro fuel
  induction fuel with
  | zero =>
    intro st l
    rw [framing_loop_zero]
    exact ⟨fun _ _ h => (by cases h), fun _ h => (by cases h)⟩
  | succ fuel ih =>
    intro st l
    rw [framing_loop_succ]
    by_cases h0 : l.rcp.len > 0
    swap
    · rw [if_neg h0]
      refine ⟨?_, fun _ h => (by cases h)⟩
      intro st' l' h
      simp only [loop_result.ok.injEq, Prod.mk.injEq] at h
      obtain ⟨h1, h2⟩ := h
      subst h1 h2
      exact ⟨rfl, rfl, rfl, rfl, rfl, [], by simp, by simp⟩
    rw [if_pos h0]
    by_cases hpart : l.rcp.len < (if l.rcp.len < SIZEOF_HEADER then SIZEOF_HEADER
        else SIZEOF_HEADER + (fcgi_read_header l.rcp.bytes).body_len +
          (fcgi_read_header l.rcp.bytes).body_pad)
    · rw [if_pos hpart]
      exact ih st _
    rw [if_neg hpart]
    by_cases hret : (fcgi_handle_pkg T st.fd
        (request_list_get st.rl (fcgi_read_header l.rcp.bytes).req_id)
        (fcgi_read_header l.rcp.bytes) l.rcp).ret ≠ 0
    · rw [if_pos hret]
      refine ⟨fun _ _ h => (by cases h), ?_⟩
      intro st' h
      simp only [loop_result.error.injEq] at h
      obtain ⟨k1, k2, k3, k4, k5, _, k7⟩ := handled_state T hreq st
        (fcgi_read_header l.rcp.bytes) l.rcp
        (l.rcp.bytes.take (SIZEOF_HEADER + (fcgi_read_header l.rcp.bytes).body_len +
          (fcgi_read_header l.rcp.bytes).body_pad)) _ rfl st' h.symm
      exact ⟨k1, k2, k3, k4, [], _, _, by simpa using k5, by simp, k7 hret⟩
    · rw [if_neg hret]
      have hz : (fcgi_handle_pkg T st.fd
          (request_list_get st.rl (fcgi_read_header l.rcp.bytes).req_id)
          (fcgi_read_header l.rcp.bytes) l.rcp).ret = 0 := by
        by_contra hc
        exact hret hc
      obtain ⟨k1, k2, k3, k4, k5, k6, _⟩ := handled_state T hreq st
        (fcgi_read_header l.rcp.bytes) l.rcp
        (l.rcp.bytes.take (SIZEOF_HEADER + (fcgi_read_header l.rcp.bytes).body_len +
          (fcgi_read_header l.rcp.bytes).body_pad)) _ rfl _ rfl
      have hgood := k6 hz
      obtain ⟨i1, i2⟩ := ih _ { l with
        pkg_size := SIZEOF_HEADER + (fcgi_read_header l.rcp.bytes).body_len +
          (fcgi_read_header l.rcp.bytes).body_pad,
        rcp := rcp_advance l.rcp (SIZEOF_HEADER + (fcgi_read_header l.rcp.bytes).body_len +
          (fcgi_read_header l.rcp.bytes).body_pad) }
      constructor
      · intro st' l' h
        obtain ⟨a1, a2, a3, a4, a5, new, a6, a7⟩ := i1 st' l' h
        refine ⟨a1.trans k1, a2.trans k2, a3.trans k3, a4.trans k4, a5,
          (fcgi_read_header l.rcp.bytes,
          l.rcp.bytes.take (SIZEOF_HEADER + (fcgi_read_header l.rcp.bytes).body_len +
            (fcgi_read_header l.rcp.bytes).body_pad)) :: new, ?_, ?_⟩
        · rw [a6, k5]; simp
        · intro x hx
          rcases List.mem_cons.mp hx with hx | hx
          · rw [hx]; exact hgood
          · have := a7 x hx
            rwa [k2] at this
      · intro st' h
        obtain ⟨a1, a2, a3, a4, goods, hh, bs, a6, a7, a8⟩ := i2 st' h
        refine ⟨a1.trans k1, a2.trans k2, a3.trans k3, a4.trans k4,
          (fcgi_read_header l.rcp.bytes,
          l.rcp.bytes.take (SIZEOF_HEADER + (fcgi_read_header l.rcp.bytes).body_len +
            (fcgi_read_header l.rcp.bytes).body_pad)) :: goods, hh, bs, ?_, ?_, ?_⟩
        · rw [a6, k5]; simp
        · intro x hx
          rcases List.mem_cons.mp hx with hx | hx
          · rw [hx]; exact hgood
          · have := a7 x hx
            rwa [k2] at this
        · rw [k2] at a8
          exact a8

theorem trace_ok_of_kept (a b : recv_state) (h : recv_kept a b) : trace_ok a b := by
  obtain ⟨h1, h2, _, h4, h5⟩ := h
  exact ⟨by rw [h1], h4, h5, [], by simp [h2], by simp⟩

theorem trace_ok_trans (a b c : recv_state) (h1 : trace_ok a b) (h2 : trace_ok b c) :
    trace_ok a c := by
  obtain ⟨a1, a2, a3, n1, a4, a5⟩ := h1
  obtain ⟨b1, b2, b3, n2, b4, b5⟩ := h2
  refine ⟨b1.trans a1, b2.trans a2, b3.trans a3, n1 ++ n2, ?_, ?_⟩
  · rw [b4, a4, List.append_assoc]
  · intro x hx
    rcases List.mem_append.mp hx with hx | hx
    · exact a5 x hx
    · have := b5 x hx
      rwa [a1] at this

theorem trace_error_of_ok (a b : recv_state) (h : trace_ok a b) : trace_error a b := by
  obtain ⟨a1, a2, a3, n1, a4, a5⟩ := h
  exact ⟨a1, a2, a3, n1, [], by simp [a4], a5, Or.inl rfl⟩

theorem trace_ok_error (a b c : recv_state) (h1 : trace_ok a b) (h2 : trace_error b c) :
    trace_error a c := by
  obtain ⟨a1, a2, a3, n1, a4, a5⟩ := h1
  obtain ⟨b1, b2, b3, goods, last, b4, b5, b6⟩ := h2
  refine ⟨b1.trans a1, b2.trans a2, b3.trans a3, n1 ++ goods, last, ?_, ?_, ?_⟩
  · rw [b4, a4]; simp
  · intro x hx
    rcases List.mem_append.mp hx with hx | hx
    · exact a5 x hx
    · have := b5 x hx
      rwa [a1] at this
  · rw [a1] at b6
    exact b6

theorem trace_ok_sock (a b : recv_state) (s : List read_event) (h : trace_ok { a with sock := s } b) :
    trace_ok a b := h

/-- One iteration of the outer loop with `fcgi_handle_pkg`: it ends, at the
`error` label or normally, and then either `done` is set or bytes were taken
from the socket. -/
theorem recv_iteration_trace (T : transitions) (hreq : ∀ s, T.req_ok s REQ_FAILED = true)
    (st : recv_state) (l : recv_locals) :
    (∃ st', recv_iteration T (fcgi_handle_pkg T) st l = loop_result.error st' ∧
      trace_error st st') ∨
    (∃ st' l', recv_iteration T (fcgi_handle_pkg T) st l = loop_result.ok (st', l') ∧
      trace_ok st st' ∧ (l'.done = true ∨ sock_bytes st'.sock < sock_bytes st.sock)) := by
  rw [recv_iteration_eq]
  cases ha : recv_alloc st l with
  | none => exact Or.inl ⟨st, rfl, trace_error_of_ok _ _ (trace_ok_of_kept _ _ (recv_kept_refl _))⟩
  | some p1 =>
    obtain ⟨st1, l1⟩ := p1
    obtain ⟨ka, sa, _, _⟩ := recv_alloc_kept _ _ _ _ ha
    have t1 : trace_ok st st1 := trace_ok_of_kept _ _ ka
    simp only []
    cases hr : recv_read T (sock_read st1.sock l1.wcp.len).1
        { st1 with sock := (sock_read st1.sock l1.wcp.len).2 } l1 with
    | none =>
      exact Or.inl ⟨_, rfl, trace_error_of_ok _ _ t1⟩
    | some p2 =>
      obtain ⟨st2, l2⟩ := p2
      obtain ⟨kr, sr, dr⟩ := recv_read_kept _ _ _ _ _ _ hr
      have t2 : trace_ok st st2 := trace_ok_trans _ _ _ t1 (trace_ok_of_kept _ _ kr)
      have hsock : l2.done = true ∨ sock_bytes st2.sock < sock_bytes st.sock := by
        rcases dr with ⟨bs, hb⟩ | hd
        · right
          rw [sr, ← sa]
          exact (sock_read_bytes st1.sock l1.wcp.len).2 bs hb
        · exact Or.inl hd
      simp only []
      obtain ⟨f1, f2⟩ := framing_loop_trace T hreq (l2.rcp.len + 1) st2 l2
      rcases framing_loop_ends (fcgi_handle_pkg T) (l2.rcp.len + 1) st2 l2 (by omega) with
        ⟨s, hs⟩ | ⟨s, l3, hs, _, _, _, _⟩
      · rw [hs]
        obtain ⟨_, e2, e3, e4, goods, h, bs, e5, e6, e7⟩ := f2 s hs
        exact Or.inl ⟨s, rfl, trace_ok_error _ _ _ t2
          ⟨e2, e3, e4, goods, [(h, bs)], e5, e6, Or.inr ⟨h, bs, rfl, e7⟩⟩⟩
      · rw [hs]
        obtain ⟨o1, o2, o3, o4, o5, new, o6, o7⟩ := f1 s l3 hs
        have t3 : trace_ok st s := trace_ok_trans _ _ _ t2 ⟨o2, o3, o4, new, o6, o7⟩
        simp only []
        rcases recv_finish_cases s l3 with hf | ⟨s', hf, kf, sf, _⟩
        · rw [hf]
          exact Or.inl ⟨s, rfl, trace_error_of_ok _ _ t3⟩
        · rw [hf]
          refine Or.inr ⟨s', l3, rfl, trace_ok_trans _ _ _ t3 (trace_ok_of_kept _ _ kf), ?_⟩
          rw [o5, sf, o1]
          exact hsock

/-- The outer loop with `fcgi_handle_pkg` ends within `sock_bytes + 1`
iterations. -/
theorem recv_loop_trace (T : transitions) (hreq : ∀ s, T.req_ok s REQ_FAILED = true) :
    ∀ (fuel : Nat) (st : recv_state) (l : recv_locals), sock_bytes st.sock < fuel →
      (∃ st', recv_loop T (fcgi_handle_pkg T) fuel st l = loop_result.error st' ∧
        trace_error st st') ∨
      (∃ st', recv_loop T (fcgi_handle_pkg T) fuel st l = loop_result.ok st' ∧
        trace_ok st st') := by
  intro fuel
  induction fuel with
  | zero => intro st l h; omega
  | succ fuel ih =>
    intro st l hlt
    unfold recv_loop
    rcases recv_iteration_trace T hreq st l with ⟨s, hs, ts⟩ | ⟨s, l', hs, ts, hd⟩
    · rw [hs]
      exact Or.inl ⟨s, rfl, ts⟩
    · rw [hs]
      simp only []
      by_cases hdone : l'.done = true
      · rw [if_pos hdone]
        exact Or.inr ⟨s, rfl, ts⟩
      · rw [if_neg hdone]
        have hlt' : sock_bytes s.sock < fuel := by
          rcases hd with hd | hd
          · exact absurd hd hdone
          · omega
        rcases ih s l' hlt' with ⟨s', hs', ts'⟩ | ⟨s', hs', ts'⟩
        · exact Or.inl ⟨s', hs', trace_ok_error _ _ _ ts ts'⟩
        · exact Or.inr ⟨s', hs', trace_ok_trans _ _ _ ts ts'⟩

theorem last_record_split {α : Type} (goods pre post : List α) (x y : α)
    (h : goods ++ [x] = pre ++ y :: post) : (post = [] ∧ y = x) ∨ y ∈ goods := by
  rcases List.eq_nil_or_concat post with hp | ⟨post', z, hp⟩
  · subst hp
    left
    have h' : goods ++ [x] = pre ++ [y] := h
    have := List.append_inj' h' rfl
    exact ⟨rfl, (List.cons.inj this.2).1.symm⟩
  · subst hp
    right
    have h' : goods ++ [x] = (pre ++ y :: post') ++ [z] := by
      rw [h]; simp
    have := (List.append_inj' h' rfl).1
    rw [this]
    simp

/-- C12: `fcgi_recv_response` with `fcgi_handle_pkg` returns, with 0 or -1,
and when it returns -1 the slot is `CLOSING`.  When one of the records it
handed to the handler has a request id without a Request Record or has type
zero, it returns -1, that record is the last one handed over, the slot is
`CLOSING`, and the request addressed by the record, when there is one, is
`FAILED`.  The state setters are taken to accept the moves to `CLOSING` and to
`FAILED`, whose results the code does not look at. -/
theorem C12_framing_errors_abort (T : transitions) (st : recv_state)
    (hfd : ∀ s, s ≠ FCGI_FD_CLOSING → T.fd_ok s FCGI_FD_CLOSING = true)
    (hreq : ∀ s, T.req_ok s REQ_FAILED = true) :
    ∃ ret st', fcgi_recv_response T (fcgi_handle_pkg T) st = some (ret, st') ∧
      (ret = 0 ∨ ret = -1) ∧ (ret = -1 → st'.fd.state = FCGI_FD_CLOSING) ∧
      ∃ new, st'.handed = st.handed ++ new ∧
        ∀ pre h bs post, new = pre ++ (h, bs) :: post →
          (request_list_get st.rl h.req_id = none ∨ h.type = 0) →
          ret = -1 ∧ post = [] ∧ st'.fd.state = FCGI_FD_CLOSING ∧
          (request_list_get st.rl h.req_id ≠ none →
            ∃ q', st'.rl.get? h.req_id = some q' ∧ q'.state = REQ_FAILED) := by
  have hbad : ∀ h : fcgi_header, (request_list_get st.rl h.req_id = none ∨ h.type = 0) →
      framing_error st.rl.length h := by
    intro h hb
    rcases hb with hb | hb
    · rcases (request_list_get_none _ _).mp hb with h1 | h1
      · exact Or.inl h1
      · exact Or.inr (Or.inl h1)
    · exact Or.inr (Or.inr hb)
  have hclosing : ∀ fd : fcgi_fd,
      (fcgi_fd_set_state_unchecked T fd FCGI_FD_CLOSING).state = FCGI_FD_CLOSING := by
    intro fd
    unfold fcgi_fd_set_state_unchecked fcgi_fd_set_state
    by_cases hs : fd.state = FCGI_FD_CLOSING
    · split_ifs <;> simp [hs]
    · simp [hfd _ hs]
  unfold fcgi_recv_response
  simp only []
  rcases recv_loop_trace T hreq (sock_bytes st.sock + 1) st _ (Nat.lt_succ_self _) with
    ⟨s, hs, _, _, _, goods, last, e4, e5, e6⟩ | ⟨s, hs, _, _, _, new, o4, o5⟩
  · rw [hs]
    refine ⟨-1, _, rfl, Or.inr rfl, fun _ => hclosing _, goods ++ last, ?_, ?_⟩
    · simp [e4]
    · intro pre h bs post hsplit hb
      have hfe := hbad h hb
      rcases e6 with hl | ⟨h', bs', hl, hf⟩
      · subst hl
        rw [List.append_nil] at hsplit
        exact absurd hfe (e5 (h, bs) (by rw [hsplit]; simp))
      · subst hl
        rcases last_record_split goods pre post (h', bs') (h, bs) hsplit with ⟨hp, hy⟩ | hmem
        · have hh : h = h' := (Prod.mk.inj hy).1
          subst hh
          refine ⟨rfl, hp, hclosing _, ?_⟩
          intro hne
          apply hf
          intro hc
          exact hne ((request_list_get_none _ _).mpr hc)
        · exact absurd hfe (e5 (h, bs) hmem)
  · rw [hs]
    refine ⟨0, s, rfl, Or.inl rfl, (fun h => by cases h), new, o4, ?_⟩
    intro pre h bs post hsplit hb
    exact absurd (hbad h hb) (o5 (h, bs) (by rw [hsplit]; simp))

theorem C12_framing_errors_abort_witness :
    ∃ ret st', fcgi_recv_response any_transition (fcgi_handle_pkg any_transition)
        sample_null_record_state = some (ret, st') ∧
      (ret = 0 ∨ ret = -1) ∧ (ret = -1 → st'.fd.state = FCGI_FD_CLOSING) ∧
      ∃ new, st'.handed = sample_null_record_state.handed ++ new ∧
        ∀ pre h bs post, new = pre ++ (h, bs) :: post →
          (request_list_get sample_null_record_state.rl h.req_id = none ∨ h.type = 0) →
          ret = -1 ∧ post = [] ∧ st'.fd.state = FCGI_FD_CLOSING ∧
          (request_list_get sample_null_record_state.rl h.req_id ≠ none →
            ∃ q', st'.rl.get? h.req_id = some q' ∧ q'.state = REQ_FAILED) :=
  C12_framing_errors_abort any_transition sample_null_record_state (fun _ _ => rfl)
    (fun _ => rfl)

theorem find_index_none {α : Type} (p : α → Bool) (l : List α)
    (h : ∀ x ∈ l, p x = false) : find_index p l = none := by
  induction l with
  | nil => rfl
  | cons a as ih =>
    unfold find_index
    rw [h a (List.mem_cons_self _ _)]
    simp [ih (fun x hx => h x (List.mem_cons_of_mem _ hx))]

theorem map_location_set (fdl : List fcgi_fd) (i : Nat) (fd fd' : fcgi_fd)
    (h : fdl.get? i = some fd) (hl : fd'.location_id = fd.location_id) :
    (fdl.set i fd').map (fun s => s.location_id) = fdl.map (fun s => s.location_id) := by
  induction fdl generalizing i with
  | nil => rfl
  | cons a as ih =>
    cases i with
    | zero =>
      simp at h
      subst h
      simp [hl]
    | succ n =>
      simp at h
      have h' : as.get? n = some fd := by simpa using h
      simp only [List.set_cons_succ, List.map_cons]
      rw [ih n h']

theorem slot_cap_map (fdl : List fcgi_fd) (l : Nat) :
    slot_cap fdl l = ((fdl.map (fun s => s.location_id)).filter (fun x => decide (x = l))).length := by
  unfold slot_cap
  rw [List.filter_map, List.length_map]
  rfl

theorem slot_cap_congr (fdl fdl' : List fcgi_fd) (l : Nat)
    (h : fdl'.map (fun s => s.location_id) = fdl.map (fun s => s.location_id)) :
    slot_cap fdl' l = slot_cap fdl l := by
  rw [slot_cap_map, slot_cap_map, h]

theorem busy_le_cap (fdl : List fcgi_fd) (l : Nat) : busy_slots fdl l ≤ slot_cap fdl l := by
  unfold busy_slots slot_cap
  apply List.Sublist.length_le
  apply List.monotone_filter_right
  intro a ha
  exact (Bool.and_eq_true _ _ ▸ ha).1

theorem busy_eq_cap_of_full (fdl : List fcgi_fd) (l : Nat)
    (h : ∀ s ∈ fdl, s.location_id = l → s.state ≠ FCGI_FD_AVAILABLE) :
    busy_slots fdl l = slot_cap fdl l := by
  unfold busy_slots slot_cap
  congr 1
  apply List.filter_congr
  intro s hs
  by_cases h1 : s.location_id = l
  · simp [h1, h s hs h1]
  · simp [h1]

theorem fcgi_fd_set_state_location (T : transitions) (fd fd' : fcgi_fd) (s : fcgi_fd_state)
    (h : fcgi_fd_set_state T fd s = some fd') :
    fd'.location_id = fd.location_id ∧ fd'.state = s ∧ fd'.fd = fd.fd := by
  unfold fcgi_fd_set_state at h
  by_cases hT : T.fd_ok fd.state s = true
  · rw [if_pos hT] at h
    have := Option.some.inj h
    subst this
    exact ⟨rfl, rfl, rfl⟩
  · rw [if_neg hT] at h
    cases h

theorem fcgi_fd_set_state_unchecked_location (T : transitions) (fd : fcgi_fd)
    (s : fcgi_fd_state) :
    (fcgi_fd_set_state_unchecked T fd s).location_id = fd.location_id := by
  unfold fcgi_fd_set_state_unchecked
  cases h : fcgi_fd_set_state T fd s with
  | none => rfl
  | some fd' => exact (fcgi_fd_set_state_location T fd fd' s h).1

theorem new_connection_full (T : transitions) (config : fcgi_config) (fdl : List fcgi_fd)
    (loc : Nat) (conn : Option Int) (ok : Bool)
    (h : ∀ s ∈ fdl, s.location_id = loc → s.state ≠ FCGI_FD_AVAILABLE) :
    fcgi_new_connection T config fdl loc conn ok = (0, fdl) := by
  have hn : fcgi_fd_list_get fdl (fun s => decide (s = FCGI_FD_AVAILABLE)) loc = none := by
    unfold fcgi_fd_list_get
    apply find_index_none
    intro x hx
    by_cases h1 : x.location_id = loc
    · simp [h x hx h1]
    · simp [h1]
  unfold fcgi_new_connection
  rw [hn]

theorem new_connection_locations (T : transitions) (config : fcgi_config) (fdl : List fcgi_fd)
    (loc : Nat) (conn : Option Int) (ok : Bool) :
    (fcgi_new_connection T config fdl loc conn ok).2.map (fun s => s.location_id) =
      fdl.map (fun s => s.location_id) := by
  unfold fcgi_new_connection
  cases h1 : fcgi_fd_list_get fdl (fun s => decide (s = FCGI_FD_AVAILABLE)) loc with
  | none => rfl
  | some i =>
    simp only []
    cases h2 : fdl.get? i with
    | none => rfl
    | some fd =>
      simp only []
      by_cases h3 : fd.server_id < config.server_count
      · rw [if_neg (not_not.mpr h3)]
        cases conn with
        | none => exact map_location_set fdl i fd _ h2 rfl
        | some s =>
          simp only []
          cases ok with
          | false =>
            simp only [Bool.false_eq_true, not_false_eq_true, if_true]
            exact map_location_set fdl i fd _ h2 rfl
          | true =>
            simp only [not_true_eq_false, if_false]
            exact map_location_set fdl i fd _ h2
              (fcgi_fd_set_state_unchecked_location T _ _)
      · rw [if_pos h3]

theorem wake_connection_full (T : transitions) (fdl : List fcgi_fd) (loc : Nat)
    (h : ∀ s ∈ fdl, s.location_id = loc → s.state ≠ FCGI_FD_AVAILABLE) :
    ∀ s ∈ (fcgi_wake_connection T fdl loc).2.1, s.location_id = loc →
      s.state ≠ FCGI_FD_AVAILABLE := by
  unfold fcgi_wake_connection
  cases h1 : fcgi_fd_list_get fdl
      (fun s => decide (s = FCGI_FD_SLEEPING) || decide (s = FCGI_FD_READY)) loc with
  | none => exact h
  | some i =>
    simp only []
    cases h2 : fdl.get? i with
    | none => exact h
    | some fd =>
      simp only []
      by_cases h3 : fd.state = FCGI_FD_SLEEPING
      · rw [if_pos h3]
        cases h4 : fcgi_fd_set_state T fd FCGI_FD_READY with
        | none => exact h
        | some fd' =>
          intro s hs hl
          rcases List.mem_or_eq_of_mem_set hs with hm | he
          · exact h s hm hl
          · rw [he, (fcgi_fd_set_state_location T fd fd' _ h4).2.1]
            decide
      · rw [if_neg h3]
        exact h

theorem wake_connection_locations (T : transitions) (fdl : List fcgi_fd) (loc : Nat) :
    (fcgi_wake_connection T fdl loc).2.1.map (fun s => s.location_id) =
      fdl.map (fun s => s.location_id) := by
  unfold fcgi_wake_connection
  cases h1 : fcgi_fd_list_get fdl
      (fun s => decide (s = FCGI_FD_SLEEPING) || decide (s = FCGI_FD_READY)) loc with
  | none => rfl
  | some i =>
    simp only []
    cases h2 : fdl.get? i with
    | none => rfl
    | some fd =>
      simp only []
      by_cases h3 : fd.state = FCGI_FD_SLEEPING
      · rw [if_pos h3]
        cases h4 : fcgi_fd_set_state T fd FCGI_FD_READY with
        | none => rfl
        | some fd' =>
          exact map_location_set fdl i fd fd' h2 (fcgi_fd_set_state_location T fd fd' _ h4).1
      · rw [if_neg h3]

theorem stage30_error_fdl (T : transitions) (cntx : fcgi_context) (j : Nat) :
    (stage30_error T cntx j).2.fdl = cntx.fdl := by
  unfold stage30_error
  cases cntx.rl.get? j with
  | none => rfl
  | some req =>
    simp only []
    split <;> rfl

theorem stage30_sleep_fdl (cntx : fcgi_context) (j : Nat) :
    (stage30_sleep cntx j).2.fdl = cntx.fdl := by
  unfold stage30_sleep
  cases cntx.rl.get? j with
  | none => rfl
  | some req => rfl

theorem stage30_locations (T : transitions) (config : fcgi_config) (cntx : fcgi_context)
    (socket : Int) (cs : Nat) (sr : mk_http_request) (location_id : Option Nat) (garbage : Mem)
    (env : List Nat) (conn : Option Int) (ok : Bool) :
    (mk_fastcgi_stage30 T config cntx socket cs sr location_id garbage env conn ok).2.fdl.map
        (fun s => s.location_id) = cntx.fdl.map (fun s => s.location_id) := by
  unfold mk_fastcgi_stage30
  cases request_list_get_by_fd cntx.rl socket with
  | some _ => rfl
  | none =>
    cases location_id with
    | none => rfl
    | some loc =>
      simp only []
      cases request_list_next_available cntx.rl loc with
      | none => rfl
      | some j =>
        simp only []
        cases cntx.rl.get? j with
        | none => rfl
        | some req =>
          simp only []
          cases request_assign T req socket loc cs sr with
          | none => simp only []; rw [stage30_error_fdl]
          | some req' =>
            simp only []
            by_cases hp : (prepare_request_iov garbage j
                (fcgi_config_get_location config req'.clock_id) env sr.data req'.iov).1 = 0
            · rw [if_neg (not_not.mpr hp)]
              have hw := wake_connection_locations T cntx.fdl loc
              by_cases hw0 : (fcgi_wake_connection T cntx.fdl loc).1 = 0
              · rw [if_neg (not_not.mpr hw0), stage30_sleep_fdl]
                exact hw
              · rw [if_pos hw0]
                have hn := new_connection_locations T config
                  (fcgi_wake_connection T cntx.fdl loc).2.1 loc conn ok
                by_cases hn0 : (fcgi_new_connection T config
                    (fcgi_wake_connection T cntx.fdl loc).2.1 loc conn ok).1 = 0
                · rw [if_neg (not_not.mpr hn0), stage30_sleep_fdl]
                  exact hn.trans hw
                · rw [if_pos hn0, stage30_error_fdl]
                  exact hn.trans hw
            · rw [if_pos hp, stage30_error_fdl]

theorem hangup_locations (T : transitions) (config : fcgi_config) (cntx : fcgi_context)
    (socket : Int) (conn : Option Int) (ok : Bool) :
    (hangup T config cntx socket conn ok).2.fdl.map (fun s => s.location_id) =
      cntx.fdl.map (fun s => s.location_id) := by
  unfold hangup
  cases h1 : fcgi_fd_list_get_by_fd cntx.fdl socket with
  | some i =>
    simp only []
    cases h2 : cntx.fdl.get? i with
    | none => rfl
    | some fd =>
      simp only []
      have hs := map_location_set cntx.fdl i fd
        { fd with fd := -1, state := FCGI_FD_AVAILABLE } h2 rfl
      by_cases h3 : fd.state = FCGI_FD_CLOSING
      · rw [if_pos h3]
        exact (new_connection_locations T config _ _ conn ok).trans hs
      · rw [if_neg h3]
        exact hs
  | none =>
    simp only []
    cases request_list_get_by_fd cntx.rl socket with
    | none => rfl
    | some j =>
      simp only []
      cases cntx.rl.get? j with
      | none => rfl
      | some req => rfl

theorem event_write_error_fdl (T : transitions) (cntx : fcgi_context) (j : Option Nat) :
    (event_write_error T cntx j).2.fdl = cntx.fdl := by
  unfold event_write_error
  cases j with
  | none => rfl
  | some j =>
    simp only []
    cases cntx.rl.get? j with
    | none => rfl
    | some req =>
      simp only []
      split <;> rfl

theorem event_write_sending_locations (T : transitions) (cntx : fcgi_context) (i : Nat)
    (fd : fcgi_fd) (w : write_event) (l : List Nat)
    (h : ∀ fd' : fcgi_fd, fd'.location_id = fd.location_id →
      (cntx.fdl.set i fd').map (fun s => s.location_id) = l)
    (h0 : cntx.fdl.map (fun s => s.location_id) = l) :
    (event_write_sending T cntx i fd w).2.fdl.map (fun s => s.location_id) = l := by
  unfold event_write_sending
  cases fd.begin_req with
  | none => simp only []; rw [event_write_error_fdl]; exact h0
  | some j =>
    simp only []
    cases cntx.rl.get? j with
    | none => simp only []; rw [event_write_error_fdl]; exact h0
    | some req =>
      simp only []
      cases w with
      | error => simp only []; rw [event_write_error_fdl]; exact h0
      | eagain => exact h0
      | accepted n =>
        simp only []
        split
        · exact h _ (fcgi_fd_set_state_unchecked_location T _ _)
        · exact h _ rfl

theorem event_write_locations (T : transitions) (cntx : fcgi_context) (socket : Int)
    (w : write_event) :
    (_mkp_event_write T cntx socket w).2.fdl.map (fun s => s.location_id) =
      cntx.fdl.map (fun s => s.location_id) := by
  unfold _mkp_event_write
  cases h1 : fcgi_fd_list_get_by_fd cntx.fdl socket with
  | none =>
    simp only []
    cases request_list_get_by_fd cntx.rl socket with
    | none => rfl
    | some j =>
      simp only []
      cases cntx.rl.get? j with
      | none => rfl
      | some req =>
        simp only []
        by_cases e1 : req.state = REQ_ENDED
        · rw [if_pos e1]
          by_cases e2 : (fcgi_send_response_headers req).1 = 0
          · rw [if_neg (not_not.mpr e2)]
            split
            · rw [event_write_error_fdl]
            · rfl
          · rw [if_pos e2, event_write_error_fdl]
        · rw [if_neg e1]
          split <;> rfl
  | some i =>
    simp only []
    cases h2 : cntx.fdl.get? i with
    | none => rfl
    | some fd =>
      simp only []
      by_cases e1 : fd.state = FCGI_FD_READY
      · rw [if_pos e1]
        cases request_list_next_assigned cntx.rl fd.location_id with
        | some j =>
          simp only []
          cases cntx.rl.get? j with
          | none => rfl
          | some req =>
            simp only []
            cases request_set_state T (request_set_fcgi_fd req fd.fd) REQ_SENT with
            | none => simp only []; rw [event_write_error_fdl]
            | some req' =>
              simp only [fcgi_fd_set_begin_req_iov]
              cases e4 : fcgi_fd_set_state T
                  { fd with begin_req := some j, begin_req_remain := chunk_iov_length req'.iov }
                  FCGI_FD_SENDING with
              | none =>
                simp only []
                rw [event_write_error_fdl]
                exact map_location_set cntx.fdl i fd _ h2 rfl
              | some fd' =>
                simp only []
                have hl := (fcgi_fd_set_state_location T _ fd' _ e4).1
                apply event_write_sending_locations
                · intro fd'' hfd''
                  simp only [List.set_set]
                  exact map_location_set cntx.fdl i fd _ h2 (hfd''.trans hl)
                · exact map_location_set cntx.fdl i fd _ h2 hl
        | none =>
          simp only []
          cases e4 : fcgi_fd_set_state T fd FCGI_FD_SLEEPING with
          | none => simp only []; rw [event_write_error_fdl]
          | some fd' =>
            exact map_location_set cntx.fdl i fd _ h2 (fcgi_fd_set_state_location T _ fd' _ e4).1
      · rw [if_neg e1]
        by_cases e2 : fd.state = FCGI_FD_SENDING
        · rw [if_pos e2]
          apply event_write_sending_locations
          · intro fd'' hfd''
            exact map_location_set cntx.fdl i fd _ h2 hfd''
          · rfl
        · rw [if_neg e2]

theorem recv_response_location (T : transitions) (hreq : ∀ s, T.req_ok s REQ_FAILED = true)
    (st : recv_state) (ret : Int) (st' : recv_state)
    (h : fcgi_recv_response T (fcgi_handle_pkg T) st = some (ret, st')) :
    st'.fd.location_id = st.fd.location_id := by
  unfold fcgi_recv_response at h
  simp only [] at h
  rcases recv_loop_trace T hreq (sock_bytes st.sock + 1) st _ (Nat.lt_succ_self _) with
    ⟨s, hs, _, e2, _⟩ | ⟨s, hs, _, o2, _⟩
  · rw [hs] at h
    have := (Prod.mk.inj (Option.some.inj h)).2
    rw [← this]
    exact (fcgi_fd_set_state_unchecked_location T _ _).trans e2
  · rw [hs] at h
    have := (Prod.mk.inj (Option.some.inj h)).2
    rw [← this]
    exact o2

theorem event_read_locations (T : transitions) (hreq : ∀ s, T.req_ok s REQ_FAILED = true)
    (config : fcgi_config) (cntx : fcgi_context) (socket : Int) (sock : List read_event)
    (r : plugin_ret × fcgi_context) (h : _mkp_event_read T config cntx socket sock = some r) :
    r.2.fdl.map (fun s => s.location_id) = cntx.fdl.map (fun s => s.location_id) := by
  unfold _mkp_event_read at h
  cases h1 : fcgi_fd_list_get_by_fd cntx.fdl socket with
  | none =>
    rw [h1] at h
    rw [← Option.some.inj h]
  | some i =>
    rw [h1] at h
    simp only [] at h
    cases h2 : cntx.fdl.get? i with
    | none =>
      rw [h2] at h
      rw [← Option.some.inj h]
    | some fd =>
      rw [h2] at h
      simp only [] at h
      cases h3 : fcgi_config_get_location config fd.location_id with
      | none =>
        rw [h3] at h
        rw [← Option.some.inj h]
      | some loc =>
        rw [h3] at h
        simp only [] at h
        cases h4 : fcgi_recv_response T (fcgi_handle_pkg T)
            { fd := fd, cl := cntx.cl, rl := cntx.rl, sock := sock, api := cntx.api,
              handed := [] } with
        | none =>
          rw [h4] at h
          cases h
        | some p =>
          obtain ⟨ret, st⟩ := p
          rw [h4] at h
          simp only [] at h
          have hl : st.fd.location_id = fd.location_id :=
            recv_response_location T hreq _ ret st h4
          have hset := map_location_set cntx.fdl i fd st.fd h2 hl
          by_cases e1 : ret = 0
          · rw [if_neg (not_not.mpr e1)] at h
            by_cases e2 : st.fd.state = FCGI_FD_READY
            · rw [if_pos e2] at h
              by_cases e3 : loc.keep_alive = true
              · rw [if_pos e3] at h
                rw [← Option.some.inj h]
                exact hset
              · rw [if_neg e3] at h
                cases e4 : fcgi_fd_set_state T st.fd FCGI_FD_CLOSING with
                | none =>
                  rw [e4] at h
                  rw [← Option.some.inj h]
                  exact hset
                | some fd' =>
                  rw [e4] at h
                  rw [← Option.some.inj h]
                  simp only [List.set_set]
                  exact map_location_set cntx.fdl i fd _ h2
                    ((fcgi_fd_set_state_location T _ fd' _ e4).1.trans hl)
            · rw [if_neg e2] at h
              by_cases e3 : st.fd.state = FCGI_FD_CLOSING
              · rw [if_pos e3] at h
                rw [← Option.some.inj h]
                exact hset
              · rw [if_neg e3] at h
                rw [← Option.some.inj h]
                exact hset
          · rw [if_pos e1] at h
            rw [← Option.some.inj h]
            exact hset

theorem request_assign_fields (T : transitions) (req req' : request) (fd : Int) (loc cs : Nat)
    (sr : mk_http_request) (h : request_assign T req fd loc cs sr = some req') :
    req'.clock_id = loc ∧ req'.state = REQ_ASSIGNED ∧ req'.fd = fd := by
  unfold request_assign request_set_state at h
  by_cases hT : T.req_ok req.state REQ_ASSIGNED = true
  · rw [if_pos hT] at h
    have := Option.some.inj h
    subst this
    exact ⟨rfl, rfl, rfl⟩
  · rw [if_neg hT] at h
    cases h

theorem stage30_sleep_parks (cntx : fcgi_context) (j : Nat) (q : request)
    (h : cntx.rl.get? j = some q) :
    stage30_sleep cntx j = (MK_PLUGIN_RET_CONTINUE,
      { cntx with rl := cntx.rl.set j { q with sleeping := true },
                  api := cntx.api ++
                    [api_call.event_socket_change_mode q.fd event_mode.MK_EVENT_SLEEP] }) := by
  unfold stage30_sleep
  rw [h]

/-- C13: when every Connection Slot of a location is in a state other than
`AVAILABLE`, `fcgi_new_connection` returns 0 and leaves the slot table as it
is, whatever a connect would give; `mk_fastcgi_stage30`, for a client request
that gets a free Request Record, is assigned and prepared, returns with that
record in `ASSIGNED` with the flag `REQ_SLEEPING` set and the client socket in
the mode `MK_EVENT_SLEEP`, the slots of the location still all busy.  Without
any condition, `mk_fastcgi_stage30`, `fcgi_wake_connection`,
`fcgi_new_connection`, `_mkp_event_write` and `hangup` keep the number of slots
of every location, so the busy slots of a location never exceed its cap; so
does `_mkp_event_read` when the state setter accepts the moves to `FAILED`. -/
theorem C13_full_location_parks (T : transitions) (config : fcgi_config) (cntx : fcgi_context)
    (socket : Int) (cs : Nat) (sr : mk_http_request) (loc : Nat) (garbage : Mem)
    (env : List Nat) (conn : Option Int) (ok : Bool)
    (hfull : ∀ s ∈ cntx.fdl, s.location_id = loc → s.state ≠ FCGI_FD_AVAILABLE) :
    fcgi_new_connection T config cntx.fdl loc conn ok = (0, cntx.fdl) ∧
    (∀ j req req' iov,
      request_list_get_by_fd cntx.rl socket = none →
      request_list_next_available cntx.rl loc = some j →
      cntx.rl.get? j = some req →
      request_assign T req socket loc cs sr = some req' →
      prepare_request_iov garbage j (fcgi_config_get_location config loc) env sr.data req'.iov =
        (0, iov) →
      ∃ cntx' q,
        mk_fastcgi_stage30 T config cntx socket cs sr (some loc) garbage env conn ok =
          (MK_PLUGIN_RET_CONTINUE, cntx') ∧
        cntx'.rl.get? j = some q ∧ q.sleeping = true ∧ q.state = REQ_ASSIGNED ∧
        q.fd = socket ∧ q.iov = iov ∧
        cntx'.api.getLast? =
          some (api_call.event_socket_change_mode socket event_mode.MK_EVENT_SLEEP) ∧
        (∀ s ∈ cntx'.fdl, s.location_id = loc → s.state ≠ FCGI_FD_AVAILABLE) ∧
        busy_slots cntx'.fdl loc = slot_cap cntx.fdl loc) ∧
    (∀ l location_id,
      slot_cap (mk_fastcgi_stage30 T config cntx socket cs sr location_id garbage env conn
        ok).2.fdl l = slot_cap cntx.fdl l ∧
      busy_slots (mk_fastcgi_stage30 T config cntx socket cs sr location_id garbage env conn
        ok).2.fdl l ≤ slot_cap cntx.fdl l) ∧
    (∀ l l',
      slot_cap (fcgi_new_connection T config cntx.fdl l' conn ok).2 l = slot_cap cntx.fdl l ∧
      busy_slots (fcgi_new_connection T config cntx.fdl l' conn ok).2 l ≤ slot_cap cntx.fdl l ∧
      slot_cap (fcgi_wake_connection T cntx.fdl l').2.1 l = slot_cap cntx.fdl l ∧
      busy_slots (fcgi_wake_connection T cntx.fdl l').2.1 l ≤ slot_cap cntx.fdl l) ∧
    (∀ l s w,
      slot_cap (_mkp_event_write T cntx s w).2.fdl l = slot_cap cntx.fdl l ∧
      busy_slots (_mkp_event_write T cntx s w).2.fdl l ≤ slot_cap cntx.fdl l ∧
      slot_cap (hangup T config cntx s conn ok).2.fdl l = slot_cap cntx.fdl l ∧
      busy_slots (hangup T config cntx s conn ok).2.fdl l ≤ slot_cap cntx.fdl l) ∧
    ((∀ s, T.req_ok s REQ_FAILED = true) → ∀ l s sock r,
      _mkp_event_read T config cntx s sock = some r →
      slot_cap r.2.fdl l = slot_cap cntx.fdl l ∧ busy_slots r.2.fdl l ≤ slot_cap cntx.fdl l) := by
  refine ⟨new_connection_full T config cntx.fdl loc conn ok hfull, ?_, ?_, ?_, ?_, ?_⟩
  · intro j req req' iov h1 h2 h3 h4 h5
    rcases request_assign_fields T req req' socket loc cs sr h4 with ⟨f1, f2, f3⟩
    have hwfull := wake_connection_full T cntx.fdl loc hfull
    have hwloc := wake_connection_locations T cntx.fdl loc
    have hnew := new_connection_full T config (fcgi_wake_connection T cntx.fdl loc).2.1 loc
      conn ok hwfull
    have hget : (cntx.rl.set j { req' with iov := iov }).get? j = some { req' with iov := iov } :=
      get_set_same cntx.rl j req _ h3
    have hbusy : busy_slots (fcgi_wake_connection T cntx.fdl loc).2.1 loc =
        slot_cap cntx.fdl loc := by
      rw [busy_eq_cap_of_full _ _ hwfull]
      exact slot_cap_congr _ _ _ hwloc
    unfold mk_fastcgi_stage30
    rw [h1]
    simp only []
    rw [h2]
    simp only []
    rw [h3]
    simp only []
    rw [h4]
    simp only []
    rw [← f1] at h5
    rw [h5]
    simp only [ne_eq, not_true_eq_false, if_false]
    by_cases hw0 : (fcgi_wake_connection T cntx.fdl loc).1 = 0
    · rw [if_neg (not_not.mpr hw0)]
      rw [stage30_sleep_parks _ j _ hget]
      refine ⟨_, _, rfl, get_set_same _ j _ _ hget, rfl, f2, f3, rfl, ?_, hwfull, hbusy⟩
      simp [f3]
    · rw [if_pos hw0, hnew]
      simp only [ne_eq, not_true_eq_false, if_false]
      rw [stage30_sleep_parks _ j _ hget]
      refine ⟨_, _, rfl, get_set_same _ j _ _ hget, rfl, f2, f3, rfl, ?_, hwfull, hbusy⟩
      simp [f3]
  · intro l location_id
    have h := slot_cap_congr _ _ l
      (stage30_locations T config cntx socket cs sr location_id garbage env conn ok)
    exact ⟨h, h ▸ busy_le_cap _ l⟩
  · intro l l'
    have h1 := slot_cap_congr _ _ l (new_connection_locations T config cntx.fdl l' conn ok)
    have h2 := slot_cap_congr _ _ l (wake_connection_locations T cntx.fdl l')
    exact ⟨h1, h1 ▸ busy_le_cap _ l, h2, h2 ▸ busy_le_cap _ l⟩
  · intro l s w
    have h1 := slot_cap_congr _ _ l (event_write_locations T cntx s w)
    have h2 := slot_cap_congr _ _ l (hangup_locations T config cntx s conn ok)
    exact ⟨h1, h1 ▸ busy_le_cap _ l, h2, h2 ▸ busy_le_cap _ l⟩
  · intro hreq l s sock r hr
    have h1 := slot_cap_congr _ _ l (event_read_locations T hreq config cntx s sock r hr)
    exact ⟨h1, h1 ▸ busy_le_cap _ l⟩

theorem C13_full_location_parks_witness :
    (∀ s ∈ sample_full_context.fdl, s.location_id = 0 → s.state ≠ FCGI_FD_AVAILABLE) ∧
    ∃ cntx' q,
      mk_fastcgi_stage30 any_transition sample_config sample_full_context 11 0
        sample_client_request (some 0) (fun _ => 0) [] none false =
        (MK_PLUGIN_RET_CONTINUE, cntx') ∧
      cntx'.rl.get? 1 = some q ∧ q.sleeping = true ∧ q.state = REQ_ASSIGNED ∧ q.fd = 11 ∧
      busy_slots cntx'.fdl 0 = slot_cap sample_full_context.fdl 0 := by
  have hfull : ∀ s ∈ sample_full_context.fdl, s.location_id = 0 →
      s.state ≠ FCGI_FD_AVAILABLE := by
    intro s hs _
    have : s = sample_fd := by simpa [sample_full_context] using hs
    rw [this]
    decide
  refine ⟨hfull, ?_⟩
  rcases (C13_full_location_parks any_transition sample_config sample_full_context 11 0
    sample_client_request 0 (fun _ => 0) [] none false hfull).2.1 1 sample_unused
    { sample_unused with state := REQ_ASSIGNED, fd := 11, clock_id := 0, cs := some 0,
                         sr := some sample_client_request }
    (prepare_request_iov (fun _ => 0) 1 (fcgi_config_get_location sample_config 0) []
      sample_client_request.data sample_unused.iov).2 rfl rfl rfl rfl rfl with
    ⟨cntx', q, h1, h2, h3, h4, h5, _, _, _, h9⟩
  exact ⟨cntx', q, h1, h2, h3, h4, h5, h9⟩

theorem find_index_append {α : Type} (p : α → Bool) (a b : List α)
    (h : ∀ x ∈ a, p x = false) :
    find_index p (a ++ b) = (find_index p b).map (· + a.length) := by
  induction a with
  | nil => simp
  | cons x xs ih =>
    have hx := h x (List.mem_cons_self _ _)
    have ih' := ih (fun y hy => h y (List.mem_cons_of_mem _ hy))
    have e : find_index p (x :: xs ++ b) =
        if p x then some 0 else (find_index p (xs ++ b)).map (· + 1) := rfl
    rw [e, hx, ih']
    cases find_index p b with
    | none => rfl
    | some k => simp [Nat.add_assoc]

theorem memchr_lf_line (line tail : List Nat) (len : Nat) (h10 : 10 ∉ line)
    (hlen : line.length + 2 ≤ len) :
    memchr_lf (line ++ 13 :: 10 :: tail) len = some (line.length + 1) := by
  unfold memchr_lf
  have ht : (line ++ 13 :: 10 :: tail).take len =
      line ++ 13 :: 10 :: tail.take (len - line.length - 2) := by
    rw [List.take_append_eq_append_take, List.take_of_length_le (by omega)]
    obtain ⟨m, hm⟩ : ∃ m, len - line.length = m + 2 := ⟨len - line.length - 2, by omega⟩
    rw [hm]
    simp
  rw [ht, find_index_append]
  · simp [find_index, Nat.add_comm]
  · intro x hx
    have : x ≠ 10 := fun e => h10 (e ▸ hx)
    simp [this]

theorem memchr_lf_blank (tail : List Nat) (len : Nat) (hlen : 2 ≤ len) :
    memchr_lf (13 :: 10 :: tail) len = some 1 := by
  have := memchr_lf_line [] tail len (by simp) (by simpa using hlen)
  simpa using this

theorem lit_lower_length (lit : String) :
    ((str_bytes lit).map ascii_lower).length = lit.length := by
  simp [str_bytes]

theorem strncasecmp_length (line : List Nat) (lit : String)
    (h : strncasecmp_eq line lit = true) : lit.length ≤ line.length := by
  unfold strncasecmp_eq at h
  have h' := of_decide_eq_true h
  have hl := congrArg List.length h'
  rw [lit_lower_length, List.length_map, List.length_take] at hl
  omega

theorem strncasecmp_append (line x : List Nat) (lit : String)
    (h13 : 13 ∉ (str_bytes lit).map ascii_lower) :
    strncasecmp_eq (line ++ 13 :: x) lit = strncasecmp_eq line lit := by
  by_cases hl : lit.length ≤ line.length
  · unfold strncasecmp_eq
    rw [List.take_append_of_le_length hl]
  · have h1 : strncasecmp_eq line lit = false := by
      cases h : strncasecmp_eq line lit with
      | false => rfl
      | true => exact absurd (strncasecmp_length line lit h) hl
    rw [h1]
    unfold strncasecmp_eq
    apply decide_eq_false
    intro he
    apply h13
    rw [← he]
    obtain ⟨m, hm⟩ : ∃ m, lit.length - line.length = m + 1 :=
      ⟨lit.length - line.length - 1, by omega⟩
    rw [List.take_append_eq_append_take, List.take_of_length_le (by omega), hm]
    simp [ascii_lower]

theorem scan_digits_append (a x : List Nat) (c acc n : Nat) (hc : ¬ (48 ≤ c ∧ c ≤ 57)) :
    scan_digits (a ++ c :: x) acc n = scan_digits a acc n := by
  induction a generalizing acc n with
  | nil => simp [scan_digits, hc]
  | cons d ds ih =>
    show scan_digits (d :: (ds ++ c :: x)) acc n = scan_digits (d :: ds) acc n
    unfold scan_digits
    by_cases hd : 48 ≤ d ∧ d ≤ 57
    · rw [if_pos hd, if_pos hd, ih]
    · rw [if_neg hd, if_neg hd]

theorem dropWhile_space_append (v x : List Nat)
    (h : v.any (fun c => !is_space c) = true) :
    (v ++ x).dropWhile is_space = v.dropWhile is_space ++ x ∧
      ∃ c r, v.dropWhile is_space = c :: r ∧ is_space c = false := by
  induction v with
  | nil => simp at h
  | cons d ds ih =>
    by_cases hd : is_space d = true
    · have h' : ds.any (fun c => !is_space c) = true := by
        simpa [List.any_cons, hd] using h
      rcases ih h' with ⟨i1, i2⟩
      constructor
      · show List.dropWhile is_space (d :: (ds ++ x)) = _
        rw [List.dropWhile_cons, List.dropWhile_cons, if_pos hd, if_pos hd]
        exact i1
      · rw [List.dropWhile_cons, if_pos hd]
        exact i2
    · have hd' : is_space d = false := by simpa using hd
      constructor
      · show List.dropWhile is_space (d :: (ds ++ x)) = _
        rw [List.dropWhile_cons, List.dropWhile_cons, if_neg hd, if_neg hd]
        rfl
      · rw [List.dropWhile_cons, if_neg hd]
        exact ⟨d, ds, rfl, hd'⟩

theorem sscanf_d_other (a r : List Nat) (c : Nat) (hne : a.dropWhile is_space = c :: r)
    (c45 : c ≠ 45) (c43 : c ≠ 43) :
    sscanf_d a = if (scan_digits (c :: r) 0 0).2 = 0 then none
                 else some ((scan_digits (c :: r) 0 0).1 : Int) := by
  unfold sscanf_d
  simp only []
  rw [hne]
  split
  · rename_i heq
    exact absurd (List.cons.inj heq).1 c45
  · rename_i heq
    exact absurd (List.cons.inj heq).1 c43
  · rfl

theorem sscanf_d_append (v x : List Nat) (h : v.any (fun c => !is_space c) = true) :
    sscanf_d (v ++ 13 :: x) = sscanf_d v := by
  rcases dropWhile_space_append v (13 :: x) h with ⟨h1, c, r, h2, _⟩
  have h13 : ¬ (48 ≤ 13 ∧ 13 ≤ 57) := by decide
  by_cases c45 : c = 45
  · subst c45
    unfold sscanf_d
    simp only []
    rw [h1, h2]
    show (match scan_digits (r ++ 13 :: x) 0 0 with
          | (y, n) => if n = 0 then none else some (- (y : Int))) = _
    rw [scan_digits_append r x 13 0 0 h13]
  · by_cases c43 : c = 43
    · subst c43
      unfold sscanf_d
      simp only []
      rw [h1, h2]
      show (match scan_digits (r ++ 13 :: x) 0 0 with
            | (y, n) => if n = 0 then none else some (y : Int)) = _
      rw [scan_digits_append r x 13 0 0 h13]
    · rw [sscanf_d_other v r c h2 c45 c43,
        sscanf_d_other (v ++ 13 :: x) (r ++ 13 :: x) c (by rw [h1, h2]; rfl) c45 c43,
        ← List.cons_append, scan_digits_append (c :: r) x 13 0 0 h13]

theorem drop_take_line (line tail : List Nat) (n : Nat) (hn : n ≤ line.length) :
    ((line ++ 13 :: 10 :: tail).drop n).take (line.length + 2 - n) = line.drop n ++ [13, 10] := by
  rw [List.drop_append_of_le_length hn]
  have e : line.length + 2 - n = (line.drop n).length + 2 := by
    rw [List.length_drop]; omega
  rw [e, List.take_append_eq_append_take, List.take_of_length_le (by omega)]
  simp

theorem drop_take_value (line tail : List Nat) (n : Nat) (hn : n ≤ line.length) :
    ((line ++ 13 :: 10 :: tail).drop n).take (line.length + 2 - n - 2) = line.drop n := by
  rw [List.drop_append_of_le_length hn]
  have e : line.length + 2 - n - 2 = (line.drop n).length := by
    rw [List.length_drop]; omega
  rw [e, List.take_append_eq_append_take, List.take_of_length_le (by omega)]
  simp

/-- What `fcgi_handle_cgi_header` does with one line of a header block is the
effect the specification words for that line. -/
theorem handle_cgi_header_line (hd : response_headers) (line tail : List Nat)
    (hok : cgi_line_ok line = true) :
    (fcgi_handle_cgi_header hd (line ++ 13 :: 10 :: tail) (line.length + 2)).2 =
      cgi_line_effect hd line := by
  have c1 : strncasecmp_eq (line ++ 13 :: 10 :: tail) "Content-type: " =
      strncasecmp_eq line "Content-type: " := strncasecmp_append _ _ _ (by decide)
  have c2 : strncasecmp_eq (line ++ 13 :: 10 :: tail) "Location: " =
      strncasecmp_eq line "Location: " := strncasecmp_append _ _ _ (by decide)
  have c3 : strncasecmp_eq (line ++ 13 :: 10 :: tail) "Status: " =
      strncasecmp_eq line "Status: " := strncasecmp_append _ _ _ (by decide)
  unfold fcgi_handle_cgi_header cgi_line_effect
  rw [c1, c2, c3]
  by_cases h1 : strncasecmp_eq line "Content-type: " = true
  · have hl : 14 ≤ line.length := strncasecmp_length _ _ h1
    rw [if_pos h1, if_pos h1]
    simp only []
    rw [drop_take_line line tail 14 hl]
  · rw [if_neg h1, if_neg h1]
    by_cases h2 : strncasecmp_eq line "Location: " = true
    · have hl : 10 ≤ line.length := strncasecmp_length _ _ h2
      rw [if_pos h2, if_pos h2]
      have e : (line ++ 13 :: 10 :: tail).getD (line.length + 2 - 2) 0 = 13 := by
        have e0 : line.length + 2 - 2 = line.length := by omega
        rw [e0, List.getD_eq_getElem?_getD, List.getElem?_append_right (Nat.le_refl _)]
        simp
      simp only []
      rw [e, if_pos rfl]
      rw [drop_take_value line tail 10 hl]
    · rw [if_neg h2, if_neg h2]
      by_cases h3 : strncasecmp_eq line "Status: " = true
      · have hl : 8 ≤ line.length := strncasecmp_length _ _ h3
        have hany : (line.drop 8).any (fun c => !is_space c) = true := by
          unfold cgi_line_ok at hok
          simp only [Bool.and_eq_true, Bool.or_eq_true, h3, Bool.not_true,
            Bool.false_eq_true, false_or] at hok
          exact hok.2
        rw [if_pos h3, if_pos h3, List.drop_append_of_le_length hl,
          sscanf_d_append _ _ hany]
        cases sscanf_d (line.drop 8) <;> rfl
      · rw [if_neg h3, if_neg h3]
        simp only []
        have e : (line ++ 13 :: 10 :: tail).take (line.length + 2) = line ++ [13, 10] := by
          rw [List.take_append_eq_append_take, List.take_of_length_le (by omega)]
          simp
        rw [e]

theorem cgi_block_cons (line : List Nat) (lines : List (List Nat)) :
    cgi_block (line :: lines) = line ++ 13 :: 10 :: cgi_block lines := by
  simp [cgi_block]

theorem cgi_line_ok_facts (line : List Nat) (h : cgi_line_ok line = true) :
    10 ∉ line ∧ 2 ≤ line.length := by
  unfold cgi_line_ok at h
  simp only [Bool.and_eq_true, decide_eq_true_eq] at h
  exact ⟨h.1.1, h.1.2⟩

/-- The loop of `fcgi_parse_cgi_headers` on a header block followed by the
blank line: it counts the block and the blank line, and applies the effect of
every line in order. -/
theorem parse_cgi_block (lines : List (List Nat)) :
    ∀ (fuel : Nat) (hd : response_headers) (tail : List Nat) (len cnt : Nat),
      (∀ line ∈ lines, cgi_line_ok line = true) → lines.length < fuel →
      cnt + (cgi_block lines).length + 2 ≤ len →
      parse_cgi_loop fuel hd (cgi_block lines ++ 13 :: 10 :: tail) len cnt =
        (cnt + (cgi_block lines).length + 2, lines.foldl cgi_line_effect hd) := by
  induction lines with
  | nil =>
    intro fuel hd tail len cnt _ hf hlen
    obtain ⟨f, rfl⟩ : ∃ f, fuel = f + 1 := ⟨fuel - 1, by simp at hf; omega⟩
    simp only [cgi_block, List.map_nil, List.flatten_nil, List.length_nil, Nat.add_zero,
      List.nil_append, List.foldl_nil] at hlen ⊢
    unfold parse_cgi_loop
    rw [if_pos (by omega), memchr_lf_blank tail len (by omega)]
    simp
  | cons line lines ih =>
    intro fuel hd tail len cnt hok hf hlen
    obtain ⟨f, rfl⟩ : ∃ f, fuel = f + 1 := ⟨fuel - 1, by simp at hf; omega⟩
    have hline := hok line (List.mem_cons_self _ _)
    obtain ⟨h10, h2⟩ := cgi_line_ok_facts line hline
    rw [cgi_block_cons] at hlen ⊢
    simp only [List.length_append, List.length_cons] at hlen
    rw [List.append_assoc]
    show parse_cgi_loop (f + 1) hd (line ++ 13 :: 10 :: (cgi_block lines ++ 13 :: 10 :: tail))
      len cnt = _
    unfold parse_cgi_loop
    rw [if_pos (by omega), memchr_lf_line line _ len h10 (by omega)]
    simp only []
    rw [if_neg (by omega), handle_cgi_header_line hd line _ hline]
    have hd2 : (line ++ 13 :: 10 :: (cgi_block lines ++ 13 :: 10 :: tail)).drop
        (line.length + 1 + 1) = cgi_block lines ++ 13 :: 10 :: tail := by
      rw [List.drop_append_eq_append_drop, List.drop_of_length_le (by omega)]
      have : line.length + 1 + 1 - line.length = 2 := by omega
      rw [this]
      rfl
    rw [hd2, ih f _ tail len _ (fun l hl => hok l (List.mem_cons_of_mem _ hl))
      (by simp at hf; omega) (by omega)]
    simp only [List.foldl_cons, List.length_append, List.length_cons]
    congr 1
    omega

theorem cgi_block_length (lines : List (List Nat)) : lines.length ≤ (cgi_block lines).length := by
  induction lines with
  | nil => simp
  | cons l ls ih =>
    rw [cgi_block_cons]
    simp only [List.length_append, List.length_cons]
    omega

theorem cgi_fold_status (lines : List (List Nat)) (hd : response_headers)
    (h : ∀ line ∈ lines, strncasecmp_eq line "Status: " = false) :
    (lines.foldl cgi_line_effect hd).status = hd.status := by
  induction lines generalizing hd with
  | nil => rfl
  | cons l ls ih =>
    rw [List.foldl_cons, ih _ (fun x hx => h x (List.mem_cons_of_mem _ hx))]
    have hl := h l (List.mem_cons_self _ _)
    unfold cgi_line_effect
    rw [hl]
    split
    · rfl
    · split
      · rfl
      · rfl

theorem parse_cgi_headers_block (hd : response_headers) (iov : chunk_iov)
    (lines : List (List Nat)) (body after : List Nat) (rest : List iovec)
    (hio : iov.io = { iov_base := cgi_block lines ++ [13, 10] ++ body, after := after } :: rest)
    (hok : ∀ line ∈ lines, cgi_line_ok line = true) :
    fcgi_parse_cgi_headers hd iov =
      ((cgi_block lines).length + 2, lines.foldl cgi_line_effect hd) := by
  unfold fcgi_parse_cgi_headers
  rw [hio]
  simp only []
  have e : cgi_block lines ++ [13, 10] ++ body ++ after =
      cgi_block lines ++ 13 :: 10 :: (body ++ after) := by simp
  have hb := cgi_block_length lines
  rw [e, parse_cgi_block lines _ hd (body ++ after) _ 0 hok
    (by simp only [List.length_append, List.length_cons, List.length_nil]; omega)
    (by simp only [List.length_append, List.length_cons, List.length_nil]; omega)]
  simp

/-- C11 (the claim as worded, at its own witness): for the payload
`Status: 404\r\nContent-type: text/plain\r\n\r\nNot found` in one vector entry
the status is 404, the body is `Not found` and the content length 9, but the
content type handed to the host is `text/plain\r\n`, the value with the CR LF
of its line, not the value `text/plain`.  When the header block ends the first
vector entry and the blank line starts the second one, the blank line is not
dropped: the body is `\r\nNot found` and the content length 11. -/
theorem C11_payload_counterexample :
    (∃ req' hd,
      fcgi_send_response_headers sample_cgi_request =
        (0, req', [api_call.header_send 9 hd]) ∧
      hd.status = 404 ∧ hd.content_type = some (str_bytes "text/plain\r\n") ∧
      hd.content_type ≠ some (str_bytes "text/plain") ∧
      chunk_iov_bytes req'.iov = str_bytes "Not found" ∧ hd.content_length = 9) ∧
    (∃ req' hd,
      fcgi_send_response_headers sample_cgi_split = (0, req', [api_call.header_send 9 hd]) ∧
      hd.status = 404 ∧ chunk_iov_bytes req'.iov = str_bytes "\r\nNot found" ∧
      chunk_iov_bytes req'.iov ≠ str_bytes "Not found" ∧ hd.content_length = 11) := by
  constructor
  · exact ⟨_, _, rfl, rfl, rfl, by decide, rfl, rfl⟩
  · exact ⟨_, _, rfl, rfl, rfl, by decide, rfl⟩

/-- C11 (amended): for a request whose headers are not yet sent and whose
first vector entry holds header lines each ended by CR LF (no line feed inside
a line, at least two bytes in a line, a byte other than white space after
`Status: `), then the blank line CR LF, then body bytes: header translation
returns 0 and sends the headers once; the headers are those of the request
with status 200, changed by every line in order (the status is the integer of
a `Status` line, the content type the value of a `Content-type` line followed
by CR LF, the location the value of a `Location` line, any other line is an
extra row with its CR LF); the status is 200 when there is no `Status` line;
exactly the header block and the blank line are dropped; the response body is
the body bytes of the first entry followed by the other entries, and the
content length is its length. -/
theorem C11_header_translation (req : request) (sr : mk_http_request)
    (lines : List (List Nat)) (body after : List Nat) (rest : List iovec)
    (hsent : req.headers_sent = false) (hsr : req.sr = some sr)
    (hio : req.iov.io =
      { iov_base := cgi_block lines ++ [13, 10] ++ body, after := after } :: rest)
    (hok : ∀ line ∈ lines, cgi_line_ok line = true) :
    ∃ req' hd,
      fcgi_send_response_headers req = (0, req', [api_call.header_send req.fd hd]) ∧
      hd = { lines.foldl cgi_line_effect { sr.headers with status := MK_HTTP_OK, cgi := false }
             with content_length := (body ++ (rest.map (fun e => e.iov_base)).flatten).length } ∧
      ((∀ line ∈ lines, strncasecmp_eq line "Status: " = false) → hd.status = 200) ∧
      chunk_iov_bytes req'.iov = body ++ (rest.map (fun e => e.iov_base)).flatten ∧
      chunk_iov_bytes req'.iov = (chunk_iov_bytes req.iov).drop ((cgi_block lines).length + 2) ∧
      req'.headers_sent = true ∧
      req'.sr = some { sr with headers := { hd with location := none } } := by
  have hparse := parse_cgi_headers_block
    { sr.headers with status := MK_HTTP_OK, cgi := false } req.iov lines body after rest hio hok
  have hbytes : chunk_iov_bytes req.iov =
      cgi_block lines ++ 13 :: 10 :: (body ++ (rest.map (fun e => e.iov_base)).flatten) := by
    unfold chunk_iov_bytes
    rw [hio]
    simp
  have hdropb : (chunk_iov_bytes req.iov).drop ((cgi_block lines).length + 2) =
      body ++ (rest.map (fun e => e.iov_base)).flatten := by
    rw [hbytes, List.drop_append_eq_append_drop, List.drop_of_length_le (by omega)]
    have : (cgi_block lines).length + 2 - (cgi_block lines).length = 2 := by omega
    rw [this]
    rfl
  have hlen : (cgi_block lines).length + 2 ≤ chunk_iov_length req.iov := by
    rw [chunk_iov_length_eq, hbytes]
    simp only [List.length_append, List.length_cons]
    omega
  cases hdrop : chunk_iov_drop req.iov ((cgi_block lines).length + 2) with
  | none =>
    unfold chunk_iov_drop at hdrop
    rw [if_pos hlen] at hdrop
    cases hdrop
  | some iov' =>
    obtain ⟨d1, d2⟩ := chunk_iov_drop_bytes req.iov iov' _ hdrop
    have hcl : chunk_iov_length iov' =
        (body ++ (rest.map (fun e => e.iov_base)).flatten).length := by
      rw [chunk_iov_length_eq, d1, hdropb]
    have hres : fcgi_send_response_headers req =
        (0, { req with
                sr := some { sr with headers :=
                  { lines.foldl cgi_line_effect
                      { sr.headers with status := MK_HTTP_OK, cgi := false } with
                    content_length := chunk_iov_length iov', location := none } },
                iov := iov', headers_sent := true },
         [api_call.header_send req.fd
            { lines.foldl cgi_line_effect
                { sr.headers with status := MK_HTTP_OK, cgi := false } with
              content_length := chunk_iov_length iov' }]) := by
      unfold fcgi_send_response_headers
      rw [hsent, hsr]
      simp only [Bool.false_eq_true, if_false]
      rw [hparse]
      simp only []
      rw [hdrop]
    rw [hres, hcl]
    refine ⟨_, _, rfl, rfl, ?_, ?_, ?_, rfl, ?_⟩
    · intro hno
      exact cgi_fold_status lines _ hno
    · exact d1.trans hdropb
    · exact d1
    · simp only [hcl]

theorem C11_header_translation_witness :
    ∃ req' hd,
      fcgi_send_response_headers sample_cgi_request =
        (0, req', [api_call.header_send sample_cgi_request.fd hd]) ∧
      hd = { [str_bytes "Status: 404", str_bytes "Content-type: text/plain"].foldl cgi_line_effect
               { sample_headers with status := MK_HTTP_OK, cgi := false }
             with content_length :=
               (str_bytes "Not found" ++
                 (([] : List iovec).map (fun e => e.iov_base)).flatten).length } ∧
      ((∀ line ∈ [str_bytes "Status: 404", str_bytes "Content-type: text/plain"],
          strncasecmp_eq line "Status: " = false) → hd.status = 200) ∧
      chunk_iov_bytes req'.iov =
        str_bytes "Not found" ++ (([] : List iovec).map (fun e => e.iov_base)).flatten ∧
      chunk_iov_bytes req'.iov = (chunk_iov_bytes sample_cgi_request.iov).drop
        ((cgi_block [str_bytes "Status: 404", str_bytes "Content-type: text/plain"]).length + 2) ∧
      req'.headers_sent = true ∧
      req'.sr = some { ({ data := [], headers := sample_headers } : mk_http_request) with
                       headers := { hd with location := none } } :=
  C11_header_translation sample_cgi_request { data := [], headers := sample_headers }
    [str_bytes "Status: 404", str_bytes "Content-type: text/plain"] (str_bytes "Not found") [] []
    rfl rfl rfl (by decide)


end Monkey
